import Mathlib

/-!
# lua-postgres: the wire primitives, connections and results

A shallow embedding of `src/unpack.c` (`unpack_lua`), `src/strxor.c`
(`strxor_lua`), `src/htons.c`, `src/ntohl.c`, `src/pgconn.c`,
`src/pgresult.c` and `get_result_stat_lua` of `src/util.c` (with the helpers
of `src/lua_postgres.h`), followed by theorems about them.

Conventions of the embedding

* A Lua string is a `List Byte`; a C format string is a `List Char`, read up
  to its first NUL (or the end of the list, which stands for the terminator).
* The Lua table passed as first argument is a function from integer keys to
  optional values; `lua_rawseti` is `Function.update`.
* `head` is kept as the offset `head - data`; `len` is the `size_t` budget of
  remaining bytes; `msglen` is the `int32_t` with sentinel `-1`; `pre_iv` is
  the `intmax_t` with sentinel `INTMAX_MIN`.
* The union `v` is not kept in the state: it is read back only right after a
  loop of exactly one iteration (`k == 1`, and `L` never has a modifier), where
  it holds the integer decoded at the directive's start offset.
* `idx` is an `int` in the source; it is unbounded here (it counts the values
  stored, one per `lua_rawseti`).
* The methods of `pgconn.c` and `pgresult.c` are functions of the userdata,
  the arguments and a world; libpq is an oracle (`Env.reply`) and every call
  into it is logged, so that "no native call" and "called once" are
  statements about the log.  A C string is a `String`.
-/

namespace Postgres

/-- An octet of a Lua string (`unsigned char`). -/
abbrev Byte := UInt8

/-- The Lua values `unpack` stores in the output table. -/
inductive LuaValue where
  | integer (n : Int)
  | string (s : List Byte)
  deriving DecidableEq, Repr

/-- The Lua table at stack index 1, seen through `lua_rawseti`. -/
abbrev LuaTable := Nat → Option LuaValue

/-- The ways `unpack_lua` leaves: `return 1` with the consumed byte count,
`return 3` with `nil, nil, true`, `return 2` with `nil, message`, and the
raised `luaL_argerror(L, 1, message)`. -/
inductive Outcome where
  | consumed (n : Nat)
  | notEnough
  | failure (msg : String)
  | argError (msg : String)
  deriving DecidableEq, Repr

/-- What the caller observes: how the call left, and the argument table. -/
structure UnpackResult where
  outcome : Outcome
  out : LuaTable

/-- The local variables of `unpack_lua` that live across loop iterations. -/
structure UnpackState where
  head : Nat
  len : Nat
  msglen : Int
  pre_iv : Int
  idx : Nat
  out : LuaTable

def INTMAX_MIN : Int := -(2 ^ 63)

def INT32_MAX : Nat := 2 ^ 31 - 1

/-- The jump targets of the computed goto. -/
inductive Label where
  | UNPACK_NTOHS
  | UNPACK_NTOHL
  | UNPACK_STRING
  | UNPACK_BYTE
  deriving DecidableEq, Repr

/-- The character `*fmt`: the terminator when the list is exhausted. -/
def peek (fmt : List Char) : Char := fmt.headD '\x00'

/-- The octet `data[i]` as an unsigned number. -/
def byteAt (data : List Byte) (i : Nat) : Nat := (data.getD i 0).toNat

/-- Conversion of a 16-bit pattern to `int16_t`. -/
def toInt16 (u : Nat) : Int := if u % 2 ^ 16 < 2 ^ 15 then (u % 2 ^ 16 : Nat) else (u % 2 ^ 16 : Nat) - 2 ^ 16

/-- Conversion of a 32-bit pattern to `int32_t`. -/
def toInt32 (u : Nat) : Int := if u % 2 ^ 32 < 2 ^ 31 then (u % 2 ^ 32 : Nat) else (u % 2 ^ 32 : Nat) - 2 ^ 32

/-- The value `v.i16 = ntohs(*(int16_t *)head)` for `head = data + p`. -/
def ntohs (data : List Byte) (p : Nat) : Int :=
  toInt16 (byteAt data p * 2 ^ 8 + byteAt data (p + 1))

/-- The value `v.i32 = ntohl(*(int32_t *)head)` for `head = data + p`. -/
def ntohl (data : List Byte) (p : Nat) : Int :=
  toInt32 (byteAt data p * 2 ^ 24 + byteAt data (p + 1) * 2 ^ 16 + byteAt data (p + 2) * 2 ^ 8
    + byteAt data (p + 3))

/-- The call `lua_pushlstring(L, head, n)` for `head = data + p`. -/
def lstring (data : List Byte) (p n : Nat) : List Byte := (data.drop p).take n

/-- The call `memchr(s, c, n)` on the first `n` octets of `s`, as an offset. -/
def memchr (c : Byte) : List Byte → Option Nat
  | [] => none
  | x :: xs => if x = c then some 0 else (memchr c xs).map (· + 1)

/-- The `switch (t)` on the type specifier: unit size and jump target. -/
def typeSpecifier (t : Char) (msglen : Int) : Except String (Nat × Label) :=
  if t = 'h' then .ok (2, .UNPACK_NTOHS)
  else if t = 'L' then
    if msglen ≠ -1 then
      .error "invalid format string: message length specifier 'L' must be specified only once"
    else .ok (4, .UNPACK_NTOHL)
  else if t = 'i' then .ok (4, .UNPACK_NTOHL)
  else if t = 's' then .ok (1, .UNPACK_STRING)
  else if t = 'b' then .ok (1, .UNPACK_BYTE)
  else .error ("invalid format string: unknown type specifier '" ++ String.singleton t ++ "'")

/-- The `do ... while (isdigit(*fmt))` loop converting the digits to `mod`. -/
def digits : List Char → Nat → Except String (Nat × List Char)
  | [], mod => .ok (mod, [])
  | c :: fmt, mod =>
    let mod := mod * 10 + (c.toNat - '0'.toNat)
    if mod > INT32_MAX then
      .error "invalid format string: length modifier must be less than or equal to INT32_MAX"
    else if (peek fmt).isDigit then digits fmt mod
    else .ok (mod, fmt)

/-- The length-modifier part of one loop iteration: the count `k` and the
format pointer after the modifier. -/
def lengthModifier (t : Char) (fmt : List Char) (pre_iv : Int) : Except String (Nat × List Char) :=
  if (peek fmt).isDigit then
    if t = 'L' then
      .error "invalid format string: digit length modifier can not be specified for the type specifier 'L'"
    else
      match digits fmt 0 with
      | .error msg => .error msg
      | .ok (mod, fmt) =>
        if mod = 0 then .error "invalid format string: length modifier must be greater than zero"
        else .ok (mod, fmt)
  else if peek fmt = '*' then
    if t ≠ 'h' ∧ t ≠ 'i' ∧ t ≠ 'b' then
      .error "invalid format string: length modifier '*' must be specified only for the type specifier 'h', 'i' or 'b'"
    else if pre_iv = INTMAX_MIN then
      .error "invalid format string: type specifiers with the length modifier '*' must be preceded by the integer type specifier 'i', 'h' or 'L' without the length modifier."
    else if pre_iv < 0 then .ok (0, fmt.tail)
    else .ok (pre_iv.toNat, fmt.tail)
  else if t = 'b' then
    .error "invalid format string: type specifier 'b' must be followed by length modifier"
  else .ok (1, fmt)

/-- The `for` loop under `UNPACK_NTOHS`. -/
def loopNtohs (data : List Byte) : Nat → UnpackState → UnpackState
  | 0, st => st
  | k + 1, st =>
    loopNtohs data k
      { st with out := Function.update st.out st.idx (some (.integer (ntohs data st.head)))
                idx := st.idx + 1
                head := st.head + 2 }

/-- The `for` loop under `UNPACK_NTOHL`. -/
def loopNtohl (data : List Byte) : Nat → UnpackState → UnpackState
  | 0, st => st
  | k + 1, st =>
    loopNtohl data k
      { st with out := Function.update st.out st.idx (some (.integer (ntohl data st.head)))
                idx := st.idx + 1
                head := st.head + 4 }

/-- The `for` loop under `UNPACK_STRING`; it may leave the function. -/
def loopString (data : List Byte) : Nat → UnpackState → Except UnpackResult UnpackState
  | 0, st => .ok st
  | k + 1, st =>
    match memchr 0 (lstring data st.head st.len) with
    | none =>
      if st.msglen = -1 then .error ⟨.notEnough, st.out⟩
      else
        .error ⟨.failure ("unable to unpack string data: message length specified as "
          ++ toString st.msglen ++ " is insufficient to unpack the string data"), st.out⟩
    | some slen =>
      loopString data k
        { st with out := Function.update st.out st.idx (some (.string (lstring data st.head slen)))
                  idx := st.idx + 1
                  head := st.head + (slen + 1)
                  len := st.len - (slen + 1) }

/-- The labeled statements: the part of one iteration after `goto *label`.
Here `fmt` is the format pointer after the directive, `k` the count and
`consume` the unit size times `k`. -/
def unpackLabel (data : List Byte) (label : Label) (t : Char) (fmt : List Char) (k consume : Nat)
    (st : UnpackState) : Except UnpackResult UnpackState :=
  match label with
  | .UNPACK_NTOHS =>
    let st1 := loopNtohs data k st
    let st2 := if k = 1 then { st1 with pre_iv := ntohs data st.head } else st1
    .ok { st2 with len := st2.len - consume }
  | .UNPACK_NTOHL =>
    let st1 := loopNtohl data k st
    if t = 'L' then
      let msglen := ntohl data st.head
      if msglen < 4 then
        .error ⟨.failure "invalid message length: message length must be greater than or equal to its own length", st1.out⟩
      else if (st1.len : Int) < msglen then .error ⟨.notEnough, st1.out⟩
      else
        let st2 := { st1 with msglen := msglen, len := msglen.toNat }
        let st3 := if peek fmt = 'b' then { st2 with pre_iv := msglen - 4 } else st2
        .ok { st3 with len := st3.len - consume }
    else
      let st2 := if k = 1 then { st1 with pre_iv := ntohl data st.head } else st1
      .ok { st2 with len := st2.len - consume }
  | .UNPACK_STRING => loopString data k st
  | .UNPACK_BYTE =>
    .ok { st with out := Function.update st.out st.idx (some (.string (lstring data st.head k)))
                  idx := st.idx + 1
                  head := st.head + k
                  len := st.len - k }

/-- How one iteration of the `while` loop ends: the function returns (or
raises), or the loop goes on with the format pointer and the locals given. -/
inductive Step where
  | done (r : UnpackResult)
  | next (fmt : List Char) (st : UnpackState)

/-- One iteration of the `while (*fmt != '\0')` loop, for the type specifier
`t = *fmt` and the format pointer `fmt` after `fmt++`. -/
def directive (data : List Byte) (t : Char) (fmt : List Char) (st : UnpackState) : Step :=
  match typeSpecifier t st.msglen with
  | .error msg => .done ⟨.argError msg, st.out⟩
  | .ok (unit, label) =>
    match lengthModifier t fmt st.pre_iv with
    | .error msg => .done ⟨.argError msg, st.out⟩
    | .ok (k, fmt) =>
      -- reset preceding integer value
      let st := { st with pre_iv := INTMAX_MIN }
      -- check the number of remaining bytes required
      let consume := unit * k
      if st.len < consume then .done ⟨.notEnough, st.out⟩
      else
        match unpackLabel data label t fmt k consume st with
        | .error r => .done r
        | .ok st => .next fmt st

/-- The `while (*fmt != '\0')` loop of `unpack_lua` and the final
`lua_pushinteger(L, head - data)`.  Every iteration moves the format pointer
forward, so a fuel of the format's length is never used up; `none` stands for
running out of it. -/
def unpackLoop (data : List Byte) : Nat → List Char → UnpackState → Option UnpackResult
  | _, [], st => some ⟨.consumed st.head, st.out⟩
  | 0, _ :: _, _ => none
  | fuel + 1, t :: fmt, st =>
    if t = '\x00' then some ⟨.consumed st.head, st.out⟩
    else
      match directive data t fmt st with
      | .done r => some r
      | .next fmt st => unpackLoop data fuel fmt st

/-- The state at loop entry. -/
def initState (out : LuaTable) (data : List Byte) : UnpackState :=
  { head := 0, len := data.length, msglen := -1, pre_iv := INTMAX_MIN, idx := 1, out := out }

/-- The function `unpack_lua(out, fmt, data)`. -/
def unpack_lua (out : LuaTable) (fmt : List Char) (data : List Byte) : Option UnpackResult :=
  unpackLoop data fmt.length fmt (initState out data)

/-- The format pointer and the locals after `n` complete iterations of the
`while` loop, when the loop gets that far: `none` when the function has
returned before or the format ended. -/
def unpackIter (data : List Byte) : Nat → List Char → UnpackState → Option (List Char × UnpackState)
  | 0, fmt, st => some (fmt, st)
  | _ + 1, [], _ => none
  | n + 1, t :: fmt, st =>
    if t = '\x00' then none
    else
      match directive data t fmt st with
      | .done _ => none
      | .next fmt st => unpackIter data n fmt st

/-- The budget invariant: the bytes still allowed lie within the data, and
they are all of the rest of the data as long as no `L` was decoded. -/
def Budget (data : List Byte) (st : UnpackState) : Prop :=
  st.head + st.len ≤ data.length ∧ (st.msglen = -1 → st.head + st.len = data.length)

/-- The budget `l` of a run on the truncated data `d`, against the state `st`
of the run on the full data: it is no larger, it lies within `d`, and it is
the same once an `L` has capped it. -/
def Trunc (d : List Byte) (st : UnpackState) (l : Nat) : Prop :=
  l ≤ st.len ∧ st.head + l ≤ d.length ∧ (st.msglen ≠ -1 → l = st.len)

/-- The big-endian two's-complement encoding of a 32-bit integer (`pack32`). -/
def be32 (n : Int) : List Byte :=
  let u := (n % 2 ^ 32).toNat
  [UInt8.ofNat (u / 2 ^ 24), UInt8.ofNat (u / 2 ^ 16), UInt8.ofNat (u / 2 ^ 8), UInt8.ofNat u]

/-- A table with no entry. -/
def emptyTable : LuaTable := fun _ => none

/-- The table after `lua_rawseti` of the values `vals` at the successive
indices `idx`, `idx + 1`, ... -/
def storeList (out : LuaTable) (idx : Nat) : List LuaValue → LuaTable
  | [] => out
  | v :: vs => storeList (Function.update out idx (some v)) (idx + 1) vs

/-- The first `k` byte strings of `data` that a NUL byte ends, in the words of
the specification: each is the bytes before the next NUL, without it, and the
next one starts right after that NUL. -/
def cstrings : Nat → List Byte → List (List Byte)
  | 0, _ => []
  | k + 1, data =>
    data.takeWhile (fun b => b != 0) :: cstrings k ((data.dropWhile (fun b => b != 0)).drop 1)

/-- The number that a sequence of decimal digits writes. -/
def decimalValue (ds : List Char) : Nat :=
  ds.foldl (fun acc c => acc * 10 + (c.toNat - '0'.toNat)) 0

/-- The count of a directive followed by the digits `ds`: 1 when there is
none. -/
def directiveCount (ds : List Char) : Nat :=
  if ds = [] then 1 else decimalValue ds

/-! ## `strxor_lua` -/

/-- The locals of `strxor_lua` that change in its loop: the scratch buffer
`buf[BUFSIZ]`, its fill count `len` and the contents of the `luaL_Buffer b`. -/
structure XorState where
  buf : List Byte
  len : Nat
  b : List Byte

/-- The `for` loop of `strxor_lua`; the lists are `s1 + i` and `s2 + i`. -/
def strxorLoop (BUFSIZ : Nat) : List Byte → List Byte → XorState → XorState
  | x :: s1, y :: s2, st =>
    let buf := st.buf.set st.len (x ^^^ y)
    let len := st.len + 1
    if len = BUFSIZ then strxorLoop BUFSIZ s1 s2 { buf := buf, len := 0, b := st.b ++ buf.take len }
    else strxorLoop BUFSIZ s1 s2 { buf := buf, len := len, b := st.b }
  | _, _, st => st

/-- The function `strxor_lua(s1, s2)`; `BUFSIZ` is the constant of `<stdio.h>`.
An error is the message raised with `lua_error`. -/
def strxor_lua (BUFSIZ : Nat) (s1 s2 : List Byte) : Except String (List Byte) :=
  if s1.length ≠ s2.length then
    .error "invalid arguments: both strings must be the same length"
  else
    let st := strxorLoop BUFSIZ s1 s2 { buf := List.replicate BUFSIZ 0, len := 0, b := [] }
    if st.len ≠ 0 then .ok (st.b ++ st.buf.take st.len) else .ok st.b

/-! ## `htons_lua` and `ntohl_lua` -/

/-- The function `htons_lua`, from the `int16_t n` that `lauxh_checkint16(L, 1)`
returned: the two bytes of `n = htons(n)` as they lie in memory, which is what
`lua_pushlstring(L, (const char *)&n, sizeof(int16_t))` pushes. -/
def htons_lua (n : Int) : List Byte :=
  let u := (n % 2 ^ 16).toNat
  [UInt8.ofNat (u / 2 ^ 8), UInt8.ofNat u]

/-- The function `ntohl_lua(str)`.  An error is the message given to
`lauxh_argerror(L, 1, ...)`. -/
def ntohl_lua (str : List Byte) : Except String Int :=
  if str.length < 4 then .error "invalid length"
  else .ok (ntohl str 0)

/-! ## The Lua and libpq boundary of `pgconn.c` and `pgresult.c`

A method is a function of its userdata (`pgconn_t` or `pgresult_t`, stack
index 1), of the further arguments (stack indices 2 and up), of the
environment `Env` that answers the calls into libpq, and of the `World`
(`errno`, the log of the calls made, the Lua registry).  It gives back what it
returns or raises, the userdata and the world as it leaves them. -/

/-- A non-null pointer handed out by libpq or by the C library. -/
abbrev Ptr := Nat

/-- The reference `LUA_NOREF` of `lauxlib.h`. -/
def LUA_NOREF : Int := -2

/-- The reference `LUA_REFNIL` of `lauxlib.h`. -/
def LUA_REFNIL : Int := -1

def LPGRESULT_IS_NOT_ALLOCATED : Int := 0

def LPGRESULT_IS_ALLOCATED : Int := 1

/-- The userdata `pgresult_t`; a null `result` is `none`. -/
structure pgresult_t where
  ref_conn : Int
  is_allocated : Int
  result : Option Ptr
  deriving DecidableEq, Repr

/-- The userdata `pgconn_t` without its constant field `L`; null pointers are
`none`. -/
structure pgconn_t where
  notice_proc_ref : Int
  notice_recv_ref : Int
  trace_ref : Int
  default_proc : Option Ptr
  default_recv : Option Ptr
  conn : Option Ptr
  deriving DecidableEq, Repr

/-- An element of the array that `PQconninfo` returns. -/
structure PQconninfoOption where
  keyword : String
  envvar : Option String
  compiled : Option String
  val : Option String
  label : Option String
  dispchar : Option String
  dispsize : Int
  deriving DecidableEq, Repr

/-- The Lua values that cross the boundary.  A `float` carries the text that
`lua_tostring` gives for it; `pgconn` is the connection userdata of the call
(stack index 1); `closure` is the C closure `notice_closure` with its
upvalues; `record`, `array` and `mixed` are the tables the methods build: a
`record` lists the fields in the order they were set, a `mixed` table has
both an array part and fields. -/
inductive LVal where
  | nil
  | boolean (b : Bool)
  | integer (n : Int)
  | float (text : String)
  | string (s : String)
  | table (id : Nat)
  | function (id : Nat)
  | userdata (id : Nat)
  | thread (id : Nat)
  | lightuserdata (id : Nat)
  | file (fp : Ptr)
  | pgconn
  | pgresult (r : pgresult_t)
  | pgcancel (p : Ptr)
  | errno (errno : Nat) (op : String) (msg : Option String)
  | record (fields : List (String × LVal))
  | array (items : List LVal)
  | mixed (items : List LVal) (fields : List (String × LVal))
  | closure (upvalues : List LVal)

/-- The type tags of `lua.h`. -/
inductive LuaType where
  | LUA_TNONE
  | LUA_TNIL
  | LUA_TBOOLEAN
  | LUA_TLIGHTUSERDATA
  | LUA_TNUMBER
  | LUA_TSTRING
  | LUA_TTABLE
  | LUA_TFUNCTION
  | LUA_TUSERDATA
  | LUA_TTHREAD
  deriving DecidableEq, Repr

/-- The function `lua_type(L, idx)`; `none` is an index above the top. -/
def lua_type : Option LVal → LuaType
  | none => .LUA_TNONE
  | some .nil => .LUA_TNIL
  | some (.boolean _) => .LUA_TBOOLEAN
  | some (.integer _) => .LUA_TNUMBER
  | some (.float _) => .LUA_TNUMBER
  | some (.string _) => .LUA_TSTRING
  | some (.table _) => .LUA_TTABLE
  | some (.function _) => .LUA_TFUNCTION
  | some (.userdata _) => .LUA_TUSERDATA
  | some (.thread _) => .LUA_TTHREAD
  | some (.lightuserdata _) => .LUA_TLIGHTUSERDATA
  | some (.file _) => .LUA_TUSERDATA
  | some .pgconn => .LUA_TUSERDATA
  | some (.pgresult _) => .LUA_TUSERDATA
  | some (.pgcancel _) => .LUA_TUSERDATA
  | some (.errno _ _ _) => .LUA_TUSERDATA
  | some (.record _) => .LUA_TTABLE
  | some (.array _) => .LUA_TTABLE
  | some (.mixed _ _) => .LUA_TTABLE
  | some (.closure _) => .LUA_TFUNCTION

/-- The function `luaL_typename(L, idx)`. -/
def luaL_typename (v : Option LVal) : String :=
  match lua_type v with
  | .LUA_TNONE => "no value"
  | .LUA_TNIL => "nil"
  | .LUA_TBOOLEAN => "boolean"
  | .LUA_TLIGHTUSERDATA => "userdata"
  | .LUA_TNUMBER => "number"
  | .LUA_TSTRING => "string"
  | .LUA_TTABLE => "table"
  | .LUA_TFUNCTION => "function"
  | .LUA_TUSERDATA => "userdata"
  | .LUA_TTHREAD => "thread"

/-- How a C function called from Lua leaves: `return n` with the `n` values on
top of the stack; `luaL_error(L, msg)`; `lauxh_argerror(L, idx, msg)`; or the
error that one of the argument checks of lauxhlib and lauxlib raises for
argument `idx` (their message is not modelled). -/
inductive LuaRet where
  | values (vs : List LVal)
  | error (msg : String)
  | argerror (idx : Nat) (msg : String)
  | badarg (idx : Nat)

/-- An argument of a call into libpq. -/
inductive Arg where
  | null
  | ptr (p : Ptr)
  | int (n : Int)
  | str (s : String)
  | strs (l : List (Option String))
  | oids (l : List Nat)
  | fn (name : String)
  | self
  deriving DecidableEq, Repr

/-- What the methods do outside the Lua stack: a call of a libpq function, or
a `lua_call` of a Lua function with its arguments. -/
inductive Event where
  | native (fn : String) (args : List Arg)
  | lua_call (f : LVal) (args : List LVal)

/-- What a libpq call gives back: the returned integer, C string or pointer
(whichever the function has; a null pointer or string is `none`), the strings
and options it hands over, and the value it leaves in `errno` when it sets
one. -/
structure Reply where
  int : Int
  str : Option String
  ptr : Option Ptr
  strs : List (Option String)
  options : List PQconninfoOption
  errno : Option Nat

/-- The environment of a method call: the reply of libpq to the call made
after `n` logged events, the reference `luaL_ref` hands out after `n` earlier
ones, and the constants of `<errno.h>`. -/
structure Env where
  reply : Nat → String → List Arg → Reply
  newref : Nat → Int
  ECANCELED : Nat
  EAGAIN : Nat
  EWOULDBLOCK : Nat
  ERANGE : Nat

/-- The state outside the userdata: `errno`, the events so far, the Lua
registry and the count of `luaL_ref` calls. -/
structure World where
  errno : Nat
  log : List Event
  registry : Int → Option LVal
  refs : Nat

/-- What a method call leaves behind. -/
structure CallResult (σ : Type) where
  ret : LuaRet
  self : σ
  world : World

/-- A call of the libpq function `fn`. -/
def World.native (env : Env) (w : World) (fn : String) (args : List Arg) : Reply × World :=
  let r := env.reply w.log.length fn args
  (r, { w with errno := r.errno.getD w.errno, log := w.log ++ [.native fn args] })

/-- The statement `errno = 0`. -/
def World.clearErrno (w : World) : World := { w with errno := 0 }

/-- The statement `if (errno == 0) errno = ECANCELED`. -/
def World.orCanceled (env : Env) (w : World) : World :=
  if w.errno = 0 then { w with errno := env.ECANCELED } else w

/-- The call `luaL_ref(L, LUA_REGISTRYINDEX)` on the value `v`. -/
def World.luaL_ref (env : Env) (w : World) (v : LVal) : Int × World :=
  let r := env.newref w.refs
  (r, { w with registry := Function.update w.registry r (some v), refs := w.refs + 1 })

/-- The call `lauxh_unref(L, ref)`: `luaL_unref`, which does nothing for
`LUA_NOREF` and `LUA_REFNIL`; the caller stores `LUA_NOREF`. -/
def World.lauxh_unref (w : World) (ref : Int) : World :=
  if ref = LUA_NOREF ∨ ref = LUA_REFNIL then w
  else { w with registry := Function.update w.registry ref none }

/-- The call `lauxh_pushref(L, ref)`: the value `lua_rawgeti` pushes. -/
def World.lauxh_pushref (w : World) (ref : Int) : LVal :=
  (w.registry ref).getD .nil

/-- The call `lua_pushstring(L, s)`, which pushes `nil` for a null `s`. -/
def lua_pushstring : Option String → LVal
  | some s => .string s
  | none => .nil

/-- The value at stack index `idx ≥ 2` of a method call with the arguments
`args` after the userdata. -/
def argAt (args : List LVal) (idx : Nat) : Option LVal :=
  if idx < 2 then none else args.get? (idx - 2)

/-! ### The argument checks of lauxhlib and lauxlib

These functions belong to the libraries the repository builds on.  They
return the checked value or raise; lauxhlib checks the type tag itself (a
number is no string), `luaL_checkstring` converts numbers. -/

/-- Conversion of an integer to the C type `int`. -/
def c_int (n : Int) : Int := toInt32 (n % 2 ^ 32).toNat

/-- Conversion of an `uintmax_t` to `lua_Integer`. -/
def lua_Integer_of_uintmax (u : Nat) : Int :=
  if u % 2 ^ 64 < 2 ^ 63 then (u % 2 ^ 64 : Nat) else (u % 2 ^ 64 : Nat) - 2 ^ 64

def lauxh_checkstring (idx : Nat) : Option LVal → Except LuaRet String
  | some (.string s) => .ok s
  | _ => .error (.badarg idx)

def lauxh_optstring (idx : Nat) : Option LVal → Except LuaRet (Option String)
  | none => .ok none
  | some .nil => .ok none
  | some (.string s) => .ok (some s)
  | _ => .error (.badarg idx)

def lauxh_checkboolean (idx : Nat) : Option LVal → Except LuaRet Bool
  | some (.boolean b) => .ok b
  | _ => .error (.badarg idx)

def lauxh_optboolean (idx : Nat) (defval : Bool) : Option LVal → Except LuaRet Bool
  | none => .ok defval
  | some .nil => .ok defval
  | some (.boolean b) => .ok b
  | _ => .error (.badarg idx)

def lauxh_checkinteger (idx : Nat) : Option LVal → Except LuaRet Int
  | some (.integer n) => .ok n
  | _ => .error (.badarg idx)

def lauxh_checkuinteger (idx : Nat) : Option LVal → Except LuaRet Int
  | some (.integer n) => if 0 ≤ n then .ok n else .error (.badarg idx)
  | _ => .error (.badarg idx)

def lauxh_checkpinteger (idx : Nat) : Option LVal → Except LuaRet Int
  | some (.integer n) => if 0 < n then .ok n else .error (.badarg idx)
  | _ => .error (.badarg idx)

def lauxh_checkfile (idx : Nat) : Option LVal → Except LuaRet Ptr
  | some (.file fp) => .ok fp
  | _ => .error (.badarg idx)

def luaL_checkstring (idx : Nat) : Option LVal → Except LuaRet String
  | some (.string s) => .ok s
  | some (.integer n) => .ok (toString n)
  | some (.float text) => .ok text
  | _ => .error (.badarg idx)

/-- The position of `s` in the option list of `luaL_checkoption`. -/
def optionIndex (s : String) : List String → Option Nat
  | [] => none
  | x :: xs => if x = s then some 0 else (optionIndex s xs).map (· + 1)

def luaL_checkoption (idx : Nat) (v : Option LVal) (defval : Option String) (lst : List String) :
    Except LuaRet Nat :=
  let name : Except LuaRet String :=
    match defval, lua_type v with
    | some d, .LUA_TNONE => .ok d
    | some d, .LUA_TNIL => .ok d
    | _, _ => luaL_checkstring idx v
  match name with
  | .error e => .error e
  | .ok s =>
    match optionIndex s lst with
    | some i => .ok i
    | none => .error (.badarg idx)

/-! ### The enumerations of `lua_postgres.h` -/

def PQERRORS_TERSE : Int := 0
def PQERRORS_DEFAULT : Int := 1
def PQERRORS_VERBOSE : Int := 2
def PQERRORS_SQLSTATE : Int := 3

def lpg_check_pg_verbosity (idx : Nat) (v : Option LVal) (defval : String) : Except LuaRet Int :=
  match luaL_checkoption idx v (some defval) ["terse", "default", "verbose", "sqlstate"] with
  | .error e => .error e
  | .ok 0 => .ok PQERRORS_TERSE
  | .ok 1 => .ok PQERRORS_DEFAULT
  | .ok 2 => .ok PQERRORS_VERBOSE
  | .ok _ => .ok PQERRORS_SQLSTATE

def lpg_pg_verbosity_string (verbosity : Int) : String :=
  if verbosity = PQERRORS_TERSE then "terse"
  else if verbosity = PQERRORS_DEFAULT then "default"
  else if verbosity = PQERRORS_VERBOSE then "verbose"
  else if verbosity = PQERRORS_SQLSTATE then "sqlstate"
  else "unknown PGVerbosity"

def PQSHOW_CONTEXT_NEVER : Int := 0
def PQSHOW_CONTEXT_ERRORS : Int := 1
def PQSHOW_CONTEXT_ALWAYS : Int := 2

def lpg_check_pg_context_visibility (idx : Nat) (v : Option LVal) (defval : String) :
    Except LuaRet Int :=
  match luaL_checkoption idx v (some defval) ["never", "errors", "always"] with
  | .error e => .error e
  | .ok 0 => .ok PQSHOW_CONTEXT_NEVER
  | .ok 1 => .ok PQSHOW_CONTEXT_ERRORS
  | .ok _ => .ok PQSHOW_CONTEXT_ALWAYS

def lpg_pg_context_visibility_string (ctx : Int) : String :=
  if ctx = PQSHOW_CONTEXT_NEVER then "never"
  else if ctx = PQSHOW_CONTEXT_ERRORS then "error"
  else if ctx = PQSHOW_CONTEXT_ALWAYS then "always"
  else "unknown PGContextVisibility"

/-- The names of `ExecStatusType` in the order of its values 0 to 11. -/
def exec_status_type : List String :=
  ["empty_query", "command_ok", "tuples_ok", "copy_out", "copy_in", "bad_response",
   "nonfatal_error", "fatal_error", "copy_both", "single_tuple", "pipeline_sync",
   "pipeline_aborted"]

/-- The function `lpg_check_pg_exec_status_type`: option `i` of the list is the
value `i` of the enumeration, and every index above 10 gives
`PGRES_PIPELINE_ABORTED`. -/
def lpg_check_pg_exec_status_type (idx : Nat) (v : Option LVal) (defval : String) :
    Except LuaRet Int :=
  match luaL_checkoption idx v (some defval) exec_status_type with
  | .error e => .error e
  | .ok i => if i ≤ 10 then .ok i else .ok 11

def lpg_pg_exec_status_type_string (status : Int) : String :=
  if 0 ≤ status ∧ status ≤ 11 then exec_status_type.getD status.toNat "unknown ExecStatusType"
  else "unknown ExecStatusType"

/-- The function `lpg_push_conninfo_options`: one table for each option, under
its keyword. -/
def lpg_push_conninfo_options (options : List PQconninfoOption) : LVal :=
  .record (options.map fun opt =>
    (opt.keyword,
      .record [("envvar", lua_pushstring opt.envvar), ("compiled", lua_pushstring opt.compiled),
        ("val", lua_pushstring opt.val), ("label", lua_pushstring opt.label),
        ("dispchar", lua_pushstring opt.dispchar), ("dispsize", .integer opt.dispsize)]))

/-! ### `pgresult.c` -/

/-- The function `pgresult_check` of `lua_postgres.h`. -/
def pgresult_check (r : pgresult_t) : Except LuaRet Ptr :=
  match r.result with
  | none => .error (.error "attempt to use a freed object")
  | some res => .ok res

/-- The constant `UINTMAX_MAX`. -/
def UINTMAX_MAX : Int := 2 ^ 64 - 1

/-- The function `lpg_str2uint` of `lua_postgres.h` on the string `str`;
`strtoumax` is answered by the environment. -/
def lpg_str2uint (env : Env) (w : World) (str : Option String) : Int × World :=
  let w := w.clearErrno
  if str.getD "" ≠ "" then
    let (rep, w) := w.native env "strtoumax" [.str (str.getD ""), .null, .int 10]
    (rep.int, w)
  else (UINTMAX_MAX, { w with errno := env.ERANGE })

/-- The field codes `PG_DIAG_*` of `postgres_ext.h`, in the order of the
option list of `error_field_lua`. -/
def PG_DIAG : List Char :=
  ['S', 'V', 'C', 'M', 'D', 'H', 'P', 'p', 'q', 'W', 's', 't', 'c', 'd', 'n', 'F', 'L', 'R']

def result_error_fieldcode : List String :=
  ["severity", "severity_nonlocalize", "sqlstate", "message_primary", "message_detail",
   "message_hint", "statement_position", "internal_position", "internal_query", "context",
   "schema_name", "table_name", "column_name", "datatype_name", "constraint_name", "source_file",
   "source_line", "source_function"]

namespace pgresult

def param_type_lua (r : pgresult_t) (args : List LVal) (env : Env) (w : World) :
    CallResult pgresult_t :=
  match pgresult_check r with
  | .error e => ⟨e, r, w⟩
  | .ok res =>
    match lauxh_checkinteger 2 (argAt args 2) with
    | .error e => ⟨e, r, w⟩
    | .ok n =>
      let param_num := c_int n
      let (rep, w) := w.native env "PQparamtype" [.ptr res, .int param_num]
      if rep.int ≠ 0 then ⟨.values [.integer rep.int], r, w⟩ else ⟨.values [], r, w⟩

def nparams_lua (r : pgresult_t) (_args : List LVal) (env : Env) (w : World) :
    CallResult pgresult_t :=
  match pgresult_check r with
  | .error e => ⟨e, r, w⟩
  | .ok res =>
    let (rep, w) := w.native env "PQnparams" [.ptr res]
    ⟨.values [.integer rep.int], r, w⟩

/-- The shared opening of the accessors of one cell: `pgresult_check`, then
`row` and `col` from the arguments 2 and 3, each minus one. -/
def checkCell (r : pgresult_t) (args : List LVal) : Except LuaRet (Ptr × Int × Int) :=
  match pgresult_check r with
  | .error e => .error e
  | .ok res =>
    match lauxh_checkpinteger 2 (argAt args 2) with
    | .error e => .error e
    | .ok n =>
      match lauxh_checkpinteger 3 (argAt args 3) with
      | .error e => .error e
      | .ok m => .ok (res, c_int (n - 1), c_int (m - 1))

/-- The shared opening of the accessors of one column: `pgresult_check`, then
`col` from argument 2, minus one. -/
def checkCol (r : pgresult_t) (args : List LVal) : Except LuaRet (Ptr × Int) :=
  match pgresult_check r with
  | .error e => .error e
  | .ok res =>
    match lauxh_checkpinteger 2 (argAt args 2) with
    | .error e => .error e
    | .ok n => .ok (res, c_int (n - 1))

def get_is_null_lua (r : pgresult_t) (args : List LVal) (env : Env) (w : World) :
    CallResult pgresult_t :=
  match checkCell r args with
  | .error e => ⟨e, r, w⟩
  | .ok (res, row, col) =>
    let (rep, w) := w.native env "PQgetisnull" [.ptr res, .int row, .int col]
    ⟨.values [.boolean (rep.int ≠ 0)], r, w⟩

def get_length_lua (r : pgresult_t) (args : List LVal) (env : Env) (w : World) :
    CallResult pgresult_t :=
  match checkCell r args with
  | .error e => ⟨e, r, w⟩
  | .ok (res, row, col) =>
    let (rep, w) := w.native env "PQgetlength" [.ptr res, .int row, .int col]
    ⟨.values [.integer rep.int], r, w⟩

def get_value_lua (r : pgresult_t) (args : List LVal) (env : Env) (w : World) :
    CallResult pgresult_t :=
  match checkCell r args with
  | .error e => ⟨e, r, w⟩
  | .ok (res, row, col) =>
    let (rep, w) := w.native env "PQgetisnull" [.ptr res, .int row, .int col]
    if rep.int ≠ 0 then ⟨.values [.nil], r, w⟩
    else
      let (rep, w) := w.native env "PQgetvalue" [.ptr res, .int row, .int col]
      ⟨.values [lua_pushstring rep.str], r, w⟩

def cmd_tuples_lua (r : pgresult_t) (_args : List LVal) (env : Env) (w : World) :
    CallResult pgresult_t :=
  match pgresult_check r with
  | .error e => ⟨e, r, w⟩
  | .ok res =>
    let (rep, w) := w.native env "PQcmdTuples" [.ptr res]
    let (cmd_tuples, w) := lpg_str2uint env w rep.str
    if cmd_tuples ≠ UINTMAX_MAX then
      ⟨.values [.integer (lua_Integer_of_uintmax cmd_tuples.toNat)], r, w⟩
    else ⟨.values [.nil, .errno w.errno "PQcmdTuples" none], r, w⟩

def oid_value_lua (r : pgresult_t) (_args : List LVal) (env : Env) (w : World) :
    CallResult pgresult_t :=
  match pgresult_check r with
  | .error e => ⟨e, r, w⟩
  | .ok res =>
    let (rep, w) := w.native env "PQoidValue" [.ptr res]
    if rep.int ≠ 0 then ⟨.values [.integer rep.int], r, w⟩ else ⟨.values [], r, w⟩

def cmd_status_lua (r : pgresult_t) (_args : List LVal) (env : Env) (w : World) :
    CallResult pgresult_t :=
  match pgresult_check r with
  | .error e => ⟨e, r, w⟩
  | .ok res =>
    let (rep, w) := w.native env "PQcmdStatus" [.ptr res]
    ⟨.values [lua_pushstring rep.str], r, w⟩

def fmod_lua (r : pgresult_t) (args : List LVal) (env : Env) (w : World) :
    CallResult pgresult_t :=
  match checkCol r args with
  | .error e => ⟨e, r, w⟩
  | .ok (res, col) =>
    let (rep, w) := w.native env "PQfmod" [.ptr res, .int col]
    ⟨.values [.integer rep.int], r, w⟩

def fsize_lua (r : pgresult_t) (args : List LVal) (env : Env) (w : World) :
    CallResult pgresult_t :=
  match checkCol r args with
  | .error e => ⟨e, r, w⟩
  | .ok (res, col) =>
    let (rep, w) := w.native env "PQfsize" [.ptr res, .int col]
    ⟨.values [.integer rep.int], r, w⟩

/-- The constant `InvalidOid` of `postgres_ext.h`. -/
def InvalidOid : Int := 0

def ftype_lua (r : pgresult_t) (args : List LVal) (env : Env) (w : World) :
    CallResult pgresult_t :=
  match checkCol r args with
  | .error e => ⟨e, r, w⟩
  | .ok (res, col) =>
    let (rep, w) := w.native env "PQftype" [.ptr res, .int col]
    if rep.int ≠ InvalidOid then ⟨.values [.integer rep.int], r, w⟩ else ⟨.values [], r, w⟩

def fformat_lua (r : pgresult_t) (args : List LVal) (env : Env) (w : World) :
    CallResult pgresult_t :=
  match checkCol r args with
  | .error e => ⟨e, r, w⟩
  | .ok (res, col) =>
    let (rep, w) := w.native env "PQfformat" [.ptr res, .int col]
    if rep.int = 0 then ⟨.values [.string "text"], r, w⟩
    else if rep.int = 1 then ⟨.values [.string "binary"], r, w⟩
    else ⟨.values [.string "unknown"], r, w⟩

def ftablecol_lua (r : pgresult_t) (args : List LVal) (env : Env) (w : World) :
    CallResult pgresult_t :=
  match checkCol r args with
  | .error e => ⟨e, r, w⟩
  | .ok (res, col) =>
    let (rep, w) := w.native env "PQftablecol" [.ptr res, .int col]
    if rep.int ≠ 0 then ⟨.values [.integer rep.int], r, w⟩ else ⟨.values [], r, w⟩

def ftable_lua (r : pgresult_t) (args : List LVal) (env : Env) (w : World) :
    CallResult pgresult_t :=
  match checkCol r args with
  | .error e => ⟨e, r, w⟩
  | .ok (res, col) =>
    let (rep, w) := w.native env "PQftable" [.ptr res, .int col]
    if rep.int ≠ InvalidOid then ⟨.values [.integer rep.int], r, w⟩ else ⟨.values [], r, w⟩

def fnumber_lua (r : pgresult_t) (args : List LVal) (env : Env) (w : World) :
    CallResult pgresult_t :=
  match pgresult_check r with
  | .error e => ⟨e, r, w⟩
  | .ok res =>
    match lauxh_checkstring 2 (argAt args 2) with
    | .error e => ⟨e, r, w⟩
    | .ok col_name =>
      let (rep, w) := w.native env "PQfnumber" [.ptr res, .str col_name]
      if rep.int ≠ -1 then ⟨.values [.integer (rep.int + 1)], r, w⟩ else ⟨.values [], r, w⟩

def fname_lua (r : pgresult_t) (args : List LVal) (env : Env) (w : World) :
    CallResult pgresult_t :=
  match checkCol r args with
  | .error e => ⟨e, r, w⟩
  | .ok (res, col) =>
    let (rep, w) := w.native env "PQfname" [.ptr res, .int col]
    match rep.str with
    | some name => ⟨.values [.string name], r, w⟩
    | none => ⟨.values [], r, w⟩

def binary_tuples_lua (r : pgresult_t) (_args : List LVal) (env : Env) (w : World) :
    CallResult pgresult_t :=
  match pgresult_check r with
  | .error e => ⟨e, r, w⟩
  | .ok res =>
    let (rep, w) := w.native env "PQbinaryTuples" [.ptr res]
    ⟨.values [.boolean (rep.int ≠ 0)], r, w⟩

def nfields_lua (r : pgresult_t) (_args : List LVal) (env : Env) (w : World) :
    CallResult pgresult_t :=
  match pgresult_check r with
  | .error e => ⟨e, r, w⟩
  | .ok res =>
    let (rep, w) := w.native env "PQnfields" [.ptr res]
    ⟨.values [.integer rep.int], r, w⟩

def ntuples_lua (r : pgresult_t) (_args : List LVal) (env : Env) (w : World) :
    CallResult pgresult_t :=
  match pgresult_check r with
  | .error e => ⟨e, r, w⟩
  | .ok res =>
    let (rep, w) := w.native env "PQntuples" [.ptr res]
    ⟨.values [.integer rep.int], r, w⟩

def error_field_lua (r : pgresult_t) (args : List LVal) (env : Env) (w : World) :
    CallResult pgresult_t :=
  match pgresult_check r with
  | .error e => ⟨e, r, w⟩
  | .ok res =>
    match luaL_checkoption 2 (argAt args 2) none result_error_fieldcode with
    | .error e => ⟨e, r, w⟩
    | .ok i =>
      let fieldcode : Int := ((PG_DIAG.get? i).map fun ch => (ch.toNat : Int)).getD i
      let (rep, w) := w.native env "PQresultErrorField" [.ptr res, .int fieldcode]
      ⟨.values [lua_pushstring rep.str], r, w⟩

def verbose_error_message_lua (r : pgresult_t) (args : List LVal) (env : Env) (w : World) :
    CallResult pgresult_t :=
  match pgresult_check r with
  | .error e => ⟨e, r, w⟩
  | .ok res =>
    match lpg_check_pg_verbosity 2 (argAt args 2) "default" with
    | .error e => ⟨e, r, w⟩
    | .ok verbosity =>
      match lpg_check_pg_context_visibility 3 (argAt args 3) "errors" with
      | .error e => ⟨e, r, w⟩
      | .ok ctx_visibility =>
        let w := w.clearErrno
        let (rep, w) := w.native env "PQresultVerboseErrorMessage"
          [.ptr res, .int verbosity, .int ctx_visibility]
        match rep.str with
        | some msg =>
          let (_, w) := w.native env "PQfreemem" [.str msg]
          ⟨.values [.string msg], r, w⟩
        | none =>
          let w := w.orCanceled env
          ⟨.values [.nil, .errno w.errno "PQresultVerboseErrorMessage" none], r, w⟩

def error_message_lua (r : pgresult_t) (_args : List LVal) (env : Env) (w : World) :
    CallResult pgresult_t :=
  match pgresult_check r with
  | .error e => ⟨e, r, w⟩
  | .ok res =>
    let (rep, w) := w.native env "PQresultErrorMessage" [.ptr res]
    match rep.str with
    | some err => if err ≠ "" then ⟨.values [.string err], r, w⟩ else ⟨.values [], r, w⟩
    | none => ⟨.values [], r, w⟩

def status_lua (r : pgresult_t) (_args : List LVal) (env : Env) (w : World) :
    CallResult pgresult_t :=
  match pgresult_check r with
  | .error e => ⟨e, r, w⟩
  | .ok res =>
    let (rep, w) := w.native env "PQresultStatus" [.ptr res]
    ⟨.values [.string (lpg_pg_exec_status_type_string rep.int)], r, w⟩

def connection_lua (r : pgresult_t) (_args : List LVal) (_env : Env) (w : World) :
    CallResult pgresult_t :=
  ⟨.values [w.lauxh_pushref r.ref_conn], r, w⟩

/-- The function `clear`, which is both `clear_lua` and `gc_lua`. -/
def clear (r : pgresult_t) (_args : List LVal) (env : Env) (w : World) : CallResult pgresult_t :=
  let w := w.lauxh_unref r.ref_conn
  let r := { r with ref_conn := LUA_NOREF }
  match r.result with
  | some res =>
    if r.is_allocated ≠ 0 then
      let (_, w) := w.native env "PQclear" [.ptr res]
      ⟨.values [], { r with result := none }, w⟩
    else ⟨.values [], r, w⟩
  | none => ⟨.values [], r, w⟩

def clear_lua (r : pgresult_t) (args : List LVal) (env : Env) (w : World) :
    CallResult pgresult_t :=
  clear r args env w

def gc_lua (r : pgresult_t) (args : List LVal) (env : Env) (w : World) : CallResult pgresult_t :=
  clear r args env w

end pgresult

/-! ### `util.c`: `get_result_stat_lua` -/

def PGRES_EMPTY_QUERY : Int := 0
def PGRES_COMMAND_OK : Int := 1
def PGRES_TUPLES_OK : Int := 2
def PGRES_COPY_OUT : Int := 3
def PGRES_COPY_IN : Int := 4
def PGRES_BAD_RESPONSE : Int := 5
def PGRES_NONFATAL_ERROR : Int := 6
def PGRES_FATAL_ERROR : Int := 7
def PGRES_COPY_BOTH : Int := 8
def PGRES_SINGLE_TUPLE : Int := 9
def PGRES_PIPELINE_SYNC : Int := 10
def PGRES_PIPELINE_ABORTED : Int := 11

namespace util

/-- The loop `for (int col = 0; col < nfields; col++)` of
`get_result_stat_lua`, from the column `col` on, for the `n` iterations left:
the name and the table of each column. -/
def fieldsLoop (env : Env) (res : Ptr) : Nat → Int → World → List (Option String × LVal) × World
  | 0, _, w => ([], w)
  | n + 1, col, w =>
    let (fname, w) := w.native env "PQfname" [.ptr res, .int col]
    let (ftable, w) := w.native env "PQftable" [.ptr res, .int col]
    let (ftablecol, w) := w.native env "PQftablecol" [.ptr res, .int col]
    let (fformat, w) := w.native env "PQfformat" [.ptr res, .int col]
    let (ftype, w) := w.native env "PQftype" [.ptr res, .int col]
    let (fsize, w) := w.native env "PQfsize" [.ptr res, .int col]
    let (fmod, w) := w.native env "PQfmod" [.ptr res, .int col]
    let field := LVal.record
      [("col", .integer (col + 1)), ("name", lua_pushstring fname.str),
       ("table", .integer ftable.int), ("tablecol", .integer ftablecol.int),
       ("format", .integer fformat.int), ("type", .integer ftype.int),
       ("size", .integer fsize.int), ("mod", .integer fmod.int)]
    let (cols, w) := fieldsLoop env res n (col + 1) w
    ((fname.str, field) :: cols, w)

/-- The loop `for (int i = 0; i < nparams; i++) lauxh_pushint2arr(L, i + 1,
PQparamtype(res, i))`, from the parameter `i` on, for the `n` iterations
left. -/
def paramTypes (env : Env) (res : Ptr) : Nat → Int → World → List LVal × World
  | 0, _, w => ([], w)
  | n + 1, i, w =>
    let (oid, w) := w.native env "PQparamtype" [.ptr res, .int i]
    let (ps, w) := paramTypes env res n (i + 1) w
    (.integer oid.int :: ps, w)

/-- The statements under `case PGRES_SINGLE_TUPLE: case PGRES_TUPLES_OK:`: the
fields they set.  The table `fields` holds the table of each column under its
number and under its name (`PQfname` is not null for a column below
`PQnfields`; a null name sets no field here). -/
def tuplesBlock (env : Env) (res : Ptr) (w : World) : List (String × LVal) × World :=
  let (ntuples, w) := w.native env "PQntuples" [.ptr res]
  if ntuples.int ≠ 0 then
    let (nfields, w) := w.native env "PQnfields" [.ptr res]
    let (binary, w) := w.native env "PQbinaryTuples" [.ptr res]
    let (cols, w) := fieldsLoop env res nfields.int.toNat 0 w
    ([("ntuples", .integer ntuples.int), ("nfields", .integer nfields.int),
      ("binary_tuples", .integer binary.int),
      ("fields", .mixed (cols.map (·.2)) (cols.filterMap fun c => c.1.map (·, c.2)))], w)
  else ([("ntuples", .integer ntuples.int)], w)

/-- The statements under `case PGRES_COMMAND_OK:`, which the cases above fall
through to: the fields they set. -/
def commandBlock (env : Env) (res : Ptr) (w : World) : List (String × LVal) × World :=
  let (nparams, w) := w.native env "PQnparams" [.ptr res]
  let (ct, w) := w.native env "PQcmdTuples" [.ptr res]
  let (cmd_tuples, w) := lpg_str2uint env w ct.str
  let f1 : List (String × LVal) :=
    if cmd_tuples ≠ UINTMAX_MAX then
      [("cmd_tuples", .integer (lua_Integer_of_uintmax cmd_tuples.toNat))]
    else []
  let (oid, w) := w.native env "PQoidValue" [.ptr res]
  if nparams.int ≠ 0 then
    let (ps, w) := paramTypes env res nparams.int.toNat 0 w
    (f1 ++ [("oid_value", .integer oid.int), ("nparams", .integer nparams.int),
      ("params", .array ps)], w)
  else (f1 ++ [("oid_value", .integer oid.int)], w)

/-- The function `get_result_stat_lua`: the `switch (status)` runs the
statements for tuples on `PGRES_SINGLE_TUPLE` and `PGRES_TUPLES_OK`, those for
a command on these two and on `PGRES_COMMAND_OK`, nothing more on the five
statuses that `break`, and sets `error` on every other status. -/
def get_result_stat_lua (r : pgresult_t) (_args : List LVal) (env : Env) (w : World) :
    CallResult pgresult_t :=
  match pgresult_check r with
  | .error e => ⟨e, r, w⟩
  | .ok res =>
    let (status, w) := w.native env "PQresultStatus" [.ptr res]
    let (cmd_status, w) := w.native env "PQcmdStatus" [.ptr res]
    let head : List (String × LVal) :=
      [("status", .string (lpg_pg_exec_status_type_string status.int)),
       ("cmd_status", lua_pushstring cmd_status.str)]
    if status.int = PGRES_SINGLE_TUPLE ∨ status.int = PGRES_TUPLES_OK then
      let (tuples, w) := tuplesBlock env res w
      let (command, w) := commandBlock env res w
      ⟨.values [.record (head ++ tuples ++ command)], r, w⟩
    else if status.int = PGRES_COMMAND_OK then
      let (command, w) := commandBlock env res w
      ⟨.values [.record (head ++ command)], r, w⟩
    else if status.int = PGRES_EMPTY_QUERY ∨ status.int = PGRES_PIPELINE_SYNC ∨
        status.int = PGRES_COPY_OUT ∨ status.int = PGRES_COPY_IN ∨
        status.int = PGRES_COPY_BOTH then
      ⟨.values [.record head], r, w⟩
    else
      let (err, w) := w.native env "PQresultErrorMessage" [.ptr res]
      ⟨.values [.record (head ++ [("error", lua_pushstring err.str)])], r, w⟩

end util

/-- The value of the field `key` of a table a method has built: the value set
last under that key. -/
def fieldOf (v : LVal) (key : String) : Option LVal :=
  match v with
  | .record fields => fields.reverse.lookup key
  | .mixed _ fields => fields.reverse.lookup key
  | _ => none

/-- The value at the index `j` (counted from 1) of a table a method has
built. -/
def itemOf (v : LVal) (j : Nat) : Option LVal :=
  match v with
  | .array items => if j = 0 then none else items.get? (j - 1)
  | .mixed items _ => if j = 0 then none else items.get? (j - 1)
  | _ => none

/-! ### `pgconn.c` -/

/-- The function `pgconn_check` of `lua_postgres.h`. -/
def pgconn_check (c : pgconn_t) : Except LuaRet Ptr :=
  match c.conn with
  | none => .error (.error "attempt to use a freed object")
  | some conn => .ok conn

namespace pgconn

/-- The function `checkself`: the userdata, together with its non-null
`c->conn`. -/
def checkself (c : pgconn_t) : Except LuaRet (pgconn_t × Ptr) :=
  match c.conn with
  | none => .error (.error "attempt to use a freed object")
  | some conn => .ok (c, conn)

/-- The closing lines of the fallible methods: `if (errno == 0) errno =
ECANCELED`, then the value `first` (`nil` or `false`) and
`lua_errno_new_with_message(L, errno, op, PQerrorMessage(conn))`, `return 2`.
`PQerrorMessage` only reads the connection: the error carries the `errno` from
before that call. -/
def fail (env : Env) (w : World) (conn : Ptr) (first : LVal) (op : String) : LuaRet × World :=
  let w := w.orCanceled env
  let e := w.errno
  let (rep, w) := w.native env "PQerrorMessage" [.ptr conn]
  (.values [first, .errno e op rep.str], w)

/-- The lines of a method that has got a non-null `PGresult *`: the userdata
`pgresult_t` with a reference to the connection (`lauxh_refat(L, 1)`) and the
flag `LPGRESULT_IS_ALLOCATED`. -/
def newResult (env : Env) (w : World) (result : Ptr) : LVal × World :=
  let (ref, w) := w.luaL_ref env .pgconn
  (.pgresult { ref_conn := ref, is_allocated := LPGRESULT_IS_ALLOCATED, result := some result }, w)

/-- The argument for a C string that may be null. -/
def optArg : Option String → Arg
  | some s => .str s
  | none => .null

def encrypt_password_conn_lua (c : pgconn_t) (args : List LVal) (env : Env) (w : World) :
    CallResult pgconn_t :=
  match pgconn_check c with
  | .error e => ⟨e, c, w⟩
  | .ok conn =>
    match lauxh_checkstring 2 (argAt args 2) with
    | .error e => ⟨e, c, w⟩
    | .ok passwd =>
      match lauxh_checkstring 3 (argAt args 3) with
      | .error e => ⟨e, c, w⟩
      | .ok user =>
        match lauxh_optstring 4 (argAt args 4) with
        | .error e => ⟨e, c, w⟩
        | .ok algorithm =>
          let w := w.clearErrno
          let (rep, w) := w.native env "PQencryptPasswordConn"
            [.ptr conn, .str passwd, .str user, optArg algorithm]
          match rep.str with
          | some res =>
            let (_, w) := w.native env "PQfreemem" [.str res]
            ⟨.values [.string res], c, w⟩
          | none =>
            let (ret, w) := fail env w conn .nil "PQencryptPasswordConn"
            ⟨ret, c, w⟩

/-- The shape shared by `escape_bytea_conn_lua`, `escape_identifier_lua` and
`escape_literal_lua`: the string of argument 2 goes to the libpq function `op`,
whose result is pushed and freed, or is null. -/
def escape (op : String) (c : pgconn_t) (args : List LVal) (env : Env) (w : World) :
    CallResult pgconn_t :=
  match pgconn_check c with
  | .error e => ⟨e, c, w⟩
  | .ok conn =>
    match lauxh_checkstring 2 (argAt args 2) with
    | .error e => ⟨e, c, w⟩
    | .ok str =>
      let w := w.clearErrno
      let (rep, w) := w.native env op [.ptr conn, .str str, .int str.utf8ByteSize]
      match rep.str with
      | some res =>
        let (_, w) := w.native env "PQfreemem" [.str res]
        ⟨.values [.string res], c, w⟩
      | none =>
        let (ret, w) := fail env w conn .nil op
        ⟨ret, c, w⟩

def escape_bytea_conn_lua := escape "PQescapeByteaConn"

def escape_identifier_lua := escape "PQescapeIdentifier"

def escape_literal_lua := escape "PQescapeLiteral"

/-- In the reply to `PQescapeStringConn`, `int` is the flag `err` and `str` the
escaped string. -/
def escape_string_conn_lua (c : pgconn_t) (args : List LVal) (env : Env) (w : World) :
    CallResult pgconn_t :=
  match pgconn_check c with
  | .error e => ⟨e, c, w⟩
  | .ok conn =>
    match lauxh_checkstring 2 (argAt args 2) with
    | .error e => ⟨e, c, w⟩
    | .ok src =>
      let w := w.clearErrno
      let (rep, w) := w.native env "PQescapeStringConn" [.ptr conn, .str src, .int src.utf8ByteSize]
      if rep.int ≠ 0 then
        let (ret, w) := fail env w conn .nil "PQescapeStringConn"
        ⟨ret, c, w⟩
      else ⟨.values [.string (rep.str.getD "")], c, w⟩

def make_empty_result_lua (c : pgconn_t) (args : List LVal) (env : Env) (w : World) :
    CallResult pgconn_t :=
  match pgconn_check c with
  | .error e => ⟨e, c, w⟩
  | .ok conn =>
    match lpg_check_pg_exec_status_type 2 (argAt args 2) "command_ok" with
    | .error e => ⟨e, c, w⟩
    | .ok status =>
      let w := w.clearErrno
      let (rep, w) := w.native env "PQmakeEmptyPGresult" [.ptr conn, .int status]
      match rep.ptr with
      | some result =>
        let (res, w) := newResult env w result
        ⟨.values [res], c, w⟩
      | none =>
        let (ret, w) := fail env w conn .nil "PQmakeEmptyPGresult"
        ⟨ret, c, w⟩

def flush_lua (c : pgconn_t) (_args : List LVal) (env : Env) (w : World) : CallResult pgconn_t :=
  match pgconn_check c with
  | .error e => ⟨e, c, w⟩
  | .ok conn =>
    let w := w.clearErrno
    let (rep, w) := w.native env "PQflush" [.ptr conn]
    if rep.int = 0 then ⟨.values [.boolean true], c, w⟩
    else if rep.int = 1 then ⟨.values [.boolean false, .nil, .boolean true], c, w⟩
    else
      let (ret, w) := fail env w conn (.boolean false) "PQflush"
      ⟨ret, c, w⟩

/-- The methods that push the boolean a libpq function of the connection
gives. -/
def getBoolean (fn : String) (c : pgconn_t) (_args : List LVal) (env : Env) (w : World) :
    CallResult pgconn_t :=
  match pgconn_check c with
  | .error e => ⟨e, c, w⟩
  | .ok conn =>
    let (rep, w) := w.native env fn [.ptr conn]
    ⟨.values [.boolean (rep.int ≠ 0)], c, w⟩

/-- The methods that push the integer a libpq function of the connection
gives. -/
def getInteger (fn : String) (c : pgconn_t) (_args : List LVal) (env : Env) (w : World) :
    CallResult pgconn_t :=
  match pgconn_check c with
  | .error e => ⟨e, c, w⟩
  | .ok conn =>
    let (rep, w) := w.native env fn [.ptr conn]
    ⟨.values [.integer rep.int], c, w⟩

/-- The methods that push the C string a libpq function of the connection
gives. -/
def getString (fn : String) (c : pgconn_t) (_args : List LVal) (env : Env) (w : World) :
    CallResult pgconn_t :=
  match pgconn_check c with
  | .error e => ⟨e, c, w⟩
  | .ok conn =>
    let (rep, w) := w.native env fn [.ptr conn]
    ⟨.values [lua_pushstring rep.str], c, w⟩

/-- The methods `if (PQxxx(conn)) return true; else return false, error`, with
`errno = 0` before the call. -/
def command (op : String) (c : pgconn_t) (_args : List LVal) (env : Env) (w : World) :
    CallResult pgconn_t :=
  match pgconn_check c with
  | .error e => ⟨e, c, w⟩
  | .ok conn =>
    let w := w.clearErrno
    let (rep, w) := w.native env op [.ptr conn]
    if rep.int ≠ 0 then ⟨.values [.boolean true], c, w⟩
    else
      let (ret, w) := fail env w conn (.boolean false) op
      ⟨ret, c, w⟩

def is_nonblocking_lua := getBoolean "PQisnonblocking"

def set_nonblocking_lua (c : pgconn_t) (args : List LVal) (env : Env) (w : World) :
    CallResult pgconn_t :=
  match pgconn_check c with
  | .error e => ⟨e, c, w⟩
  | .ok conn =>
    match lauxh_checkboolean 2 (argAt args 2) with
    | .error e => ⟨e, c, w⟩
    | .ok enabled =>
      let w := w.clearErrno
      let (rep, w) := w.native env "PQsetnonblocking" [.ptr conn, .int (if enabled then 1 else 0)]
      if rep.int ≠ -1 then ⟨.values [.boolean true], c, w⟩
      else
        let (ret, w) := fail env w conn (.boolean false) "PQsetnonblocking"
        ⟨ret, c, w⟩

/-- In the reply to `PQgetCopyData`, `int` is `nbytes` and `str` the row put
into `buffer`. -/
def get_copy_data_lua (c : pgconn_t) (args : List LVal) (env : Env) (w : World) :
    CallResult pgconn_t :=
  match pgconn_check c with
  | .error e => ⟨e, c, w⟩
  | .ok conn =>
    match lauxh_optboolean 2 false (argAt args 2) with
    | .error e => ⟨e, c, w⟩
    | .ok async =>
      let w := w.clearErrno
      let (rep, w) := w.native env "PQgetCopyData" [.ptr conn, .int (if async then 1 else 0)]
      if rep.int = -2 then
        let (ret, w) := fail env w conn .nil "PQgetCopyData"
        ⟨ret, c, w⟩
      else if rep.int = -1 then ⟨.values [], c, w⟩
      else if rep.int = 0 then ⟨.values [.nil, .nil, .boolean true], c, w⟩
      else
        let (_, w) := w.native env "PQfreemem" [optArg rep.str]
        ⟨.values [.string (rep.str.getD "")], c, w⟩

/-- The result switch shared by `put_copy_end_lua` and `put_copy_data_lua`. -/
def putCopyResult (op : String) (c : pgconn_t) (conn : Ptr) (env : Env) (rep : Reply)
    (w : World) : CallResult pgconn_t :=
  if rep.int = -1 then
    let (ret, w) := fail env w conn (.boolean false) op
    ⟨ret, c, w⟩
  else if rep.int = 0 then ⟨.values [.boolean false, .nil, .boolean true], c, w⟩
  else ⟨.values [.boolean true], c, w⟩

def put_copy_end_lua (c : pgconn_t) (args : List LVal) (env : Env) (w : World) :
    CallResult pgconn_t :=
  match pgconn_check c with
  | .error e => ⟨e, c, w⟩
  | .ok conn =>
    match lauxh_optstring 2 (argAt args 2) with
    | .error e => ⟨e, c, w⟩
    | .ok errormsg =>
      let w := w.clearErrno
      let (rep, w) := w.native env "PQputCopyEnd" [.ptr conn, optArg errormsg]
      putCopyResult "PQputCopyEnd" c conn env rep w

def put_copy_data_lua (c : pgconn_t) (args : List LVal) (env : Env) (w : World) :
    CallResult pgconn_t :=
  match pgconn_check c with
  | .error e => ⟨e, c, w⟩
  | .ok conn =>
    match lauxh_checkstring 2 (argAt args 2) with
    | .error e => ⟨e, c, w⟩
    | .ok buffer =>
      let w := w.clearErrno
      let (rep, w) := w.native env "PQputCopyData" [.ptr conn, .str buffer, .int buffer.utf8ByteSize]
      putCopyResult "PQputCopyData" c conn env rep w

/-- In the reply to `PQnotifies`, `ptr` is the `PGnotify *`, `strs` holds
`relname` and `extra`, and `int` is `be_pid`. -/
def notifies_lua (c : pgconn_t) (_args : List LVal) (env : Env) (w : World) :
    CallResult pgconn_t :=
  match pgconn_check c with
  | .error e => ⟨e, c, w⟩
  | .ok conn =>
    let w := w.clearErrno
    let (rep, w) := w.native env "PQconsumeInput" [.ptr conn]
    if rep.int ≠ 0 then
      let (rep, w) := w.native env "PQnotifies" [.ptr conn]
      match rep.ptr with
      | some notify =>
        let (_, w) := w.native env "PQfreemem" [.ptr notify]
        ⟨.values [.record [("relname", lua_pushstring ((rep.strs.get? 0).getD none)),
          ("extra", lua_pushstring ((rep.strs.get? 1).getD none)), ("be_pid", .integer rep.int)]],
          c, w⟩
      | none => ⟨.values [.nil], c, w⟩
    else
      let (ret, w) := fail env w conn .nil "PQconsumeInput"
      ⟨ret, c, w⟩

def send_flush_request_lua := command "PQsendFlushRequest"

def pipeline_sync_lua := command "PQpipelineSync"

def exit_pipeline_mode_lua := command "PQexitPipelineMode"

def enter_pipeline_mode_lua := command "PQenterPipelineMode"

def consume_input_lua := command "PQconsumeInput"

end pgconn

namespace pgconn

/-- The body of `is_busy_lua` from the label `RETRY` on; each `goto RETRY` uses
one unit of fuel, and `none` stands for running out of it. -/
def is_busy_retry (env : Env) (c : pgconn_t) (conn : Ptr) : Nat → World → Option (CallResult pgconn_t)
  | 0, _ => none
  | fuel + 1, w =>
    let w := w.clearErrno
    let (rep, w) := w.native env "PQconsumeInput" [.ptr conn]
    if rep.int ≠ 0 then
      let call_again : Bool := w.errno = env.EAGAIN ∨ w.errno = env.EWOULDBLOCK
      let (busy, w) := w.native env "PQisBusy" [.ptr conn]
      if busy.int = 0 then some ⟨.values [.boolean false], c, w⟩
      else if call_again then some ⟨.values [.boolean true], c, w⟩
      else is_busy_retry env c conn fuel w
    else
      let (ret, w) := fail env w conn (.boolean false) "PQconsumeInput"
      some ⟨ret, c, w⟩

def is_busy_lua (fuel : Nat) (c : pgconn_t) (_args : List LVal) (env : Env) (w : World) :
    Option (CallResult pgconn_t) :=
  match pgconn_check c with
  | .error e => some ⟨e, c, w⟩
  | .ok conn => is_busy_retry env c conn fuel w

def get_result_lua (c : pgconn_t) (_args : List LVal) (env : Env) (w : World) :
    CallResult pgconn_t :=
  match pgconn_check c with
  | .error e => ⟨e, c, w⟩
  | .ok conn =>
    let w := w.clearErrno
    let (rep, w) := w.native env "PQgetResult" [.ptr conn]
    match rep.ptr with
    | some result =>
      let (res, w) := newResult env w result
      ⟨.values [res], c, w⟩
    | none =>
      let (rep, w) := w.native env "PQerrorMessage" [.ptr conn]
      match rep.str with
      | some errmsg =>
        if errmsg ≠ "" then
          -- got non-empty error message
          let w := w.orCanceled env
          ⟨.values [.nil, .errno w.errno "PQgetResult" (some errmsg)], c, w⟩
        else ⟨.values [], c, w⟩
      | none => ⟨.values [], c, w⟩

def set_single_row_mode_lua := getBoolean "PQsetSingleRowMode"

/-- The function `lua_toboolean`. -/
def lua_toboolean : Option LVal → Bool
  | none => false
  | some .nil => false
  | some (.boolean b) => b
  | some _ => true

/-- The function `lua_tostring`: the string, the text of a number, or null. -/
def lua_tostring : Option LVal → Option String
  | some (.string s) => some s
  | some (.integer n) => some (toString n)
  | some (.float text) => some text
  | _ => none

/-- The function `param2string` on the value `v` at stack index `idx`: the C
string it returns (null is `none`), or the error it raises. -/
def param2string (idx : Nat) (v : Option LVal) : Except LuaRet (Option String) :=
  let type := lua_type v
  if type ≠ .LUA_TSTRING then
    match type with
    | .LUA_TNONE => .ok none
    | .LUA_TNIL => .ok none
    | .LUA_TBOOLEAN => if lua_toboolean v then .ok (some "TRUE") else .ok (some "FALSE")
    | .LUA_TNUMBER => .ok (lua_tostring v)
    | _ => .error (.argerror idx ("<" ++ luaL_typename v ++ "> param is not supported"))
  else .ok (lua_tostring v)

/-- The loop `for (int i = 0, j = 3; i < nparams; i++, j++) params[i] =
param2string(L, j)`, from the index `j` on, for the `n` iterations left. -/
def paramsLoop (args : List LVal) : Nat → Nat → Except LuaRet (List (Option String))
  | 0, _ => .ok []
  | n + 1, j =>
    match param2string j (argAt args j) with
    | .error e => .error e
    | .ok p =>
      match paramsLoop args n (j + 1) with
      | .error e => .error e
      | .ok ps => .ok (p :: ps)

/-- The lines `if (nparams) ...` on `params`: null when `nparams` is 0. -/
def buildParams (args : List LVal) (nparams : Int) : Except LuaRet Arg :=
  if nparams ≠ 0 then
    match paramsLoop args nparams.toNat 3 with
    | .error e => .error e
    | .ok params => .ok (.strs params)
  else .ok .null

/-- The value of `lua_gettop(L)`. -/
def lua_gettop (args : List LVal) : Int := args.length + 1

def send_query_params_lua (c : pgconn_t) (args : List LVal) (env : Env) (w : World) :
    CallResult pgconn_t :=
  let nparams := lua_gettop args - 2
  match pgconn_check c with
  | .error e => ⟨e, c, w⟩
  | .ok conn =>
    match lauxh_checkstring 2 (argAt args 2) with
    | .error e => ⟨e, c, w⟩
    | .ok command =>
      match buildParams args nparams with
      | .error e => ⟨e, c, w⟩
      | .ok params =>
        let w := w.clearErrno
        let (rep, w) := w.native env "PQsendQueryParams"
          [.ptr conn, .str command, .int nparams, .null, params, .null, .null, .int 0]
        if rep.int ≠ 0 then ⟨.values [.boolean true], c, w⟩
        else
          let (ret, w) := fail env w conn (.boolean false) "PQsendQueryParams"
          ⟨ret, c, w⟩

def send_query_lua (c : pgconn_t) (args : List LVal) (env : Env) (w : World) :
    CallResult pgconn_t :=
  match pgconn_check c with
  | .error e => ⟨e, c, w⟩
  | .ok conn =>
    match lauxh_checkstring 2 (argAt args 2) with
    | .error e => ⟨e, c, w⟩
    | .ok query =>
      let w := w.clearErrno
      let (rep, w) := w.native env "PQsendQuery" [.ptr conn, .str query]
      if rep.int ≠ 0 then ⟨.values [.boolean true], c, w⟩
      else
        let (ret, w) := fail env w conn (.boolean false) "PQsendQuery"
        ⟨ret, c, w⟩

/-- The closing lines of the methods that return a Result: the userdata for a
non-null `PGresult *`, or `nil` and the error. -/
def resultOrFail (op : String) (c : pgconn_t) (conn : Ptr) (env : Env) (rep : Reply) (w : World) :
    CallResult pgconn_t :=
  match rep.ptr with
  | some result =>
    let (res, w) := newResult env w result
    ⟨.values [res], c, w⟩
  | none =>
    let (ret, w) := fail env w conn .nil op
    ⟨ret, c, w⟩

def exec_prepare_lua (c : pgconn_t) (args : List LVal) (env : Env) (w : World) :
    CallResult pgconn_t :=
  let nparams := lua_gettop args - 2
  match pgconn_check c with
  | .error e => ⟨e, c, w⟩
  | .ok conn =>
    match lauxh_checkstring 2 (argAt args 2) with
    | .error e => ⟨e, c, w⟩
    | .ok name =>
      match buildParams args nparams with
      | .error e => ⟨e, c, w⟩
      | .ok params =>
        let w := w.clearErrno
        let (rep, w) := w.native env "PQexecPrepared"
          [.ptr conn, .str name, .int nparams, params, .null, .null, .int 0]
        resultOrFail "PQexecPrepared" c conn env rep w

/-- The loop `for (int i = 0, j = 3; i < nparams; i++, j++) param_types[i] =
lauxh_checkuinteger(L, j)`, from the index `j` on, for the `n` iterations left;
an `Oid` is an `unsigned int`. -/
def paramTypesLoop (args : List LVal) : Nat → Nat → Except LuaRet (List Nat)
  | 0, _ => .ok []
  | n + 1, j =>
    match lauxh_checkuinteger j (argAt args j) with
    | .error e => .error e
    | .ok oid =>
      match paramTypesLoop args n (j + 1) with
      | .error e => .error e
      | .ok oids => .ok ((oid % 2 ^ 32).toNat :: oids)

def prepare_lua (c : pgconn_t) (args : List LVal) (env : Env) (w : World) : CallResult pgconn_t :=
  let nparams := lua_gettop args - 3
  match pgconn_check c with
  | .error e => ⟨e, c, w⟩
  | .ok conn =>
    match lauxh_checkstring 2 (argAt args 2) with
    | .error e => ⟨e, c, w⟩
    | .ok name =>
      match lauxh_checkstring 3 (argAt args 3) with
      | .error e => ⟨e, c, w⟩
      | .ok query =>
        let param_types : Except LuaRet Arg :=
          if nparams ≠ 0 then
            match paramTypesLoop args nparams.toNat 3 with
            | .error e => .error e
            | .ok oids => .ok (.oids oids)
          else .ok .null
        match param_types with
        | .error e => ⟨e, c, w⟩
        | .ok param_types =>
          let w := w.clearErrno
          let (rep, w) := w.native env "PQprepare"
            [.ptr conn, .str name, .str query, .int nparams, param_types]
          resultOrFail "PQprepare" c conn env rep w

def exec_params_lua (c : pgconn_t) (args : List LVal) (env : Env) (w : World) :
    CallResult pgconn_t :=
  let nparams := lua_gettop args - 2
  match pgconn_check c with
  | .error e => ⟨e, c, w⟩
  | .ok conn =>
    match lauxh_checkstring 2 (argAt args 2) with
    | .error e => ⟨e, c, w⟩
    | .ok command =>
      match buildParams args nparams with
      | .error e => ⟨e, c, w⟩
      | .ok params =>
        let w := w.clearErrno
        let (rep, w) := w.native env "PQexecParams"
          [.ptr conn, .str command, .int nparams, .null, params, .null, .null, .int 0]
        resultOrFail "PQexecParams" c conn env rep w

def exec_lua (c : pgconn_t) (args : List LVal) (env : Env) (w : World) : CallResult pgconn_t :=
  match pgconn_check c with
  | .error e => ⟨e, c, w⟩
  | .ok conn =>
    match lauxh_checkstring 2 (argAt args 2) with
    | .error e => ⟨e, c, w⟩
    | .ok command =>
      let w := w.clearErrno
      let (rep, w) := w.native env "PQexec" [.ptr conn, .str command]
      resultOrFail "PQexec" c conn env rep w

def PQTRACE_SUPPRESS_TIMESTAMPS : Nat := 1

def PQTRACE_REGRESS_MODE : Nat := 2

/-- The loop of `set_trace_flags_lua` over the arguments from index `i` on. -/
def traceFlagsLoop : List LVal → Nat → Nat → Except LuaRet Nat
  | [], _, flags => .ok flags
  | v :: rest, i, flags =>
    match luaL_checkstring i (some v) with
    | .error e => .error e
    | .ok flg =>
      if flg = "suppress_timestamps" then
        traceFlagsLoop rest (i + 1) (flags ||| PQTRACE_SUPPRESS_TIMESTAMPS)
      else if flg = "regress_mode" then
        traceFlagsLoop rest (i + 1) (flags ||| PQTRACE_REGRESS_MODE)
      else .error (.error ("invalid trace flag: " ++ flg))

def set_trace_flags_lua (c : pgconn_t) (args : List LVal) (env : Env) (w : World) :
    CallResult pgconn_t :=
  match pgconn_check c with
  | .error e => ⟨e, c, w⟩
  | .ok conn =>
    match traceFlagsLoop args 2 0 with
    | .error e => ⟨e, c, w⟩
    | .ok flags =>
      let (_, w) := w.native env "PQsetTraceFlags" [.ptr conn, .int flags]
      ⟨.values [], c, w⟩

def untrace_lua (c : pgconn_t) (_args : List LVal) (env : Env) (w : World) :
    CallResult pgconn_t :=
  match checkself c with
  | .error e => ⟨e, c, w⟩
  | .ok (c, conn) =>
    let (_, w) := w.native env "PQuntrace" [.ptr conn]
    if c.trace_ref = LUA_NOREF then ⟨.values [.nil], c, w⟩
    else
      let v := w.lauxh_pushref c.trace_ref
      let w := w.lauxh_unref c.trace_ref
      ⟨.values [v], { c with trace_ref := LUA_NOREF }, w⟩

end pgconn

namespace pgconn

def trace_lua (c : pgconn_t) (args : List LVal) (env : Env) (w : World) : CallResult pgconn_t :=
  match checkself c with
  | .error e => ⟨e, c, w⟩
  | .ok (c, conn) =>
    match lauxh_checkfile 2 (argAt args 2) with
    | .error e => ⟨e, c, w⟩
    | .ok debug_port =>
      -- remove old file
      let r := untrace_lua c args env w
      -- set new file
      let (ref, w) := r.world.luaL_ref env (.file debug_port)
      let (_, w) := w.native env "PQtrace" [.ptr conn, .ptr debug_port]
      ⟨r.ret, { r.self with trace_ref := ref }, w⟩

/-- The function `lua_insert(L, idx)` on the stack, bottom first: the top
element moves to the index `idx` and the elements from there on shift up. -/
def lua_insert (stack : List LVal) (idx : Nat) : List LVal :=
  match stack.getLast? with
  | none => stack
  | some v => stack.dropLast.take (idx - 1) ++ v :: stack.dropLast.drop (idx - 1)

/-- The value `lua_pushvalue(L, lua_upvalueindex(i))` pushes. -/
def upvalue (upvalues : List LVal) (i : Nat) : LVal :=
  if i = 0 then .nil else (upvalues.get? (i - 1)).getD .nil

/-- The function `lua_tointeger` on an upvalue. -/
def lua_tointeger : LVal → Int
  | .integer n => n
  | _ => 0

/-- The call `lua_call(L, nargs, 0)` on the stack: the function below the
`nargs` topmost values is called with them.  What the called Lua function
does is outside the model; the call is logged. -/
def callStack (w : World) (stack : List LVal) (nargs : Nat) : World :=
  { w with log := w.log ++
      [.lua_call ((stack.get? (stack.length - nargs - 1)).getD .nil)
        (stack.drop (stack.length - nargs))] }

/-- The loop `for (int i = 1; i <= farg; i++)` of `notice_closure`, from `i`
on, for the `n` iterations left. -/
def closureLoop (upvalues : List LVal) (narg : Nat) : Nat → Nat → List LVal → List LVal
  | 0, _, stack => stack
  | n + 1, i, stack =>
    let stack := stack ++ [upvalue upvalues (2 + i)]
    let stack := if narg ≠ 0 then lua_insert stack (1 + i) else stack
    closureLoop upvalues narg n (i + 1) stack

/-- The C closure `notice_closure`, called with the arguments `args`. -/
def notice_closure (upvalues : List LVal) (args : List LVal) (w : World) : World :=
  let narg := args.length
  -- get number of arguments
  let farg := lua_tointeger (upvalue upvalues 1)
  -- push function
  let stack := args ++ [upvalue upvalues 2]
  let stack := if narg ≠ 0 then lua_insert stack 1 else stack
  -- push upvalues to function arguments
  let stack := closureLoop upvalues narg farg.toNat 1 stack
  callStack w stack (farg.toNat + narg)

/-- A `lua_call(L, n, 0)` of the value `f` with the arguments `args`: the
closure `notice_closure` runs; any other function is logged as called. -/
def lua_call (w : World) (f : LVal) (args : List LVal) : World :=
  match f with
  | .closure upvalues => notice_closure upvalues args w
  | _ => { w with log := w.log ++ [.lua_call f args] }

/-- The function `push_notice_closure` on the arguments from stack index 2 on:
the closure it leaves on the stack.  Its upvalues are `argc`, the function and
the further arguments. -/
def push_notice_closure (args : List LVal) : Except LuaRet LVal :=
  let argc := lua_gettop args - 2
  if lua_type (argAt args 2) ≠ .LUA_TFUNCTION then .error (.badarg 2)
  else .ok (.closure (.integer argc :: args))

/-- The function `lua_isnoneornil`. -/
def lua_isnoneornil (v : Option LVal) : Bool :=
  lua_type v = .LUA_TNONE ∨ lua_type v = .LUA_TNIL

/-- The function `set_notice_processor_lua`: the macro `set_notice_closure(L,
proc, PQsetNoticeProcessor)`. -/
def set_notice_processor_lua (c : pgconn_t) (args : List LVal) (env : Env) (w : World) :
    CallResult pgconn_t :=
  match checkself c with
  | .error e => ⟨e, c, w⟩
  | .ok (c, conn) =>
    -- release old reference
    let (c, w) :=
      if c.notice_proc_ref ≠ LUA_NOREF then
        ({ c with notice_proc_ref := LUA_NOREF }, w.lauxh_unref c.notice_proc_ref)
      else (c, w)
    if ¬ lua_isnoneornil (argAt args 2) then
      -- push closure function
      match push_notice_closure args with
      | .error e => ⟨e, c, w⟩
      | .ok closure =>
        let (ref, w) := w.luaL_ref env closure
        let c := { c with notice_proc_ref := ref }
        if c.default_proc = none then
          -- set custom notice function
          let (rep, w) := w.native env "PQsetNoticeProcessor" [.ptr conn, .fn "notice_proc", .self]
          ⟨.values [], { c with default_proc := rep.ptr }, w⟩
        else ⟨.values [], c, w⟩
    else
      match c.default_proc with
      | some default_proc =>
        -- set default notice function
        let (_, w) := w.native env "PQsetNoticeProcessor" [.ptr conn, .ptr default_proc, .null]
        ⟨.values [], { c with default_proc := none }, w⟩
      | none => ⟨.values [], c, w⟩

/-- The function `set_notice_receiver_lua`: the macro `set_notice_closure(L,
recv, PQsetNoticeReceiver)`. -/
def set_notice_receiver_lua (c : pgconn_t) (args : List LVal) (env : Env) (w : World) :
    CallResult pgconn_t :=
  match checkself c with
  | .error e => ⟨e, c, w⟩
  | .ok (c, conn) =>
    -- release old reference
    let (c, w) :=
      if c.notice_recv_ref ≠ LUA_NOREF then
        ({ c with notice_recv_ref := LUA_NOREF }, w.lauxh_unref c.notice_recv_ref)
      else (c, w)
    if ¬ lua_isnoneornil (argAt args 2) then
      -- push closure function
      match push_notice_closure args with
      | .error e => ⟨e, c, w⟩
      | .ok closure =>
        let (ref, w) := w.luaL_ref env closure
        let c := { c with notice_recv_ref := ref }
        if c.default_recv = none then
          -- set custom notice function
          let (rep, w) := w.native env "PQsetNoticeReceiver" [.ptr conn, .fn "notice_recv", .self]
          ⟨.values [], { c with default_recv := rep.ptr }, w⟩
        else ⟨.values [], c, w⟩
    else
      match c.default_recv with
      | some default_recv =>
        -- set default notice function
        let (_, w) := w.native env "PQsetNoticeReceiver" [.ptr conn, .ptr default_recv, .null]
        ⟨.values [], { c with default_recv := none }, w⟩
      | none => ⟨.values [], c, w⟩

/-- The trampoline `notice_proc(arg, message)` that libpq calls with the
userdata as `arg`. -/
def notice_proc (c : pgconn_t) (message : Option String) (w : World) : World :=
  -- call closure
  lua_call w (w.lauxh_pushref c.notice_proc_ref) [lua_pushstring message]

/-- The trampoline `notice_recv(arg, res)` that libpq calls with the userdata
as `arg`; `bottom` is the value at index 1 of the stack of `c->L` at that
moment, which `lauxh_refat(c->L, 1)` references. -/
def notice_recv (c : pgconn_t) (res : Ptr) (bottom : LVal) (env : Env) (w : World) : World :=
  -- call closure
  let f := w.lauxh_pushref c.notice_recv_ref
  let (ref, w) := w.luaL_ref env bottom
  lua_call w f
    [.pgresult { ref_conn := ref, is_allocated := LPGRESULT_IS_NOT_ALLOCATED, result := some res }]

def call_notice_receiver_lua (c : pgconn_t) (args : List LVal) (_env : Env) (w : World) :
    CallResult pgconn_t :=
  match checkself c with
  | .error e => ⟨e, c, w⟩
  | .ok (c, _) =>
    match argAt args 2 with
    | some (.pgresult r) =>
      if c.notice_recv_ref = LUA_NOREF then ⟨.values [.boolean false], c, w⟩
      else
        -- call closure
        let w := lua_call w (w.lauxh_pushref c.notice_recv_ref) [.pgresult r]
        ⟨.values [.boolean true], c, w⟩
    | _ => ⟨.badarg 2, c, w⟩

def call_notice_processor_lua (c : pgconn_t) (args : List LVal) (_env : Env) (w : World) :
    CallResult pgconn_t :=
  match checkself c with
  | .error e => ⟨e, c, w⟩
  | .ok (c, _) =>
    match argAt args 2 with
    | some (.string message) =>
      if c.notice_proc_ref = LUA_NOREF then ⟨.values [.boolean false], c, w⟩
      else
        -- call closure
        let w := lua_call w (w.lauxh_pushref c.notice_proc_ref) [.string message]
        ⟨.values [.boolean true], c, w⟩
    | _ => ⟨.badarg 2, c, w⟩

def set_error_context_visibility_lua (c : pgconn_t) (args : List LVal) (env : Env) (w : World) :
    CallResult pgconn_t :=
  match pgconn_check c with
  | .error e => ⟨e, c, w⟩
  | .ok conn =>
    match lpg_check_pg_context_visibility 2 (argAt args 2) "errors" with
    | .error e => ⟨e, c, w⟩
    | .ok context_visibility =>
      -- set context visibility mode and return old mode
      let (rep, w) := w.native env "PQsetErrorContextVisibility" [.ptr conn, .int context_visibility]
      ⟨.values [.string (lpg_pg_context_visibility_string rep.int)], c, w⟩

def set_error_verbosity_lua (c : pgconn_t) (args : List LVal) (env : Env) (w : World) :
    CallResult pgconn_t :=
  match pgconn_check c with
  | .error e => ⟨e, c, w⟩
  | .ok conn =>
    match lpg_check_pg_verbosity 2 (argAt args 2) "default" with
    | .error e => ⟨e, c, w⟩
    | .ok verbosity =>
      -- set verbosity mode and return old mode
      let (rep, w) := w.native env "PQsetErrorVerbosity" [.ptr conn, .int verbosity]
      ⟨.values [.string (lpg_pg_verbosity_string rep.int)], c, w⟩

/-- In the reply to `PQsslAttributeNames`, `strs` is the array up to its
terminating null. -/
def ssl_attribute_names_lua (c : pgconn_t) (_args : List LVal) (env : Env) (w : World) :
    CallResult pgconn_t :=
  match pgconn_check c with
  | .error e => ⟨e, c, w⟩
  | .ok conn =>
    let (rep, w) := w.native env "PQsslAttributeNames" [.ptr conn]
    ⟨.values [.array (rep.strs.map lua_pushstring)], c, w⟩

/-- The methods that push the C string a libpq function gives for the
connection and the string of argument 2. -/
def getStringOf (fn : String) (c : pgconn_t) (args : List LVal) (env : Env) (w : World) :
    CallResult pgconn_t :=
  match pgconn_check c with
  | .error e => ⟨e, c, w⟩
  | .ok conn =>
    match lauxh_checkstring 2 (argAt args 2) with
    | .error e => ⟨e, c, w⟩
    | .ok name =>
      let (rep, w) := w.native env fn [.ptr conn, .str name]
      ⟨.values [lua_pushstring rep.str], c, w⟩

def ssl_attribute_lua := getStringOf "PQsslAttribute"

def ssl_in_use_lua := getBoolean "PQsslInUse"

def set_client_encoding_lua (c : pgconn_t) (args : List LVal) (env : Env) (w : World) :
    CallResult pgconn_t :=
  match pgconn_check c with
  | .error e => ⟨e, c, w⟩
  | .ok conn =>
    match lauxh_checkstring 2 (argAt args 2) with
    | .error e => ⟨e, c, w⟩
    | .ok encoding =>
      let w := w.clearErrno
      let (rep, w) := w.native env "PQsetClientEncoding" [.ptr conn, .str encoding]
      if rep.int = 0 then ⟨.values [.boolean true], c, w⟩
      else
        let (ret, w) := fail env w conn (.boolean false) "PQsetClientEncoding"
        ⟨ret, c, w⟩

def client_encoding_lua (c : pgconn_t) (_args : List LVal) (env : Env) (w : World) :
    CallResult pgconn_t :=
  match pgconn_check c with
  | .error e => ⟨e, c, w⟩
  | .ok conn =>
    let (rep, w) := w.native env "PQclientEncoding" [.ptr conn]
    let (rep, w) := w.native env "pg_encoding_to_char" [.int rep.int]
    ⟨.values [lua_pushstring rep.str], c, w⟩

def connection_used_password_lua := getBoolean "PQconnectionUsedPassword"

def connection_needs_password_lua := getBoolean "PQconnectionNeedsPassword"

/-- The `switch` of the methods that name the value of a libpq enumeration:
`names` are the names of the values 0, 1, ... and `unknown` is the text put
before the number of any other value. -/
def enumString (names : List String) (unknown : String) (v : Int) : LVal :=
  if 0 ≤ v then
    match names.get? v.toNat with
    | some s => .string s
    | none => .string (unknown ++ toString v)
  else .string (unknown ++ toString v)

/-- The methods that push the name of the enumeration value a libpq function
of the connection gives. -/
def getEnum (fn : String) (names : List String) (unknown : String) (c : pgconn_t)
    (_args : List LVal) (env : Env) (w : World) : CallResult pgconn_t :=
  match pgconn_check c with
  | .error e => ⟨e, c, w⟩
  | .ok conn =>
    let (rep, w) := w.native env fn [.ptr conn]
    ⟨.values [enumString names unknown rep.int], c, w⟩

def pipeline_status_lua :=
  getEnum "PQpipelineStatus" ["off", "on", "aborted"] "unknown PGpipelineStatus: "

def backend_pid_lua := getInteger "PQbackendPID"

def socket_lua := getInteger "PQsocket"

def error_message_lua (c : pgconn_t) (_args : List LVal) (env : Env) (w : World) :
    CallResult pgconn_t :=
  match pgconn_check c with
  | .error e => ⟨e, c, w⟩
  | .ok conn =>
    let (rep, w) := w.native env "PQerrorMessage" [.ptr conn]
    match rep.str with
    | some err => if err ≠ "" then ⟨.values [.string err], c, w⟩ else ⟨.values [], c, w⟩
    | none => ⟨.values [], c, w⟩

def server_version_lua := getInteger "PQserverVersion"

def protocol_version_lua := getInteger "PQprotocolVersion"

def parameter_status_lua := getStringOf "PQparameterStatus"

def transaction_status_lua :=
  getEnum "PQtransactionStatus" ["idle", "active", "intrans", "inerror", "unknown"]
    "unknown PGTransactionStatusType: "

/-- The names `status_lua` gives to the values 0 to 13 of `ConnStatusType`
(`CONNECTION_OK` to `CONNECTION_CHECK_STANDBY`). -/
def connStatusNames : List String :=
  ["ok", "bad", "started", "made", "awaiting_response", "auth_ok", "setenv", "ssl_startup",
   "needed", "check_writable", "consume", "gss_startup", "check_target", "check_standby"]

def status_lua := getEnum "PQstatus" connStatusNames "unknown ConnStatusType: "

def options_lua := getString "PQoptions"

def port_lua := getString "PQport"

def hostaddr_lua := getString "PQhostaddr"

def host_lua := getString "PQhost"

def pass_lua := getString "PQpass"

def user_lua := getString "PQuser"

def db_lua := getString "PQdb"

def get_cancel_lua (c : pgconn_t) (_args : List LVal) (env : Env) (w : World) :
    CallResult pgconn_t :=
  match pgconn_check c with
  | .error e => ⟨e, c, w⟩
  | .ok conn =>
    let w := w.clearErrno
    let (rep, w) := w.native env "PQgetCancel" [.ptr conn]
    match rep.ptr with
    | some cancel => ⟨.values [.pgcancel cancel], c, w⟩
    | none =>
      let w := w.orCanceled env
      ⟨.values [.nil, .errno w.errno "PQgetCancel" none], c, w⟩

def connect_poll_lua :=
  getEnum "PQconnectPoll" ["failed", "reading", "writing", "ok", "active"]
    "unknown PostgresPollingStatusType: "

def conninfo_lua (c : pgconn_t) (_args : List LVal) (env : Env) (w : World) :
    CallResult pgconn_t :=
  match pgconn_check c with
  | .error e => ⟨e, c, w⟩
  | .ok conn =>
    let (rep, w) := w.native env "PQconninfo" [.ptr conn]
    match rep.ptr with
    | some options =>
      let (_, w) := w.native env "PQconninfoFree" [.ptr options]
      ⟨.values [lpg_push_conninfo_options rep.options], c, w⟩
    | none =>
      -- got error
      ⟨.values [.nil, .errno w.errno "conninfo" none], c, w⟩

/-- The function `finish`, which is both `finish_lua` and `gc_lua`. -/
def finish (c : pgconn_t) (_args : List LVal) (env : Env) (w : World) : CallResult pgconn_t :=
  match c.conn with
  | some conn =>
    let (_, w) := w.native env "PQfinish" [.ptr conn]
    let w := w.lauxh_unref c.notice_recv_ref
    let w := w.lauxh_unref c.notice_proc_ref
    let w := w.lauxh_unref c.trace_ref
    ⟨.values [], { c with conn := none }, w⟩
  | none => ⟨.values [], c, w⟩

def finish_lua (c : pgconn_t) (args : List LVal) (env : Env) (w : World) : CallResult pgconn_t :=
  finish c args env w

def gc_lua (c : pgconn_t) (args : List LVal) (env : Env) (w : World) : CallResult pgconn_t :=
  finish c args env w

/-- The function `connect_lua(conninfo, nonblock)`: the new userdata, when
there is one, stands in place of `self`. -/
def connect_lua (args1 : List LVal) (env : Env) (w : World) : CallResult (Option pgconn_t) :=
  match lauxh_optstring 1 (args1.get? 0) with
  | .error e => ⟨e, none, w⟩
  | .ok conninfo =>
    match lauxh_optboolean 2 false (args1.get? 1) with
    | .error e => ⟨e, none, w⟩
    | .ok nonblock =>
      let (rep, w) :=
        if nonblock then w.native env "PQconnectStart" [.str (conninfo.getD "")]
        else w.native env "PQconnectdb" [.str (conninfo.getD "")]
      match rep.ptr with
      | some conn =>
        ⟨.values [.pgconn],
          some { notice_proc_ref := LUA_NOREF, notice_recv_ref := LUA_NOREF, trace_ref := LUA_NOREF,
                 default_proc := none, default_recv := none, conn := some conn }, w⟩
      | none =>
        -- got error
        ⟨.values [.nil, .errno w.errno "connect" none], none, w⟩

end pgconn

/-! ### The method tables -/

namespace pgresult

/-- The names in the table `method[]` of `init_postgres_pgresult`. -/
inductive Method where
  | clear | connection | status | error_message | verbose_error_message | error_field
  | ntuples | nfields | binary_tuples | fname | fnumber | ftable | ftablecol | fformat
  | ftype | fsize | fmod | cmd_status | oid_value | cmd_tuples | get_value | get_length
  | get_is_null | nparams | param_type

/-- The table `method[]` of `init_postgres_pgresult`: the C function of each
name. -/
def method : Method → pgresult_t → List LVal → Env → World → CallResult pgresult_t
  | .clear => clear_lua
  | .connection => connection_lua
  | .status => status_lua
  | .error_message => error_message_lua
  | .verbose_error_message => verbose_error_message_lua
  | .error_field => error_field_lua
  | .ntuples => ntuples_lua
  | .nfields => nfields_lua
  | .binary_tuples => binary_tuples_lua
  | .fname => fname_lua
  | .fnumber => fnumber_lua
  | .ftable => ftable_lua
  | .ftablecol => ftablecol_lua
  | .fformat => fformat_lua
  | .ftype => ftype_lua
  | .fsize => fsize_lua
  | .fmod => fmod_lua
  | .cmd_status => cmd_status_lua
  | .oid_value => oid_value_lua
  | .cmd_tuples => cmd_tuples_lua
  | .get_value => get_value_lua
  | .get_length => get_length_lua
  | .get_is_null => get_is_null_lua
  | .nparams => nparams_lua
  | .param_type => param_type_lua

/-- A call of the method `clear` or of the finalizer `__gc`. -/
inductive Release where
  | clear
  | gc

/-- One call of `clear()` or of the finalizer on the userdata. -/
def release (env : Env) (rw : pgresult_t × World) : Release → pgresult_t × World
  | .clear => ((clear_lua rw.1 [] env rw.2).self, (clear_lua rw.1 [] env rw.2).world)
  | .gc => ((gc_lua rw.1 [] env rw.2).self, (gc_lua rw.1 [] env rw.2).world)

/-- A sequence of calls of `clear()` and of the finalizer on the userdata. -/
def releases (env : Env) (rw : pgresult_t × World) (l : List Release) : pgresult_t × World :=
  l.foldl (release env) rw

end pgresult

namespace pgconn

/-- The names in the table `method[]` of `luaopen_postgres_pgconn`. -/
inductive Method where
  | finish | conninfo | connect_poll | get_cancel | db | user | pass | host | hostaddr | port
  | options | status | transaction_status | parameter_status | protocol_version
  | server_version | error_message | socket | backend_pid | pipeline_status
  | connection_needs_password | connection_used_password | client_encoding
  | set_client_encoding | ssl_in_use | ssl_attribute | ssl_attribute_names
  | set_error_verbosity | set_error_context_visibility | set_notice_processor
  | set_notice_receiver | call_notice_processor | call_notice_receiver | trace | untrace
  | set_trace_flags | exec | exec_params | prepare | exec_prepare | send_query
  | send_query_params | set_single_row_mode | get_result | is_busy | consume_input
  | enter_pipeline_mode | exit_pipeline_mode | pipeline_sync | send_flush_request | notifies
  | put_copy_data | put_copy_end | get_copy_data | set_nonblocking | is_nonblocking | flush
  | make_empty_result | escape_string_conn | escape_literal | escape_identifier
  | escape_bytea_conn | encrypt_password_conn

/-- The table `method[]` of `luaopen_postgres_pgconn`: the C function of each
name; `fuel` bounds the `goto RETRY` of `is_busy_lua`, and `none` stands for
running out of it. -/
def method (fuel : Nat) :
    Method → pgconn_t → List LVal → Env → World → Option (CallResult pgconn_t)
  | .finish => fun c args env w => some (finish_lua c args env w)
  | .conninfo => fun c args env w => some (conninfo_lua c args env w)
  | .connect_poll => fun c args env w => some (connect_poll_lua c args env w)
  | .get_cancel => fun c args env w => some (get_cancel_lua c args env w)
  | .db => fun c args env w => some (db_lua c args env w)
  | .user => fun c args env w => some (user_lua c args env w)
  | .pass => fun c args env w => some (pass_lua c args env w)
  | .host => fun c args env w => some (host_lua c args env w)
  | .hostaddr => fun c args env w => some (hostaddr_lua c args env w)
  | .port => fun c args env w => some (port_lua c args env w)
  | .options => fun c args env w => some (options_lua c args env w)
  | .status => fun c args env w => some (status_lua c args env w)
  | .transaction_status => fun c args env w => some (transaction_status_lua c args env w)
  | .parameter_status => fun c args env w => some (parameter_status_lua c args env w)
  | .protocol_version => fun c args env w => some (protocol_version_lua c args env w)
  | .server_version => fun c args env w => some (server_version_lua c args env w)
  | .error_message => fun c args env w => some (error_message_lua c args env w)
  | .socket => fun c args env w => some (socket_lua c args env w)
  | .backend_pid => fun c args env w => some (backend_pid_lua c args env w)
  | .pipeline_status => fun c args env w => some (pipeline_status_lua c args env w)
  | .connection_needs_password => fun c args env w => some (connection_needs_password_lua c args env w)
  | .connection_used_password => fun c args env w => some (connection_used_password_lua c args env w)
  | .client_encoding => fun c args env w => some (client_encoding_lua c args env w)
  | .set_client_encoding => fun c args env w => some (set_client_encoding_lua c args env w)
  | .ssl_in_use => fun c args env w => some (ssl_in_use_lua c args env w)
  | .ssl_attribute => fun c args env w => some (ssl_attribute_lua c args env w)
  | .ssl_attribute_names => fun c args env w => some (ssl_attribute_names_lua c args env w)
  | .set_error_verbosity => fun c args env w => some (set_error_verbosity_lua c args env w)
  | .set_error_context_visibility => fun c args env w => some (set_error_context_visibility_lua c args env w)
  | .set_notice_processor => fun c args env w => some (set_notice_processor_lua c args env w)
  | .set_notice_receiver => fun c args env w => some (set_notice_receiver_lua c args env w)
  | .call_notice_processor => fun c args env w => some (call_notice_processor_lua c args env w)
  | .call_notice_receiver => fun c args env w => some (call_notice_receiver_lua c args env w)
  | .trace => fun c args env w => some (trace_lua c args env w)
  | .untrace => fun c args env w => some (untrace_lua c args env w)
  | .set_trace_flags => fun c args env w => some (set_trace_flags_lua c args env w)
  | .exec => fun c args env w => some (exec_lua c args env w)
  | .exec_params => fun c args env w => some (exec_params_lua c args env w)
  | .prepare => fun c args env w => some (prepare_lua c args env w)
  | .exec_prepare => fun c args env w => some (exec_prepare_lua c args env w)
  | .send_query => fun c args env w => some (send_query_lua c args env w)
  | .send_query_params => fun c args env w => some (send_query_params_lua c args env w)
  | .set_single_row_mode => fun c args env w => some (set_single_row_mode_lua c args env w)
  | .get_result => fun c args env w => some (get_result_lua c args env w)
  | .is_busy => is_busy_lua fuel
  | .consume_input => fun c args env w => some (consume_input_lua c args env w)
  | .enter_pipeline_mode => fun c args env w => some (enter_pipeline_mode_lua c args env w)
  | .exit_pipeline_mode => fun c args env w => some (exit_pipeline_mode_lua c args env w)
  | .pipeline_sync => fun c args env w => some (pipeline_sync_lua c args env w)
  | .send_flush_request => fun c args env w => some (send_flush_request_lua c args env w)
  | .notifies => fun c args env w => some (notifies_lua c args env w)
  | .put_copy_data => fun c args env w => some (put_copy_data_lua c args env w)
  | .put_copy_end => fun c args env w => some (put_copy_end_lua c args env w)
  | .get_copy_data => fun c args env w => some (get_copy_data_lua c args env w)
  | .set_nonblocking => fun c args env w => some (set_nonblocking_lua c args env w)
  | .is_nonblocking => fun c args env w => some (is_nonblocking_lua c args env w)
  | .flush => fun c args env w => some (flush_lua c args env w)
  | .make_empty_result => fun c args env w => some (make_empty_result_lua c args env w)
  | .escape_string_conn => fun c args env w => some (escape_string_conn_lua c args env w)
  | .escape_literal => fun c args env w => some (escape_literal_lua c args env w)
  | .escape_identifier => fun c args env w => some (escape_identifier_lua c args env w)
  | .escape_bytea_conn => fun c args env w => some (escape_bytea_conn_lua c args env w)
  | .encrypt_password_conn => fun c args env w => some (encrypt_password_conn_lua c args env w)

/-- A call of the method `finish` or of the finalizer `__gc`. -/
inductive Release where
  | finish
  | gc

/-- One call of `finish()` or of the finalizer on the userdata. -/
def release (env : Env) (cw : pgconn_t × World) : Release → pgconn_t × World
  | .finish => ((finish_lua cw.1 [] env cw.2).self, (finish_lua cw.1 [] env cw.2).world)
  | .gc => ((gc_lua cw.1 [] env cw.2).self, (gc_lua cw.1 [] env cw.2).world)

/-- A sequence of calls of `finish()` and of the finalizer on the userdata. -/
def releases (env : Env) (cw : pgconn_t × World) (l : List Release) : pgconn_t × World :=
  l.foldl (release env) cw

end pgconn

/-- The number of calls of the libpq function `fn` in a log. -/
def countNative (fn : String) : List Event → Nat
  | [] => 0
  | .native f _ :: rest => (if f = fn then 1 else 0) + countNative fn rest
  | .lua_call _ _ :: rest => countNative fn rest

/-- The table "Parameter encoding" of the specification, not the code: the
text parameter a positional argument becomes (`none` is SQL NULL), or `none`
for "anything else". -/
def spec_coerce : LVal → Option (Option String)
  | .nil => some none
  | .boolean true => some (some "TRUE")
  | .boolean false => some (some "FALSE")
  | .integer n => some (some (toString n))
  | .float text => some (some text)
  | .string s => some (some s)
  | _ => none

/-- The array of text parameters handed to libpq: a null pointer when there is
no parameter. -/
def paramsArg (ps : List (Option String)) : Arg :=
  if ps.length = 0 then .null else .strs ps

/-! ### The passes of `is_busy_lua`

One pass is the code from the label `RETRY` to the next `goto RETRY` or
`return`: `errno = 0`, `PQconsumeInput` and, when that succeeds, `PQisBusy`.
A pass that jumps back has made these two calls, so that pass `i` of a call
that starts in the world `w` finds the log `2 * i` events longer. -/

/-- What libpq answers to the `PQconsumeInput` of pass `i`. -/
def consumeReply (env : Env) (conn : Ptr) (w : World) (i : Nat) : Reply :=
  env.reply (w.log.length + 2 * i) "PQconsumeInput" [.ptr conn]

/-- What libpq answers to the `PQisBusy` of pass `i`. -/
def busyReply (env : Env) (conn : Ptr) (w : World) (i : Nat) : Reply :=
  env.reply (w.log.length + 2 * i + 1) "PQisBusy" [.ptr conn]

/-- The `errno` after the `PQconsumeInput` of pass `i`, which follows
`errno = 0`. -/
def consumeErrno (env : Env) (conn : Ptr) (w : World) (i : Nat) : Nat :=
  (consumeReply env conn w i).errno.getD 0

/-- The test `errno == EAGAIN || errno == EWOULDBLOCK`. -/
def Again (env : Env) (e : Nat) : Prop := e = env.EAGAIN ∨ e = env.EWOULDBLOCK

instance (env : Env) (e : Nat) : Decidable (Again env e) :=
  inferInstanceAs (Decidable (e = env.EAGAIN ∨ e = env.EWOULDBLOCK))

/-- Pass `i` succeeds in consuming, with an `errno` other than `EAGAIN` and
`EWOULDBLOCK`, and leaves the session busy. -/
def Retries (env : Env) (conn : Ptr) (w : World) (i : Nat) : Prop :=
  (consumeReply env conn w i).int ≠ 0 ∧ (busyReply env conn w i).int ≠ 0 ∧
  ¬ Again env (consumeErrno env conn w i)

/-- The world after `errno = 0` and the two libpq calls of one pass. -/
def afterPass (env : Env) (conn : Ptr) (w : World) : World :=
  ((w.clearErrno.native env "PQconsumeInput" [.ptr conn]).2.native env "PQisBusy" [.ptr conn]).2

instance (env : Env) (conn : Ptr) (w : World) (i : Nat) : Decidable (Retries env conn w i) :=
  inferInstanceAs (Decidable ((consumeReply env conn w i).int ≠ 0 ∧
    (busyReply env conn w i).int ≠ 0 ∧ ¬ Again env (consumeErrno env conn w i)))

/-- A call that started in the world `w` and left `r` has made the libpq call
`e` and after it at most the read `PQerrorMessage(conn)`. -/
def SendsOne (w : World) (conn : Ptr) (e : Event) (r : CallResult pgconn_t) : Prop :=
  r.world.log = w.log ++ [e] ∨
  r.world.log = w.log ++ [e, .native "PQerrorMessage" [.ptr conn]]

/-- The reference `ref` is in use and the registry of `w` holds under it the
closure that `push_notice_closure` builds for the function `f` and the further
arguments `es`. -/
def Installed (ref : Int) (f : LVal) (es : List LVal) (w : World) : Prop :=
  ref ≠ LUA_NOREF ∧ w.registry ref = some (.closure (.integer es.length :: f :: es))

/-! ### Sample values -/

/-- A libpq that answers every call with 0 and null pointers. -/
def nullReply : Reply := ⟨0, none, none, [], [], none⟩

/-- An environment in which libpq answers every call with `nullReply`. -/
def nullEnv : Env := ⟨fun _ _ _ => nullReply, fun n => n, 125, 11, 11, 34⟩

/-- An environment in which libpq answers every call with `nullReply`, except
that `PQerrorMessage` gives the text of an earlier error. -/
def staleErrorEnv : Env :=
  ⟨fun _ fn _ =>
      if fn = "PQerrorMessage" then { nullReply with str := some "ERROR:  division by zero\n" }
      else nullReply,
    fun n => n, 125, 11, 11, 34⟩

/-- A libpq whose socket holds data for two passes: `PQconsumeInput` succeeds
every time and sets `errno` to `EAGAIN` (11) from the third pass on (the log
then holds 4 events); `PQisBusy` says busy every time. -/
def drainEnv : Env :=
  ⟨fun n fn _ =>
      if fn = "PQconsumeInput" then { nullReply with int := 1, errno := if n < 4 then none else some 11 }
      else if fn = "PQisBusy" then { nullReply with int := 1 }
      else nullReply,
    fun n => n, 125, 11, 11, 34⟩

/-- A libpq that answers every call with the integer 1 and the pointer 1:
the earlier context visibility it reports is `PQSHOW_CONTEXT_ERRORS`, and the
earlier notice handler is not null. -/
def oneEnv : Env :=
  ⟨fun _ _ _ => { nullReply with int := 1, ptr := some 1 }, fun n => n, 125, 11, 11, 34⟩

/-- A libpq that describes the result 9 of a prepared statement with two
parameters, of the types 23 and 25: the status is `PGRES_COMMAND_OK`. -/
def describeEnv : Env :=
  ⟨fun _ fn args =>
      if fn = "PQresultStatus" then { nullReply with int := 1 }
      else if fn = "PQnparams" then { nullReply with int := 2 }
      else if fn = "PQparamtype" then
        { nullReply with
          int := if args = [.ptr 9, .int 0] then 23 else if args = [.ptr 9, .int 1] then 25 else 0 }
      else nullReply,
    fun n => n, 125, 11, 11, 34⟩

/-- A world with an empty log and an empty registry. -/
def emptyWorld : World := ⟨0, [], fun _ => none, 0⟩

/-- A live connection with the handle 7 and no callback, as `connect_lua`
leaves it. -/
def liveConn : pgconn_t :=
  { notice_proc_ref := LUA_NOREF, notice_recv_ref := LUA_NOREF, trace_ref := LUA_NOREF,
    default_proc := none, default_recv := none, conn := some 7 }

/-- A finished connection. -/
def finishedConn : pgconn_t := { liveConn with conn := none }

/-! ## The loop of `unpack_lua`: fuel and iteration -/

theorem digits_length (fmt : List Char) :
    ∀ (mod m : Nat) (rest : List Char), digits fmt mod = .ok (m, rest) → rest.length ≤ fmt.length := by
  induction fmt with
  | nil => intro mod m rest h; simp [digits] at h; simp [h.2.symm]
  | cons c cs ih =>
    intro mod m rest h
    simp only [digits] at h
    split at h
    · cases h
    · split at h
      · have := ih _ _ _ h
        simp; omega
      · simp only [Except.ok.injEq, Prod.mk.injEq] at h
        simp [h.2.symm]

theorem lengthModifier_length (t : Char) (fmt : List Char) (pre_iv : Int) (k : Nat)
    (rest : List Char) (h : lengthModifier t fmt pre_iv = .ok (k, rest)) :
    rest.length ≤ fmt.length := by
  unfold lengthModifier at h
  split at h
  · split at h
    · cases h
    · split at h
      · cases h
      · next mod fmt1 hd =>
        split at h
        · cases h
        · simp only [Except.ok.injEq, Prod.mk.injEq] at h
          rw [← h.2]
          exact digits_length _ _ _ _ hd
  · split at h
    · split at h
      · cases h
      · split at h
        · cases h
        · split at h <;>
          · simp only [Except.ok.injEq, Prod.mk.injEq] at h
            rw [← h.2]
            simp
    · split at h
      · cases h
      · simp only [Except.ok.injEq, Prod.mk.injEq] at h
        simp [h.2.symm]

theorem directive_length (data : List Byte) (t : Char) (fmt : List Char) (st : UnpackState)
    (rest : List Char) (st1 : UnpackState) (h : directive data t fmt st = .next rest st1) :
    rest.length ≤ fmt.length := by
  unfold directive at h
  split at h
  · cases h
  · split at h
    · cases h
    · next k fmt1 hm =>
      simp only at h
      split at h
      · cases h
      · split at h
        · cases h
        · simp only [Step.next.injEq] at h
          rw [← h.1]
          exact lengthModifier_length _ _ _ _ _ hm

/-- Any fuel of at least the format's length gives the same result. -/
theorem unpackLoop_fuel (data : List Byte) (fuel : Nat) :
    ∀ (fuel1 : Nat) (fmt : List Char) (st : UnpackState), fmt.length ≤ fuel → fmt.length ≤ fuel1 →
      unpackLoop data fuel fmt st = unpackLoop data fuel1 fmt st := by
  induction fuel with
  | zero =>
    intro fuel1 fmt st h _
    have : fmt = [] := List.length_eq_zero.mp (by omega)
    subst this
    cases fuel1 <;> simp [unpackLoop]
  | succ n ih =>
    intro fuel1 fmt st h h1
    cases fmt with
    | nil => cases fuel1 <;> simp [unpackLoop]
    | cons t cs =>
      cases fuel1 with
      | zero => simp at h1
      | succ m =>
        simp only [unpackLoop]
        split
        · rfl
        · split
          · rfl
          · next rest st1 hd =>
            have hl := directive_length _ _ _ _ _ _ hd
            simp only [List.length_cons] at h h1
            exact ih m rest st1 (by omega) (by omega)

/-- The loop never runs out of a fuel of the format's length: `unpack_lua`
always returns or raises. -/
theorem unpackLoop_isSome (data : List Byte) (fuel : Nat) :
    ∀ (fmt : List Char) (st : UnpackState), fmt.length ≤ fuel →
      ∃ r, unpackLoop data fuel fmt st = some r := by
  induction fuel with
  | zero =>
    intro fmt st h
    have : fmt = [] := List.length_eq_zero.mp (by omega)
    subst this
    exact ⟨_, rfl⟩
  | succ n ih =>
    intro fmt st h
    cases fmt with
    | nil => exact ⟨_, rfl⟩
    | cons t cs =>
      simp only [unpackLoop]
      split
      · exact ⟨_, rfl⟩
      · split
        · exact ⟨_, rfl⟩
        · next rest st1 hd =>
          have hl := directive_length _ _ _ _ _ _ hd
          simp only [List.length_cons] at h
          exact ih rest st1 (by omega)

/-- After `n` complete iterations the loop goes on from the state reached. -/
theorem unpackLoop_of_unpackIter (data : List Byte) (n : Nat) :
    ∀ (fuel : Nat) (fmt : List Char) (st : UnpackState) (rest : List Char) (st1 : UnpackState),
      unpackIter data n fmt st = some (rest, st1) → fmt.length ≤ fuel →
      unpackLoop data fuel fmt st = unpackLoop data rest.length rest st1 := by
  induction n with
  | zero =>
    intro fuel fmt st rest st1 h hf
    simp only [unpackIter, Option.some.injEq, Prod.mk.injEq] at h
    rw [← h.1, ← h.2]
    exact unpackLoop_fuel data fuel _ fmt st hf (le_refl _)
  | succ m ih =>
    intro fuel fmt st rest st1 h hf
    cases fmt with
    | nil => simp [unpackIter] at h
    | cons t cs =>
      cases fuel with
      | zero => simp at hf
      | succ fuel =>
        simp only [unpackIter] at h
        simp only [unpackLoop]
        split
        · next ht => simp [ht] at h
        · next ht =>
          simp only [ht, if_false] at h
          split
          · next r hd => simp [hd] at h
          · next fmt1 st2 hd =>
            simp only [hd] at h
            have hl := directive_length _ _ _ _ _ _ hd
            simp only [List.length_cons] at hf
            exact ih fuel fmt1 st2 rest st1 h (by omega)

/-- Iterations compose. -/
theorem unpackIter_add (data : List Byte) (n m : Nat) :
    ∀ (fmt : List Char) (st : UnpackState) (rest : List Char) (st1 : UnpackState),
      unpackIter data n fmt st = some (rest, st1) →
      unpackIter data (n + m) fmt st = unpackIter data m rest st1 := by
  induction n with
  | zero =>
    intro fmt st rest st1 h
    simp only [unpackIter, Option.some.injEq, Prod.mk.injEq] at h
    simp [h.1, h.2]
  | succ k ih =>
    intro fmt st rest st1 h
    cases fmt with
    | nil => simp [unpackIter] at h
    | cons t cs =>
      have e : k + 1 + m = (k + m) + 1 := by omega
      rw [e]
      simp only [unpackIter] at h ⊢
      split
      · next ht => simp [ht] at h
      · next ht =>
        simp only [ht, if_false] at h
        split
        · next r hd => simp [hd] at h
        · next fmt1 st2 hd =>
          simp only [hd] at h
          exact ih fmt1 st2 rest st1 h

/-- From the state reached after `n` iterations, `unpack_lua` returns what the
loop returns from there. -/
theorem unpack_lua_of_unpackIter (out : LuaTable) (fmt : List Char) (data : List Byte) (n : Nat)
    (rest : List Char) (st : UnpackState)
    (h : unpackIter data n fmt (initState out data) = some (rest, st)) :
    unpack_lua out fmt data = unpackLoop data rest.length rest st :=
  unpackLoop_of_unpackIter data n fmt.length fmt _ rest st h (le_refl _)

/-! ## The byte budget -/

theorem loopNtohs_fields (data : List Byte) (k : Nat) :
    ∀ st : UnpackState, (loopNtohs data k st).head = st.head + 2 * k ∧
      (loopNtohs data k st).len = st.len ∧ (loopNtohs data k st).msglen = st.msglen ∧
      (loopNtohs data k st).pre_iv = st.pre_iv ∧ (loopNtohs data k st).idx = st.idx + k := by
  induction k with
  | zero => intro st; simp [loopNtohs]
  | succ n ih =>
    intro st
    simp only [loopNtohs]
    obtain ⟨a, b, c, d, e⟩ := ih { st with
      out := Function.update st.out st.idx (some (.integer (ntohs data st.head)))
      idx := st.idx + 1
      head := st.head + 2 }
    refine ⟨?_, ?_, ?_, ?_, ?_⟩
    · rw [a]; simp only; omega
    · rw [b]
    · rw [c]
    · rw [d]
    · rw [e]; simp only; omega

theorem loopNtohl_fields (data : List Byte) (k : Nat) :
    ∀ st : UnpackState, (loopNtohl data k st).head = st.head + 4 * k ∧
      (loopNtohl data k st).len = st.len ∧ (loopNtohl data k st).msglen = st.msglen ∧
      (loopNtohl data k st).pre_iv = st.pre_iv ∧ (loopNtohl data k st).idx = st.idx + k := by
  induction k with
  | zero => intro st; simp [loopNtohl]
  | succ n ih =>
    intro st
    simp only [loopNtohl]
    obtain ⟨a, b, c, d, e⟩ := ih { st with
      out := Function.update st.out st.idx (some (.integer (ntohl data st.head)))
      idx := st.idx + 1
      head := st.head + 4 }
    refine ⟨?_, ?_, ?_, ?_, ?_⟩
    · rw [a]; simp only; omega
    · rw [b]
    · rw [c]
    · rw [d]
    · rw [e]; simp only; omega

theorem memchr_lt (c : Byte) (l : List Byte) :
    ∀ n : Nat, memchr c l = some n → n < l.length := by
  induction l with
  | nil => intro n h; simp [memchr] at h
  | cons x xs ih =>
    intro n h
    simp only [memchr] at h
    split at h
    · simp only [Option.some.injEq] at h; subst h; simp
    · cases hm : memchr c xs with
      | none => simp [hm] at h
      | some m =>
        simp only [hm, Option.map_some', Option.some.injEq] at h
        have := ih m hm
        subst h
        simp; omega

theorem lstring_length (data : List Byte) (p n : Nat) :
    (lstring data p n).length = min n (data.length - p) := by
  simp [lstring]

theorem loopString_fields (data : List Byte) (k : Nat) :
    ∀ st st1 : UnpackState, loopString data k st = .ok st1 →
      st1.head + st1.len = st.head + st.len ∧ st.head ≤ st1.head ∧ st1.msglen = st.msglen ∧
      st1.pre_iv = st.pre_iv ∧ st.idx ≤ st1.idx := by
  induction k with
  | zero =>
    intro st st1 h
    simp only [loopString, Except.ok.injEq] at h
    subst h
    simp
  | succ n ih =>
    intro st st1 h
    simp only [loopString] at h
    split at h
    · split at h <;> cases h
    · next slen hm =>
      have hlt := memchr_lt _ _ _ hm
      rw [lstring_length] at hlt
      obtain ⟨a, b, c, d, e⟩ := ih _ _ h
      simp only at a b c d e
      refine ⟨by omega, by omega, c, d, by omega⟩

theorem lengthModifier_L (fmt : List Char) (pre_iv : Int) (k : Nat) (rest : List Char)
    (h : lengthModifier 'L' fmt pre_iv = .ok (k, rest)) : k = 1 ∧ rest = fmt := by
  unfold lengthModifier at h
  split at h
  · simp at h
  · split at h
    · simp at h
    · simp at h
      exact ⟨h.1.symm, h.2.symm⟩

theorem directive_budget (data : List Byte) (t : Char) (fmt : List Char) (st : UnpackState)
    (rest : List Char) (st1 : UnpackState) (h : directive data t fmt st = .next rest st1)
    (hb : Budget data st) : Budget data st1 := by
  obtain ⟨hb1, hb2⟩ := hb
  unfold directive at h
  split at h
  · cases h
  · next unit label hty =>
    split at h
    · cases h
    · next k fmt1 hm =>
      simp only at h
      split at h
      · cases h
      · next hlen =>
        simp only [not_lt] at hlen
        split at h
        · cases h
        · next st2 hl =>
          simp only [Step.next.injEq] at h
          obtain ⟨_, rfl⟩ := h
          unfold typeSpecifier at hty
          unfold unpackLabel at hl
          split at hty
          · -- h
            simp only [Except.ok.injEq, Prod.mk.injEq] at hty
            obtain ⟨rfl, rfl⟩ := hty
            obtain ⟨a, b, c, d, e⟩ := loopNtohs_fields data k { st with pre_iv := INTMAX_MIN }
            simp only [Except.ok.injEq] at hl
            subst hl
            unfold Budget
            split <;> simp only [a, b, c] <;> constructor <;> (try intro hmm) <;> (try have := hb2 hmm) <;> omega
          · split at hty
            · -- L
              next htL =>
              subst htL
              split at hty
              · cases hty
              · next hms =>
                simp only [ne_eq, Decidable.not_not] at hms
                simp only [Except.ok.injEq, Prod.mk.injEq] at hty
                obtain ⟨rfl, rfl⟩ := hty
                obtain ⟨rfl, rfl⟩ := lengthModifier_L _ _ _ _ hm
                obtain ⟨a, b, c, d, e⟩ := loopNtohl_fields data 1 { st with pre_iv := INTMAX_MIN }
                simp only [if_true] at hl
                split at hl
                · cases hl
                · split at hl
                  · cases hl
                  · next h4 hlt =>
                    simp only [Except.ok.injEq] at hl
                    subst hl
                    simp only [b, not_lt] at hlt h4
                    unfold Budget
                    split <;> simp only [a] <;> constructor <;> (try intro hmm) <;> omega
            · split at hty
              · -- i
                next hnL hti =>
                simp only [Except.ok.injEq, Prod.mk.injEq] at hty
                obtain ⟨rfl, rfl⟩ := hty
                obtain ⟨a, b, c, d, e⟩ := loopNtohl_fields data k { st with pre_iv := INTMAX_MIN }
                simp only [hnL, if_false, Except.ok.injEq] at hl
                subst hl
                unfold Budget
                split <;> simp only [a, b, c] <;> constructor <;> (try intro hmm) <;> (try have := hb2 hmm) <;> omega
              · split at hty
                · -- s
                  simp only [Except.ok.injEq, Prod.mk.injEq] at hty
                  obtain ⟨rfl, rfl⟩ := hty
                  obtain ⟨a, b, c, d, e⟩ := loopString_fields data k _ _ hl
                  simp only at a b c d e
                  unfold Budget
                  rw [a, c]
                  exact ⟨hb1, hb2⟩
                · split at hty
                  · -- b
                    simp only [Except.ok.injEq, Prod.mk.injEq] at hty
                    obtain ⟨rfl, rfl⟩ := hty
                    simp only [Except.ok.injEq] at hl
                    subst hl
                    unfold Budget
                    simp only
                    constructor <;> (try intro hmm) <;> (try have := hb2 hmm) <;> omega
                  · cases hty

theorem initState_budget (out : LuaTable) (data : List Byte) : Budget data (initState out data) := by
  simp [Budget, initState]

theorem unpackIter_budget (data : List Byte) (n : Nat) :
    ∀ (fmt : List Char) (st : UnpackState) (rest : List Char) (st1 : UnpackState),
      unpackIter data n fmt st = some (rest, st1) → Budget data st → Budget data st1 := by
  induction n with
  | zero =>
    intro fmt st rest st1 h hb
    simp only [unpackIter, Option.some.injEq, Prod.mk.injEq] at h
    rw [← h.2]; exact hb
  | succ k ih =>
    intro fmt st rest st1 h hb
    cases fmt with
    | nil => simp [unpackIter] at h
    | cons t cs =>
      simp only [unpackIter] at h
      split at h
      · cases h
      · split at h
        · cases h
        · next fmt1 st2 hd =>
          exact ih fmt1 st2 rest st1 h (directive_budget _ _ _ _ _ _ hd hb)

/-! ## Single directives -/

theorem lengthModifier_none (t : Char) (fmt : List Char) (pre_iv : Int)
    (hd : (peek fmt).isDigit = false) (hs : peek fmt ≠ '*') (hb : t ≠ 'b') :
    lengthModifier t fmt pre_iv = .ok (1, fmt) := by
  simp [lengthModifier, hd, hs, hb]

theorem lengthModifier_star (t : Char) (fmt : List Char) (pre_iv : Int)
    (ht : t = 'h' ∨ t = 'i' ∨ t = 'b') (hp : pre_iv ≠ INTMAX_MIN) :
    lengthModifier t ('*' :: fmt) pre_iv = .ok (pre_iv.toNat, fmt) := by
  have h1 : ¬ (t ≠ 'h' ∧ t ≠ 'i' ∧ t ≠ 'b') := by
    rcases ht with h | h | h <;> simp [h]
  have h2 : Char.isDigit '*' = false := by decide
  unfold lengthModifier
  simp only [peek, List.headD_cons, h2, h1, hp, if_true, if_false, List.tail_cons,
    Bool.false_eq_true]
  split
  · next hneg =>
    have : pre_iv.toNat = 0 := Int.toNat_eq_zero.mpr (le_of_lt hneg)
    rw [this]
  · rfl

/-- The iteration for an `L` directive without modifier when no `L` was
decoded before. -/
theorem directive_L (data : List Byte) (tail : List Char) (st : UnpackState)
    (hfirst : st.msglen = -1) (hd : (peek tail).isDigit = false) (hs : peek tail ≠ '*') :
    directive data 'L' tail st =
      if st.len < 4 then .done ⟨.notEnough, st.out⟩
      else if ntohl data st.head < 4 then
        .done ⟨.failure "invalid message length: message length must be greater than or equal to its own length",
          Function.update st.out st.idx (some (.integer (ntohl data st.head)))⟩
      else if (st.len : Int) < ntohl data st.head then
        .done ⟨.notEnough, Function.update st.out st.idx (some (.integer (ntohl data st.head)))⟩
      else
        .next tail
          { head := st.head + 4
            len := (ntohl data st.head).toNat - 4
            msglen := ntohl data st.head
            pre_iv := if peek tail = 'b' then ntohl data st.head - 4 else INTMAX_MIN
            idx := st.idx + 1
            out := Function.update st.out st.idx (some (.integer (ntohl data st.head))) } := by
  have hty : typeSpecifier 'L' st.msglen = .ok (4, .UNPACK_NTOHL) := by
    simp [typeSpecifier, hfirst]
  have hmod := lengthModifier_none 'L' tail st.pre_iv hd hs (by decide)
  unfold directive
  simp only [hty, hmod, Nat.mul_one]
  by_cases h1 : st.len < 4
  · simp only [h1, if_true]
  · by_cases h2 : ntohl data st.head < 4
    · simp only [h1, h2, if_true, if_false, unpackLabel, loopNtohl]
    · by_cases h3 : (st.len : Int) < ntohl data st.head
      · simp only [h1, h2, h3, if_true, if_false, unpackLabel, loopNtohl]
      · by_cases h4 : peek tail = 'b'
        · simp only [h1, h2, h3, h4, if_true, if_false, unpackLabel, loopNtohl]
        · simp only [h1, h2, h3, h4, if_true, if_false, unpackLabel, loopNtohl]

theorem toNat_ofNat_byte (x : Nat) : (UInt8.ofNat x).toNat = x % 256 := by
  simp [UInt8.ofNat, UInt8.toNat]

theorem toInt32_emod (n : Int) (h1 : -2 ^ 31 ≤ n) (h2 : n < 2 ^ 31) :
    toInt32 (n % 2 ^ 32).toNat = n := by
  unfold toInt32
  split <;> omega

/-- Decoding the four bytes of `be32 n` gives `n` back. -/
theorem ntohl_be32 (n : Int) (rest : List Byte) (h1 : -2 ^ 31 ≤ n) (h2 : n < 2 ^ 31) :
    ntohl (be32 n ++ rest) 0 = n := by
  have hu : (n % 2 ^ 32).toNat < 2 ^ 32 := by omega
  have e : byteAt (be32 n ++ rest) 0 * 2 ^ 24 + byteAt (be32 n ++ rest) (0 + 1) * 2 ^ 16
      + byteAt (be32 n ++ rest) (0 + 2) * 2 ^ 8 + byteAt (be32 n ++ rest) (0 + 3)
      = (n % 2 ^ 32).toNat := by
    simp only [be32, byteAt, List.cons_append, List.getD_cons_zero, List.getD_cons_succ,
      toNat_ofNat_byte]
    omega
  unfold ntohl
  rw [e]
  exact toInt32_emod n h1 h2

/-- The iteration for a `b*` directive when a preceding value is set. -/
theorem directive_b_star (data : List Byte) (rest : List Char) (st : UnpackState)
    (hp : st.pre_iv ≠ INTMAX_MIN) :
    directive data 'b' ('*' :: rest) st =
      if st.len < st.pre_iv.toNat then .done ⟨.notEnough, st.out⟩
      else
        .next rest
          { head := st.head + st.pre_iv.toNat
            len := st.len - st.pre_iv.toNat
            msglen := st.msglen
            pre_iv := INTMAX_MIN
            idx := st.idx + 1
            out := Function.update st.out st.idx
              (some (.string (lstring data st.head st.pre_iv.toNat))) } := by
  have hty : typeSpecifier 'b' st.msglen = .ok (1, .UNPACK_BYTE) := by
    simp [typeSpecifier]
  have hmod := lengthModifier_star 'b' rest st.pre_iv (by simp) hp
  unfold directive
  simp only [hty, hmod, Nat.one_mul, unpackLabel]

theorem toInt16_bounds (u : Nat) : -2 ^ 15 ≤ toInt16 u ∧ toInt16 u < 2 ^ 15 := by
  unfold toInt16
  split <;> omega

theorem toInt32_bounds (u : Nat) : -2 ^ 31 ≤ toInt32 u ∧ toInt32 u < 2 ^ 31 := by
  unfold toInt32
  split <;> omega

theorem ntohs_ne_min (data : List Byte) (p : Nat) : ntohs data p ≠ INTMAX_MIN := by
  have := toInt16_bounds (byteAt data p * 2 ^ 8 + byteAt data (p + 1))
  unfold ntohs INTMAX_MIN
  omega

theorem ntohl_ne_min (data : List Byte) (p : Nat) : ntohl data p ≠ INTMAX_MIN := by
  have := toInt32_bounds (byteAt data p * 2 ^ 24 + byteAt data (p + 1) * 2 ^ 16
    + byteAt data (p + 2) * 2 ^ 8 + byteAt data (p + 3))
  unfold ntohl INTMAX_MIN
  omega

/-- The iteration for an `h` directive without modifier. -/
theorem directive_h (data : List Byte) (rest : List Char) (st : UnpackState)
    (hd : (peek rest).isDigit = false) (hs : peek rest ≠ '*') :
    directive data 'h' rest st =
      if st.len < 2 then .done ⟨.notEnough, st.out⟩
      else
        .next rest
          { head := st.head + 2
            len := st.len - 2
            msglen := st.msglen
            pre_iv := ntohs data st.head
            idx := st.idx + 1
            out := Function.update st.out st.idx (some (.integer (ntohs data st.head))) } := by
  have hty : typeSpecifier 'h' st.msglen = .ok (2, .UNPACK_NTOHS) := by
    simp [typeSpecifier]
  have hmod := lengthModifier_none 'h' rest st.pre_iv hd hs (by decide)
  unfold directive
  simp only [hty, hmod, Nat.mul_one, unpackLabel, loopNtohs, if_true]

/-- The iteration for an `i` directive without modifier. -/
theorem directive_i (data : List Byte) (rest : List Char) (st : UnpackState)
    (hd : (peek rest).isDigit = false) (hs : peek rest ≠ '*') :
    directive data 'i' rest st =
      if st.len < 4 then .done ⟨.notEnough, st.out⟩
      else
        .next rest
          { head := st.head + 4
            len := st.len - 4
            msglen := st.msglen
            pre_iv := ntohl data st.head
            idx := st.idx + 1
            out := Function.update st.out st.idx (some (.integer (ntohl data st.head))) } := by
  have hty : typeSpecifier 'i' st.msglen = .ok (4, .UNPACK_NTOHL) := by
    simp [typeSpecifier]
  have hL : ¬ ('i' = 'L') := by decide
  have hmod := lengthModifier_none 'i' rest st.pre_iv hd hs (by decide)
  unfold directive
  simp only [hty, hmod, Nat.mul_one, unpackLabel, loopNtohl, if_true, hL, if_false]

/-- The iteration for an `h*` directive when a preceding value is set. -/
theorem directive_h_star (data : List Byte) (rest : List Char) (st : UnpackState)
    (hp : st.pre_iv ≠ INTMAX_MIN) :
    directive data 'h' ('*' :: rest) st =
      if st.len < 2 * st.pre_iv.toNat then .done ⟨.notEnough, st.out⟩
      else
        .next rest
          { (if st.pre_iv.toNat = 1 then
              { loopNtohs data st.pre_iv.toNat { st with pre_iv := INTMAX_MIN } with
                pre_iv := ntohs data st.head }
             else loopNtohs data st.pre_iv.toNat { st with pre_iv := INTMAX_MIN }) with
            len := st.len - 2 * st.pre_iv.toNat } := by
  have hty : typeSpecifier 'h' st.msglen = .ok (2, .UNPACK_NTOHS) := by
    simp [typeSpecifier]
  have hmod := lengthModifier_star 'h' rest st.pre_iv (by simp) hp
  have hl := (loopNtohs_fields data st.pre_iv.toNat { st with pre_iv := INTMAX_MIN }).2.1
  unfold directive
  simp only [hty, hmod, unpackLabel]
  split
  · rfl
  · split <;> simp only [hl]

/-- The iteration for an `i*` directive when a preceding value is set. -/
theorem directive_i_star (data : List Byte) (rest : List Char) (st : UnpackState)
    (hp : st.pre_iv ≠ INTMAX_MIN) :
    directive data 'i' ('*' :: rest) st =
      if st.len < 4 * st.pre_iv.toNat then .done ⟨.notEnough, st.out⟩
      else
        .next rest
          { (if st.pre_iv.toNat = 1 then
              { loopNtohl data st.pre_iv.toNat { st with pre_iv := INTMAX_MIN } with
                pre_iv := ntohl data st.head }
             else loopNtohl data st.pre_iv.toNat { st with pre_iv := INTMAX_MIN }) with
            len := st.len - 4 * st.pre_iv.toNat } := by
  have hty : typeSpecifier 'i' st.msglen = .ok (4, .UNPACK_NTOHL) := by
    simp [typeSpecifier]
  have hL : ¬ ('i' = 'L') := by decide
  have hmod := lengthModifier_star 'i' rest st.pre_iv (by simp) hp
  have hl := (loopNtohl_fields data st.pre_iv.toNat { st with pre_iv := INTMAX_MIN }).2.1
  unfold directive
  simp only [hty, hmod, unpackLabel, hL, if_false]
  split
  · rfl
  · split <;> simp only [hl]

theorem loopNtohs_out (data : List Byte) (k : Nat) :
    ∀ (st : UnpackState) (j : Nat), (loopNtohs data k st).out j =
      if st.idx ≤ j ∧ j < st.idx + k then
        some (.integer (ntohs data (st.head + 2 * (j - st.idx))))
      else st.out j := by
  induction k with
  | zero =>
    intro st j
    have : ¬ (st.idx ≤ j ∧ j < st.idx + 0) := by omega
    simp only [loopNtohs, this, if_false]
  | succ n ih =>
    intro st j
    simp only [loopNtohs]
    rw [ih]
    simp only
    by_cases h1 : st.idx + 1 ≤ j ∧ j < st.idx + 1 + n
    · have h2 : st.idx ≤ j ∧ j < st.idx + (n + 1) := by omega
      have e : st.head + 2 + 2 * (j - (st.idx + 1)) = st.head + 2 * (j - st.idx) := by omega
      simp only [h1, h2, and_self, if_true, e]
    · by_cases h3 : j = st.idx
      · subst h3
        have h2 : st.idx ≤ st.idx ∧ st.idx < st.idx + (n + 1) := by omega
        simp only [h1, if_false, h2, and_self, if_true, Function.update_same, Nat.sub_self,
          Nat.mul_zero, Nat.add_zero]
      · have h2 : ¬ (st.idx ≤ j ∧ j < st.idx + (n + 1)) := by omega
        simp only [h1, if_false, h2, Function.update_noteq h3]

theorem loopNtohl_out (data : List Byte) (k : Nat) :
    ∀ (st : UnpackState) (j : Nat), (loopNtohl data k st).out j =
      if st.idx ≤ j ∧ j < st.idx + k then
        some (.integer (ntohl data (st.head + 4 * (j - st.idx))))
      else st.out j := by
  induction k with
  | zero =>
    intro st j
    have : ¬ (st.idx ≤ j ∧ j < st.idx + 0) := by omega
    simp only [loopNtohl, this, if_false]
  | succ n ih =>
    intro st j
    simp only [loopNtohl]
    rw [ih]
    simp only
    by_cases h1 : st.idx + 1 ≤ j ∧ j < st.idx + 1 + n
    · have h2 : st.idx ≤ j ∧ j < st.idx + (n + 1) := by omega
      have e : st.head + 4 + 4 * (j - (st.idx + 1)) = st.head + 4 * (j - st.idx) := by omega
      simp only [h1, h2, and_self, if_true, e]
    · by_cases h3 : j = st.idx
      · subst h3
        have h2 : st.idx ≤ st.idx ∧ st.idx < st.idx + (n + 1) := by omega
        simp only [h1, if_false, h2, and_self, if_true, Function.update_same, Nat.sub_self,
          Nat.mul_zero, Nat.add_zero]
      · have h2 : ¬ (st.idx ≤ j ∧ j < st.idx + (n + 1)) := by omega
        simp only [h1, if_false, h2, Function.update_noteq h3]

/-- The iteration for a starred `h` or `i` directive when no preceding value
is set: the format is refused. -/
theorem directive_star_unset (data : List Byte) (t : Char) (rest : List Char) (st : UnpackState)
    (ht : t = 'h' ∨ t = 'i') (hp : st.pre_iv = INTMAX_MIN) :
    directive data t ('*' :: rest) st = .done ⟨.argError
      "invalid format string: type specifiers with the length modifier '*' must be preceded by the integer type specifier 'i', 'h' or 'L' without the length modifier.",
      st.out⟩ := by
  have h2 : Char.isDigit '*' = false := by decide
  rcases ht with rfl | rfl
  · have hty : typeSpecifier 'h' st.msglen = .ok (2, .UNPACK_NTOHS) := by simp [typeSpecifier]
    unfold directive
    simp [hty, lengthModifier, peek, h2, hp]
  · have hty : typeSpecifier 'i' st.msglen = .ok (4, .UNPACK_NTOHL) := by simp [typeSpecifier]
    unfold directive
    simp [hty, lengthModifier, peek, h2, hp]

/-! ## Claims on the `L` directive -/

/-- C1: for every 32-bit `n ≥ 4` and every payload of at least `n - 4` bytes,
`unpack(out, "Lb*", be32(n) ++ payload)` succeeds, returns `n` as the consumed
byte count and sets `out[1] = n` and `out[2]` to the first `n - 4` bytes of the
payload, however many more bytes the payload holds. -/
theorem unpack_Lb_star (out : LuaTable) (n : Nat) (payload : List Byte)
    (h4 : 4 ≤ n) (h32 : n < 2 ^ 31) (hp : n - 4 ≤ payload.length) :
    unpack_lua out ['L', 'b', '*'] (be32 n ++ payload)
      = some ⟨.consumed n,
          Function.update (Function.update out 1 (some (.integer n))) 2
            (some (.string (payload.take (n - 4))))⟩ := by
  have hv : ntohl (be32 (n : Int) ++ payload) 0 = n := ntohl_be32 n payload (by omega) (by omega)
  have hlen : (be32 (n : Int) ++ payload).length = payload.length + 4 := by simp [be32]
  have hL := directive_L (be32 (n : Int) ++ payload) ['b', '*']
    (initState out (be32 (n : Int) ++ payload)) rfl (by decide) (by decide)
  have e0 : (initState out (be32 (n : Int) ++ payload)).head = 0 := rfl
  have e1 : (initState out (be32 (n : Int) ++ payload)).len = payload.length + 4 := hlen
  have c1 : ¬ (payload.length + 4 < 4) := by omega
  have c2 : ¬ ((n : Int) < 4) := by omega
  have c3 : ¬ (((payload.length + 4 : Nat) : Int) < (n : Int)) := by omega
  have c4 : peek ['b', '*'] = 'b' := rfl
  simp only [e0, e1, hv, c1, c2, c3, c4, if_true, if_false, Int.toNat_ofNat] at hL
  have hnul1 : ¬ ('L' = '\x00') := by decide
  have hnul2 : ¬ ('b' = '\x00') := by decide
  have hpre : ((n : Int) - 4) ≠ INTMAX_MIN := by unfold INTMAX_MIN; omega
  have hk : ((n : Int) - 4).toNat = n - 4 := by omega
  have hdrop : lstring (be32 (n : Int) ++ payload) 4 (n - 4) = payload.take (n - 4) := by
    simp [lstring, be32]
  have c5 : ¬ (n - 4 < n - 4) := by omega
  have e5 : 0 + 4 + (n - 4) = n := by omega
  simp only [unpack_lua, List.length_cons, List.length_nil, unpackLoop, hnul1, hnul2, if_false, hL]
  rw [directive_b_star _ _ _ (by simpa using hpre)]
  simp only [hk, c5, if_false, e5, hdrop]
  rfl

/-- C1, at `n = 8` and payload "abcd" followed by two more bytes. -/
theorem unpack_Lb_star_witness :
    4 ≤ 8 ∧ 8 < 2 ^ 31 ∧ 8 - 4 ≤ [97, 98, 99, 100, 101, 102].length ∧
    unpack_lua emptyTable ['L', 'b', '*'] (be32 (8 : Nat) ++ [97, 98, 99, 100, 101, 102])
      = some ⟨.consumed 8,
          Function.update (Function.update emptyTable 1 (some (.integer (8 : Nat)))) 2
            (some (.string (([97, 98, 99, 100, 101, 102] : List Byte).take (8 - 4))))⟩ :=
  ⟨by decide, by decide, by decide,
    unpack_Lb_star emptyTable 8 [97, 98, 99, 100, 101, 102] (by decide) (by decide) (by decide)⟩

/-- C3: when decoding reaches an `L` directive (the first of the format, with
no modifier) at data offset `st.head`, the value `m` it decodes is at least 4
and the data holds fewer than `m` bytes from that offset on, `unpack` returns
`nil, nil, true`, whatever the format holds after `L`. -/
theorem unpack_L_notEnough (out : LuaTable) (fmt : List Char) (data : List Byte) (n : Nat)
    (tail : List Char) (st : UnpackState)
    (hreach : unpackIter data n fmt (initState out data) = some ('L' :: tail, st))
    (hfirst : st.msglen = -1) (hd : (peek tail).isDigit = false) (hs : peek tail ≠ '*')
    (hm : 4 ≤ ntohl data st.head)
    (hlen : (data.length : Int) - st.head < ntohl data st.head) :
    (unpack_lua out fmt data).map (·.outcome) = some .notEnough := by
  have hb := unpackIter_budget data n fmt _ _ _ hreach (initState_budget out data)
  have hb2 := hb.2 hfirst
  rw [unpack_lua_of_unpackIter out fmt data n _ st hreach]
  have hnul : ¬ ('L' = '\x00') := by decide
  have h4 : ¬ ntohl data st.head < 4 := by omega
  have hl : (st.len : Int) < ntohl data st.head := by omega
  simp only [unpackLoop, List.length_cons, hnul, if_false, directive_L data tail st hfirst hd hs]
  by_cases h0 : st.len < 4
  · simp only [h0, if_true, Option.map_some']
  · simp only [h0, h4, hl, if_true, if_false, Option.map_some']

/-- C3, at format "hLh" and data of 11 bytes whose `L` field announces 100:
the `h` after `L` would need 2 bytes only, and 5 are present. -/
theorem unpack_L_notEnough_witness :
    unpackIter [0, 1, 0, 0, 0, 100, 1, 2, 3, 4, 5] 1 ['h', 'L', 'h']
        (initState emptyTable [0, 1, 0, 0, 0, 100, 1, 2, 3, 4, 5])
      = some (['L', 'h'],
          { head := 2, len := 9, msglen := -1, pre_iv := 1, idx := 2,
            out := Function.update emptyTable 1 (some (.integer 1)) }) ∧
    (unpack_lua emptyTable ['h', 'L', 'h'] [0, 1, 0, 0, 0, 100, 1, 2, 3, 4, 5]).map (·.outcome)
      = some .notEnough :=
  ⟨rfl, unpack_L_notEnough emptyTable ['h', 'L', 'h'] [0, 1, 0, 0, 0, 100, 1, 2, 3, 4, 5] 1 ['h']
    { head := 2, len := 9, msglen := -1, pre_iv := 1, idx := 2,
      out := Function.update emptyTable 1 (some (.integer 1)) }
    rfl rfl (by decide) (by decide) (by decide) (by decide)⟩

/-- C4: when decoding reaches an `L` directive (the first of the format, with
no modifier) whose 4 bytes are present and the value it decodes is below 4,
negative values included, `unpack` returns `nil` and an error message (two
values, no third), whatever data and whatever directives follow. -/
theorem unpack_L_too_small (out : LuaTable) (fmt : List Char) (data : List Byte) (n : Nat)
    (tail : List Char) (st : UnpackState)
    (hreach : unpackIter data n fmt (initState out data) = some ('L' :: tail, st))
    (hfirst : st.msglen = -1) (hd : (peek tail).isDigit = false) (hs : peek tail ≠ '*')
    (hbytes : st.head + 4 ≤ data.length)
    (hm : ntohl data st.head < 4) :
    (unpack_lua out fmt data).map (·.outcome) = some (.failure
      "invalid message length: message length must be greater than or equal to its own length") := by
  have hb := unpackIter_budget data n fmt _ _ _ hreach (initState_budget out data)
  have hb2 := hb.2 hfirst
  rw [unpack_lua_of_unpackIter out fmt data n _ st hreach]
  have hnul : ¬ ('L' = '\x00') := by decide
  have h4 : ¬ st.len < 4 := by omega
  simp only [unpackLoop, List.length_cons, hnul, if_false, directive_L data tail st hfirst hd hs,
    h4, hm, if_true, Option.map_some']

/-- C4, at format "hLs" and data whose `L` field holds -1, followed by
more data. -/
theorem unpack_L_too_small_witness :
    unpackIter [0, 1, 255, 255, 255, 255, 97, 0, 98] 1 ['h', 'L', 's']
        (initState emptyTable [0, 1, 255, 255, 255, 255, 97, 0, 98])
      = some (['L', 's'],
          { head := 2, len := 7, msglen := -1, pre_iv := 1, idx := 2,
            out := Function.update emptyTable 1 (some (.integer 1)) }) ∧
    ntohl [0, 1, 255, 255, 255, 255, 97, 0, 98] 2 = -1 ∧
    (unpack_lua emptyTable ['h', 'L', 's'] [0, 1, 255, 255, 255, 255, 97, 0, 98]).map (·.outcome)
      = some (.failure
        "invalid message length: message length must be greater than or equal to its own length") :=
  ⟨rfl, by decide,
    unpack_L_too_small emptyTable ['h', 'L', 's'] [0, 1, 255, 255, 255, 255, 97, 0, 98] 1 ['s']
      { head := 2, len := 7, msglen := -1, pre_iv := 1, idx := 2,
        out := Function.update emptyTable 1 (some (.integer 1)) }
      rfl rfl (by decide) (by decide) (by decide) (by decide)⟩

/-! ## The output table -/

theorem loopString_frame (data : List Byte) (k : Nat) :
    ∀ st : UnpackState,
      (∀ r, loopString data k st = .error r → ∀ j, j < st.idx → r.out j = st.out j) ∧
      (∀ st1, loopString data k st = .ok st1 →
        st.idx ≤ st1.idx ∧ ∀ j, j < st.idx → st1.out j = st.out j) := by
  induction k with
  | zero =>
    intro st
    constructor
    · intro r h; simp [loopString] at h
    · intro st1 h
      simp only [loopString, Except.ok.injEq] at h
      subst h
      exact ⟨le_refl _, fun _ _ => rfl⟩
  | succ n ih =>
    intro st
    constructor
    · intro r h j hj
      simp only [loopString] at h
      split at h
      · split at h <;>
        · simp only [Except.error.injEq] at h
          subst h
          rfl
      · next slen hm =>
        have := (ih _).1 r h j (by simp only; omega)
        rw [this]
        exact Function.update_noteq (by omega) _ _
    · intro st1 h
      simp only [loopString] at h
      split at h
      · split at h <;> cases h
      · next slen hm =>
        obtain ⟨a, b⟩ := (ih _).2 st1 h
        simp only at a b
        refine ⟨by omega, fun j hj => ?_⟩
        rw [b j (by omega)]
        exact Function.update_noteq (by omega) _ _

/-- One iteration never touches the table below `idx`, and never lowers `idx`. -/
theorem directive_frame (data : List Byte) (t : Char) (fmt : List Char) (st : UnpackState) :
    (∀ r, directive data t fmt st = .done r → ∀ j, j < st.idx → r.out j = st.out j) ∧
    (∀ rest st1, directive data t fmt st = .next rest st1 →
      st.idx ≤ st1.idx ∧ ∀ j, j < st.idx → st1.out j = st.out j) := by
  have hs := loopNtohs_out data
  have hl := loopNtohl_out data
  have hsf := loopNtohs_fields data
  have hlf := loopNtohl_fields data
  constructor
  · intro r h j hj
    unfold directive at h
    split at h
    · simp only [Step.done.injEq] at h; subst h; rfl
    · next unit label hty =>
      split at h
      · simp only [Step.done.injEq] at h; subst h; rfl
      · next k fmt1 hm =>
        simp only at h
        split at h
        · simp only [Step.done.injEq] at h; subst h; rfl
        · split at h
          · next r1 hu =>
            simp only [Step.done.injEq] at h
            subst h
            have hn : ¬ (st.idx ≤ j ∧ j < st.idx + k) := by omega
            cases label with
            | UNPACK_NTOHS => simp [unpackLabel] at hu
            | UNPACK_NTOHL =>
              simp only [unpackLabel] at hu
              repeat' split at hu
              all_goals
                first
                | (simp only [Except.error.injEq] at hu
                   subst hu
                   simp only [hl, hn, if_false])
                | cases hu
            | UNPACK_STRING =>
              simp only [unpackLabel] at hu
              exact (loopString_frame data k { st with pre_iv := INTMAX_MIN }).1 _ hu j hj
            | UNPACK_BYTE => simp [unpackLabel] at hu
          · cases h
  · intro rest st1 h
    unfold directive at h
    split at h
    · cases h
    · next unit label hty =>
      split at h
      · cases h
      · next k fmt1 hm =>
        simp only at h
        split at h
        · cases h
        · split at h
          · cases h
          · next st2 hu =>
            simp only [Step.next.injEq] at h
            obtain ⟨_, rfl⟩ := h
            cases label with
            | UNPACK_NTOHS =>
              simp only [unpackLabel] at hu
              repeat' split at hu
              all_goals
                simp only [Except.ok.injEq] at hu
                subst hu
                refine ⟨by simp only [(hsf _ _).2.2.2.2]; omega, fun j hj => ?_⟩
                have hn : ¬ (st.idx ≤ j ∧ j < st.idx + k) := by omega
                simp only [hs, hn, if_false]
            | UNPACK_NTOHL =>
              simp only [unpackLabel] at hu
              repeat' split at hu
              all_goals
                first
                | (simp only [Except.ok.injEq] at hu
                   subst hu
                   refine ⟨by simp only [(hlf _ _).2.2.2.2]; omega, fun j hj => ?_⟩
                   have hn : ¬ (st.idx ≤ j ∧ j < st.idx + k) := by omega
                   simp only [hl, hn, if_false])
                | cases hu
            | UNPACK_STRING =>
              simp only [unpackLabel] at hu
              exact (loopString_frame data k { st with pre_iv := INTMAX_MIN }).2 _ hu
            | UNPACK_BYTE =>
              simp only [unpackLabel, Except.ok.injEq] at hu
              subst hu
              refine ⟨by simp only; omega, fun j hj => ?_⟩
              exact Function.update_noteq (by omega) _ _

/-- What the loop returns agrees with the table it started from below `idx`. -/
theorem unpackLoop_frame (data : List Byte) (fuel : Nat) :
    ∀ (fmt : List Char) (st : UnpackState) (r : UnpackResult),
      unpackLoop data fuel fmt st = some r → ∀ j, j < st.idx → r.out j = st.out j := by
  induction fuel with
  | zero =>
    intro fmt st r h j _
    cases fmt with
    | nil => simp only [unpackLoop, Option.some.injEq] at h; subst h; rfl
    | cons t cs => simp [unpackLoop] at h
  | succ n ih =>
    intro fmt st r h j hj
    cases fmt with
    | nil => simp only [unpackLoop, Option.some.injEq] at h; subst h; rfl
    | cons t cs =>
      simp only [unpackLoop] at h
      split at h
      · simp only [Option.some.injEq] at h; subst h; rfl
      · split at h
        · next r1 hd =>
          simp only [Option.some.injEq] at h
          subst h
          exact (directive_frame data t cs st).1 _ hd j hj
        · next fmt1 st1 hd =>
          obtain ⟨a, b⟩ := (directive_frame data t cs st).2 _ _ hd
          rw [ih fmt1 st1 r h j (by omega), b j hj]

/-! ## Truncated data -/

theorem byteAt_append (d ext : List Byte) (i : Nat) (h : i < d.length) :
    byteAt (d ++ ext) i = byteAt d i := by
  simp [byteAt, List.getD_eq_getElem?_getD, List.getElem?_append_left h]

theorem ntohs_append (d ext : List Byte) (p : Nat) (h : p + 2 ≤ d.length) :
    ntohs (d ++ ext) p = ntohs d p := by
  unfold ntohs
  rw [byteAt_append d ext p (by omega), byteAt_append d ext (p + 1) (by omega)]

theorem ntohl_append (d ext : List Byte) (p : Nat) (h : p + 4 ≤ d.length) :
    ntohl (d ++ ext) p = ntohl d p := by
  unfold ntohl
  rw [byteAt_append d ext p (by omega), byteAt_append d ext (p + 1) (by omega),
    byteAt_append d ext (p + 2) (by omega), byteAt_append d ext (p + 3) (by omega)]

theorem lstring_append (d ext : List Byte) (p n : Nat) (h : p + n ≤ d.length) :
    lstring (d ++ ext) p n = lstring d p n := by
  unfold lstring
  rw [List.drop_append_of_le_length (by omega), List.take_append_of_le_length (by simp; omega)]

/-- A shorter window of the truncated data is a prefix of the window of the
full data. -/
theorem lstring_prefix (d ext : List Byte) (p n m : Nat) (h : p + n ≤ d.length) (hnm : n ≤ m) :
    ∃ more, lstring (d ++ ext) p m = lstring d p n ++ more := by
  refine ⟨((d ++ ext).drop p).drop n |>.take (m - n), ?_⟩
  rw [← lstring_append d ext p n h]
  unfold lstring
  have e : m = n + (m - n) := by omega
  conv_lhs => rw [e]
  rw [List.take_add]

theorem memchr_append (c : Byte) (l more : List Byte) (n : Nat) (h : memchr c l = some n) :
    memchr c (l ++ more) = some n := by
  induction l generalizing n with
  | nil => simp [memchr] at h
  | cons x xs ih =>
    simp only [memchr, List.cons_append] at h ⊢
    split
    · next hx => simpa [hx] using h
    · next hx =>
      simp only [hx, if_false] at h
      cases hm : memchr c xs with
      | none => simp [hm] at h
      | some m =>
        simp only [hm, Option.map_some', Option.some.injEq] at h
        simp [ih m hm, h]

theorem loopNtohs_trunc (d ext : List Byte) (k : Nat) :
    ∀ (st : UnpackState) (l : Nat), st.head + 2 * k ≤ d.length →
      loopNtohs d k { st with len := l } = { loopNtohs (d ++ ext) k st with len := l } := by
  induction k with
  | zero => intro st l _; rfl
  | succ n ih =>
    intro st l h
    simp only [loopNtohs]
    rw [ntohs_append d ext st.head (by omega)]
    exact ih { st with
      out := Function.update st.out st.idx (some (.integer (ntohs d st.head)))
      idx := st.idx + 1
      head := st.head + 2 } l (by simp only; omega)

theorem loopNtohl_trunc (d ext : List Byte) (k : Nat) :
    ∀ (st : UnpackState) (l : Nat), st.head + 4 * k ≤ d.length →
      loopNtohl d k { st with len := l } = { loopNtohl (d ++ ext) k st with len := l } := by
  induction k with
  | zero => intro st l _; rfl
  | succ n ih =>
    intro st l h
    simp only [loopNtohl]
    rw [ntohl_append d ext st.head (by omega)]
    exact ih { st with
      out := Function.update st.out st.idx (some (.integer (ntohl d st.head)))
      idx := st.idx + 1
      head := st.head + 4 } l (by simp only; omega)

theorem loopString_trunc (d ext : List Byte) (k : Nat) :
    ∀ (st : UnpackState) (l : Nat), Trunc d st l →
      (∃ T, loopString d k { st with len := l } = .error ⟨.notEnough, T⟩) ∨
      (∃ r, loopString d k { st with len := l } = .error r ∧
        loopString (d ++ ext) k st = .error r) ∨
      (∃ st1 l1, loopString d k { st with len := l } = .ok { st1 with len := l1 } ∧
        loopString (d ++ ext) k st = .ok st1 ∧ Trunc d st1 l1) := by
  induction k with
  | zero =>
    intro st l ht
    exact Or.inr (Or.inr ⟨st, l, rfl, rfl, ht⟩)
  | succ n ih =>
    intro st l ht
    obtain ⟨t1, t2, t3⟩ := ht
    obtain ⟨more, hmore⟩ := lstring_prefix d ext st.head l st.len t2 t1
    simp only [loopString]
    cases hm : memchr 0 (lstring d st.head l) with
    | none =>
      by_cases hmsg : st.msglen = -1
      · left
        exact ⟨st.out, by simp only [hmsg, if_true]⟩
      · right; left
        have hl := t3 hmsg
        subst hl
        rw [lstring_append d ext st.head st.len t2, hm]
        simp only [hmsg, if_false]
        exact ⟨_, rfl, rfl⟩
    | some slen =>
      have hfull : memchr 0 (lstring (d ++ ext) st.head st.len) = some slen := by
        rw [hmore]; exact memchr_append 0 _ more slen hm
      have hlt := memchr_lt _ _ _ hm
      rw [lstring_length] at hlt
      rw [hfull]
      simp only
      rw [lstring_append d ext st.head slen (by omega)]
      have ht1 : Trunc d
          { st with
            out := Function.update st.out st.idx (some (.string (lstring d st.head slen)))
            idx := st.idx + 1
            head := st.head + (slen + 1)
            len := st.len - (slen + 1) } (l - (slen + 1)) := by
        refine ⟨by simp only; omega, by simp only; omega, fun h => ?_⟩
        have := t3 h
        simp only; omega
      exact ih _ _ ht1

theorem typeSpecifier_unit (t : Char) (m : Int) (unit : Nat) (label : Label)
    (h : typeSpecifier t m = .ok (unit, label)) :
    (label = .UNPACK_NTOHS → unit = 2) ∧
    (label = .UNPACK_NTOHL → unit = 4 ∧ (t = 'L' → m = -1)) ∧
    (label = .UNPACK_STRING → unit = 1) ∧
    (label = .UNPACK_BYTE → unit = 1) := by
  unfold typeSpecifier at h
  split at h
  · simp only [Except.ok.injEq, Prod.mk.injEq] at h
    obtain ⟨rfl, rfl⟩ := h
    simp_all
  · split at h
    · split at h
      · cases h
      · next hL hm =>
        simp only [Except.ok.injEq, Prod.mk.injEq] at h
        obtain ⟨rfl, rfl⟩ := h
        simp_all
    · split at h
      · simp only [Except.ok.injEq, Prod.mk.injEq] at h
        obtain ⟨rfl, rfl⟩ := h
        simp_all
      · split at h
        · simp only [Except.ok.injEq, Prod.mk.injEq] at h
          obtain ⟨rfl, rfl⟩ := h
          simp_all
        · split at h
          · simp only [Except.ok.injEq, Prod.mk.injEq] at h
            obtain ⟨rfl, rfl⟩ := h
            simp_all
          · cases h

/-- One iteration on truncated data: it signals `nil, nil, true`, or it does
what the iteration on the full data does. -/
theorem directive_trunc (d ext : List Byte) (t : Char) (fmt : List Char) (st : UnpackState)
    (l : Nat) (ht : Trunc d st l) :
    (∃ T, directive d t fmt { st with len := l } = .done ⟨.notEnough, T⟩) ∨
    (∃ r, directive d t fmt { st with len := l } = .done r ∧
      directive (d ++ ext) t fmt st = .done r) ∨
    (∃ rest st1 l1, directive d t fmt { st with len := l } = .next rest { st1 with len := l1 } ∧
      directive (d ++ ext) t fmt st = .next rest st1 ∧ Trunc d st1 l1) := by
  obtain ⟨t1, t2, t3⟩ := ht
  unfold directive
  simp only
  cases hty : typeSpecifier t st.msglen with
  | error msg => exact Or.inr (Or.inl ⟨_, rfl, rfl⟩)
  | ok p =>
    obtain ⟨unit, label⟩ := p
    obtain ⟨u1, u2, u3, u4⟩ := typeSpecifier_unit _ _ _ _ hty
    simp only
    cases hm : lengthModifier t fmt st.pre_iv with
    | error msg => exact Or.inr (Or.inl ⟨_, rfl, rfl⟩)
    | ok q =>
      obtain ⟨k, fmt1⟩ := q
      simp only
      by_cases hlt : l < unit * k
      · left
        exact ⟨st.out, by simp only [hlt, if_true]⟩
      · have hlt2 : ¬ st.len < unit * k := by omega
        simp only [hlt, hlt2, if_false]
        cases label with
        | UNPACK_NTOHS =>
          have hu := u1 rfl
          subst hu
          have hloop := loopNtohs_trunc d ext k { st with pre_iv := INTMAX_MIN } l
            (by simp only; omega)
          obtain ⟨f1, f2, f3, _, _⟩ := loopNtohs_fields (d ++ ext) k { st with pre_iv := INTMAX_MIN }
          simp only at hloop f1 f2 f3
          right; right
          simp only [unpackLabel, hloop]
          generalize loopNtohs (d ++ ext) k
            { head := st.head, len := st.len, msglen := st.msglen, pre_iv := INTMAX_MIN,
              idx := st.idx, out := st.out } = lp at f1 f2 f3 ⊢
          by_cases hk : k = 1
          · subst hk
            rw [ntohs_append d ext st.head (by omega)]
            simp only [if_true]
            refine ⟨fmt1, { lp with pre_iv := ntohs d st.head, len := lp.len - 2 * 1 },
              l - 2 * 1, rfl, rfl, ?_⟩
            refine ⟨by simp only [f2]; omega, by simp only [f1]; omega, fun h => ?_⟩
            simp only [f3] at h
            have := t3 h
            simp only [f2]; omega
          · simp only [hk, if_false]
            refine ⟨fmt1, { lp with len := lp.len - 2 * k }, l - 2 * k, rfl, rfl, ?_⟩
            refine ⟨by simp only [f2]; omega, by simp only [f1]; omega, fun h => ?_⟩
            simp only [f3] at h
            have := t3 h
            simp only [f2]; omega
        | UNPACK_NTOHL =>
          obtain ⟨hu, hmsg⟩ := u2 rfl
          subst hu
          by_cases hL : t = 'L'
          · subst hL
            have hmsg1 := hmsg rfl
            obtain ⟨rfl, rfl⟩ := lengthModifier_L _ _ _ _ hm
            have hloop := loopNtohl_trunc d ext 1 { st with pre_iv := INTMAX_MIN } l
              (by simp only; omega)
            obtain ⟨f1, f2, f3, _, _⟩ := loopNtohl_fields (d ++ ext) 1
              { st with pre_iv := INTMAX_MIN }
            simp only at hloop f1 f2 f3
            simp only [unpackLabel, hloop, if_true, f2]
            generalize loopNtohl (d ++ ext) 1
              { head := st.head, len := st.len, msglen := st.msglen, pre_iv := INTMAX_MIN,
                idx := st.idx, out := st.out } = lp at f1 f2 f3 ⊢
            rw [ntohl_append d ext st.head (by omega)]
            by_cases h4 : ntohl d st.head < 4
            · right; left
              simp only [h4, if_true]
              exact ⟨_, rfl, rfl⟩
            · by_cases h5 : (l : Int) < ntohl d st.head
              · left
                simp only [h4, h5, if_true, if_false]
                exact ⟨_, rfl⟩
              · have h6 : ¬ (st.len : Int) < ntohl d st.head := by omega
                right; right
                simp only [h4, h5, h6, if_false]
                by_cases hb : peek fmt1 = 'b'
                · simp only [hb, if_true]
                  refine ⟨fmt1,
                    { lp with
                      msglen := ntohl d st.head
                      pre_iv := ntohl d st.head - 4
                      len := (ntohl d st.head).toNat - 4 * 1 },
                    (ntohl d st.head).toNat - 4 * 1, rfl, rfl, ?_⟩
                  refine ⟨by simp only; omega, by simp only [f1]; omega, fun _ => rfl⟩
                · simp only [hb, if_false]
                  refine ⟨fmt1,
                    { lp with
                      msglen := ntohl d st.head
                      len := (ntohl d st.head).toNat - 4 * 1 },
                    (ntohl d st.head).toNat - 4 * 1, rfl, rfl, ?_⟩
                  refine ⟨by simp only; omega, by simp only [f1]; omega, fun _ => rfl⟩
          · have hloop := loopNtohl_trunc d ext k { st with pre_iv := INTMAX_MIN } l
              (by simp only; omega)
            obtain ⟨f1, f2, f3, _, _⟩ := loopNtohl_fields (d ++ ext) k
              { st with pre_iv := INTMAX_MIN }
            simp only at hloop f1 f2 f3
            right; right
            simp only [unpackLabel, hloop, hL, if_false]
            generalize loopNtohl (d ++ ext) k
              { head := st.head, len := st.len, msglen := st.msglen, pre_iv := INTMAX_MIN,
                idx := st.idx, out := st.out } = lp at f1 f2 f3 ⊢
            by_cases hk : k = 1
            · subst hk
              rw [ntohl_append d ext st.head (by omega)]
              simp only [if_true]
              refine ⟨fmt1, { lp with pre_iv := ntohl d st.head, len := lp.len - 4 * 1 },
                l - 4 * 1, rfl, rfl, ?_⟩
              refine ⟨by simp only [f2]; omega, by simp only [f1]; omega, fun h => ?_⟩
              simp only [f3] at h
              have := t3 h
              simp only [f2]; omega
            · simp only [hk, if_false]
              refine ⟨fmt1, { lp with len := lp.len - 4 * k }, l - 4 * k, rfl, rfl, ?_⟩
              refine ⟨by simp only [f2]; omega, by simp only [f1]; omega, fun h => ?_⟩
              simp only [f3] at h
              have := t3 h
              simp only [f2]; omega
        | UNPACK_STRING =>
          simp only [unpackLabel]
          rcases loopString_trunc d ext k { st with pre_iv := INTMAX_MIN } l ⟨t1, t2, t3⟩ with
            ⟨T, h1⟩ | ⟨r, h1, h2⟩ | ⟨st1, l1, h1, h2, h3⟩
          · left
            exact ⟨T, by simp only [h1]⟩
          · right; left
            exact ⟨r, by simp only [h1], by simp only [h2]⟩
          · right; right
            exact ⟨fmt1, st1, l1, by simp only [h1], by simp only [h2], h3⟩
        | UNPACK_BYTE =>
          have hu := u4 rfl
          subst hu
          simp only [Nat.one_mul] at hlt hlt2
          right; right
          simp only [unpackLabel]
          rw [lstring_append d ext st.head k (by omega)]
          refine ⟨fmt1,
            { head := st.head + k, len := st.len - k, msglen := st.msglen, pre_iv := INTMAX_MIN,
              idx := st.idx + 1,
              out := Function.update st.out st.idx (some (.string (lstring d st.head k))) },
            l - k, ?_, ?_, ?_⟩
          · simp only [Nat.one_mul]
          · simp only [Nat.one_mul]
          · refine ⟨by simp only; omega, by simp only; omega, fun h => ?_⟩
            have := t3 h
            simp only; omega

/-- The loop on truncated data: it signals `nil, nil, true`, or it returns
what the loop on the full data returns. -/
theorem unpackLoop_trunc (d ext : List Byte) (fuel : Nat) :
    ∀ (fmt : List Char) (st : UnpackState) (l : Nat), Trunc d st l →
      (∃ T, unpackLoop d fuel fmt { st with len := l } = some ⟨.notEnough, T⟩) ∨
      unpackLoop d fuel fmt { st with len := l } = unpackLoop (d ++ ext) fuel fmt st := by
  induction fuel with
  | zero =>
    intro fmt st l _
    cases fmt with
    | nil => exact Or.inr rfl
    | cons t cs => exact Or.inr rfl
  | succ n ih =>
    intro fmt st l ht
    cases fmt with
    | nil => exact Or.inr rfl
    | cons t cs =>
      simp only [unpackLoop]
      by_cases hnul : t = '\x00'
      · simp only [hnul, if_true]
        exact Or.inr trivial
      · simp only [hnul, if_false]
        rcases directive_trunc d ext t cs st l ht with ⟨T, h1⟩ | ⟨r, h1, h2⟩ | ⟨rest, st1, l1, h1, h2, h3⟩
        · left
          exact ⟨T, by simp only [h1]⟩
        · right
          simp only [h1, h2]
        · simp only [h1, h2]
          exact ih rest st1 l1 h3

theorem loopString_error_outcome (data : List Byte) (k : Nat) :
    ∀ (st : UnpackState) (r : UnpackResult), loopString data k st = .error r →
      ∀ c, r.outcome ≠ .consumed c := by
  induction k with
  | zero => intro st r h; simp [loopString] at h
  | succ n ih =>
    intro st r h c
    simp only [loopString] at h
    split at h
    · split at h <;>
      · simp only [Except.error.injEq] at h
        subst h
        simp
    · exact ih _ r h c

/-- An iteration that leaves the function never does so with a consumed count. -/
theorem directive_done_outcome (data : List Byte) (t : Char) (fmt : List Char) (st : UnpackState)
    (r : UnpackResult) (h : directive data t fmt st = .done r) : ∀ c, r.outcome ≠ .consumed c := by
  intro c
  unfold directive at h
  split at h
  · simp only [Step.done.injEq] at h; subst h; simp
  · next unit label hty =>
    split at h
    · simp only [Step.done.injEq] at h; subst h; simp
    · next k fmt1 hm =>
      simp only at h
      split at h
      · simp only [Step.done.injEq] at h; subst h; simp
      · split at h
        · next r1 hu =>
          simp only [Step.done.injEq] at h
          subst h
          cases label with
          | UNPACK_NTOHS => simp [unpackLabel] at hu
          | UNPACK_NTOHL =>
            simp only [unpackLabel] at hu
            repeat' split at hu
            all_goals
              first
              | (simp only [Except.error.injEq] at hu
                 subst hu
                 simp)
              | cases hu
          | UNPACK_STRING =>
            simp only [unpackLabel] at hu
            exact loopString_error_outcome data k _ _ hu c
          | UNPACK_BYTE => simp [unpackLabel] at hu
        · cases h

/-- A consumed count never exceeds the length of the data. -/
theorem unpackLoop_consumed_le (data : List Byte) (fuel : Nat) :
    ∀ (fmt : List Char) (st : UnpackState) (c : Nat) (T : LuaTable), Budget data st →
      unpackLoop data fuel fmt st = some ⟨.consumed c, T⟩ → c ≤ data.length := by
  induction fuel with
  | zero =>
    intro fmt st c T hb h
    cases fmt with
    | nil =>
      simp only [unpackLoop, Option.some.injEq, UnpackResult.mk.injEq, Outcome.consumed.injEq] at h
      have := hb.1
      omega
    | cons t cs => simp [unpackLoop] at h
  | succ n ih =>
    intro fmt st c T hb h
    cases fmt with
    | nil =>
      simp only [unpackLoop, Option.some.injEq, UnpackResult.mk.injEq, Outcome.consumed.injEq] at h
      have := hb.1
      omega
    | cons t cs =>
      simp only [unpackLoop] at h
      split at h
      · simp only [Option.some.injEq, UnpackResult.mk.injEq, Outcome.consumed.injEq] at h
        have := hb.1
        omega
      · split at h
        · next r hd =>
          simp only [Option.some.injEq] at h
          subst h
          exact absurd rfl (directive_done_outcome data t cs st _ hd c)
        · next fmt1 st1 hd =>
          exact ih fmt1 st1 c T (directive_budget _ _ _ _ _ _ hd hb) h

/-! ## Claim on truncated data -/

/-- C2: when `unpack(F, D)` succeeds with consumed count `c`, then on every
prefix of `D` shorter than `c` (the first `n` bytes of `D`, `n < c`, among
them `D[:c-1]`) `unpack` returns `nil, nil, true`: it neither succeeds nor
returns an error message nor raises. -/
theorem unpack_truncated (out : LuaTable) (fmt : List Char) (data : List Byte) (c : Nat)
    (T : LuaTable) (h : unpack_lua out fmt data = some ⟨.consumed c, T⟩) (n : Nat) (hn : n < c) :
    (unpack_lua out fmt (data.take n)).map (·.outcome) = some .notEnough := by
  have hsplit : data.take n ++ data.drop n = data := List.take_append_drop n data
  have ht : Trunc (data.take n) (initState out (data.take n ++ data.drop n)) (data.take n).length := by
    refine ⟨by simp [initState], by simp [initState], fun hmsg => ?_⟩
    exact absurd rfl hmsg
  rcases unpackLoop_trunc (data.take n) (data.drop n) fmt.length fmt _ _ ht with ⟨T1, h1⟩ | h1
  · have e : unpack_lua out fmt (data.take n) = some ⟨.notEnough, T1⟩ := h1
    rw [e]
    rfl
  · have e : unpack_lua out fmt (data.take n)
        = unpack_lua out fmt (data.take n ++ data.drop n) := h1
    rw [hsplit, h] at e
    have hle := unpackLoop_consumed_le (data.take n) fmt.length fmt _ c T
      (initState_budget out (data.take n)) e
    have : (data.take n).length ≤ n := by simp
    omega

/-- C2, at format "i": the call on `00 00 00 07` consumes 4 bytes, and on its
first 2 bytes it returns `nil, nil, true`. -/
theorem unpack_truncated_witness :
    unpack_lua emptyTable ['i'] [0, 0, 0, 7]
      = some ⟨.consumed 4, Function.update emptyTable 1 (some (.integer 7))⟩ ∧
    2 < 4 ∧
    (unpack_lua emptyTable ['i'] (([0, 0, 0, 7] : List Byte).take 2)).map (·.outcome)
      = some .notEnough :=
  ⟨rfl, by decide,
    unpack_truncated emptyTable ['i'] [0, 0, 0, 7] 4
      (Function.update emptyTable 1 (some (.integer 7))) rfl 2 (by decide)⟩

/-! ## Claims on the `*` modifier -/

/-- An unmodified `h` or `i` directive (`c`, of `sz` bytes) that decodes
`v ≥ 0`, directly followed by a starred directive `y*` (of unit size `u`) for
which the budget suffices: the starred directive uses the count `v`. -/
theorem star_reuse (data : List Byte) (c y : Char) (rest : List Char) (st : UnpackState)
    (sz u : Nat) (v : Int)
    (hc : (c = 'h' ∧ sz = 2 ∧ v = ntohs data st.head) ∨ (c = 'i' ∧ sz = 4 ∧ v = ntohl data st.head))
    (hy : (y = 'h' ∧ u = 2) ∨ (y = 'i' ∧ u = 4) ∨ (y = 'b' ∧ u = 1))
    (hbytes : sz + u * v.toNat ≤ st.len) :
    ∃ st2, unpackIter data 2 (c :: y :: '*' :: rest) st = some (rest, st2) ∧
      st2.head = st.head + sz + u * v.toNat ∧
      (y = 'h' → st2.idx = st.idx + 1 + v.toNat ∧ ∀ j, j < v.toNat →
        st2.out (st.idx + 1 + j) = some (.integer (ntohs data (st.head + sz + 2 * j)))) ∧
      (y = 'i' → st2.idx = st.idx + 1 + v.toNat ∧ ∀ j, j < v.toNat →
        st2.out (st.idx + 1 + j) = some (.integer (ntohl data (st.head + sz + 4 * j)))) ∧
      (y = 'b' → st2.idx = st.idx + 2 ∧
        st2.out (st.idx + 1) = some (.string (lstring data (st.head + sz) v.toNat))) := by
  have hyd : (peek (y :: '*' :: rest)).isDigit = false := by
    show y.isDigit = false
    rcases hy with h | h | h <;> rw [h.1] <;> decide
  have hys : peek (y :: '*' :: rest) ≠ '*' := by
    show y ≠ '*'
    rcases hy with h | h | h <;> rw [h.1] <;> decide
  have hyn : ¬ (y = '\x00') := by
    rcases hy with h | h | h <;> rw [h.1] <;> decide
  have hcn : ¬ (c = '\x00') := by
    rcases hc with h | h <;> rw [h.1] <;> decide
  have hvmin : v ≠ INTMAX_MIN := by
    rcases hc with h | h
    · rw [h.2.2]; exact ntohs_ne_min _ _
    · rw [h.2.2]; exact ntohl_ne_min _ _
  -- the state after the first directive
  have h1 : directive data c (y :: '*' :: rest) st = .next (y :: '*' :: rest)
      { head := st.head + sz, len := st.len - sz, msglen := st.msglen, pre_iv := v,
        idx := st.idx + 1, out := Function.update st.out st.idx (some (.integer v)) } := by
    rcases hc with ⟨rfl, rfl, rfl⟩ | ⟨rfl, rfl, rfl⟩
    · have hlt : ¬ st.len < 2 := by omega
      simp only [directive_h data _ st hyd hys, hlt, if_false]
    · have hlt : ¬ st.len < 4 := by omega
      simp only [directive_i data _ st hyd hys, hlt, if_false]
  simp only [unpackIter, hcn, hyn, if_false, h1]
  rcases hy with ⟨rfl, rfl⟩ | ⟨rfl, rfl⟩ | ⟨rfl, rfl⟩
  · rw [directive_h_star _ _ _ hvmin]
    have hlt : ¬ (st.len - sz < 2 * v.toNat) := by omega
    simp only [hlt, if_false]
    refine ⟨_, rfl, ?_, ?_, ?_, ?_⟩
    · split <;> simp only [(loopNtohs_fields _ _ _).1]
    · intro _
      constructor
      · split <;> simp only [(loopNtohs_fields _ _ _).2.2.2.2]
      · intro j hj
        have hr : st.idx + 1 ≤ st.idx + 1 + j ∧ st.idx + 1 + j < st.idx + 1 + v.toNat := by omega
        have e : st.idx + 1 + j - (st.idx + 1) = j := by omega
        split <;> simp only [loopNtohs_out, hr, and_self, if_true, e]
    · intro h; exact absurd h (by decide)
    · intro h; exact absurd h (by decide)
  · rw [directive_i_star _ _ _ hvmin]
    have hlt : ¬ (st.len - sz < 4 * v.toNat) := by omega
    simp only [hlt, if_false]
    refine ⟨_, rfl, ?_, ?_, ?_, ?_⟩
    · split <;> simp only [(loopNtohl_fields _ _ _).1]
    · intro h; exact absurd h (by decide)
    · intro _
      constructor
      · split <;> simp only [(loopNtohl_fields _ _ _).2.2.2.2]
      · intro j hj
        have hr : st.idx + 1 ≤ st.idx + 1 + j ∧ st.idx + 1 + j < st.idx + 1 + v.toNat := by omega
        have e : st.idx + 1 + j - (st.idx + 1) = j := by omega
        split <;> simp only [loopNtohl_out, hr, and_self, if_true, e]
    · intro h; exact absurd h (by decide)
  · rw [directive_b_star _ _ _ hvmin]
    have hlt : ¬ (st.len - sz < v.toNat) := by omega
    simp only [hlt, if_false]
    refine ⟨_, rfl, ?_, ?_, ?_, ?_⟩
    · simp only [Nat.one_mul]
    · intro h; exact absurd h (by decide)
    · intro h; exact absurd h (by decide)
    · intro _
      exact ⟨rfl, by simp only [Function.update_same]⟩

/-- C5: when decoding reaches an unmodified directive `c` (`h` or `i`, of
`sz` bytes) that decodes a negative value `v` and is directly followed by a
directive `x*` with `x` among `h`, `i`, `b`, the starred directive uses the
count zero: after both directives the offset has moved by `sz` only, `h*` and
`i*` have stored nothing and `b*` has stored the empty string.  For example
`unpack(out, "ib*", be32(-1) ++ rest)` returns 4 with `out = [-1, ""]`. -/
theorem unpack_star_negative (out : LuaTable) (fmt : List Char) (data : List Byte) (n : Nat)
    (c x : Char) (rest : List Char) (st : UnpackState) (sz : Nat) (v : Int)
    (hreach : unpackIter data n fmt (initState out data) = some (c :: x :: '*' :: rest, st))
    (hc : (c = 'h' ∧ sz = 2 ∧ v = ntohs data st.head) ∨ (c = 'i' ∧ sz = 4 ∧ v = ntohl data st.head))
    (hx : x = 'h' ∨ x = 'i' ∨ x = 'b')
    (hbytes : sz ≤ st.len) (hneg : v < 0) :
    unpackIter data (n + 2) fmt (initState out data)
        = some (rest,
            { head := st.head + sz
              len := st.len - sz
              msglen := st.msglen
              pre_iv := INTMAX_MIN
              idx := if x = 'b' then st.idx + 2 else st.idx + 1
              out :=
                if x = 'b' then
                  Function.update (Function.update st.out st.idx (some (.integer v))) (st.idx + 1)
                    (some (.string []))
                else Function.update st.out st.idx (some (.integer v)) }) ∧
    ∀ (out1 : LuaTable) (more : List Byte),
      unpack_lua out1 ['i', 'b', '*'] (be32 (-1) ++ more)
        = some ⟨.consumed 4,
            Function.update (Function.update out1 1 (some (.integer (-1)))) 2 (some (.string []))⟩ := by
  have hk : v.toNat = 0 := Int.toNat_eq_zero.mpr (le_of_lt hneg)
  have hxd : (peek (x :: '*' :: rest)).isDigit = false := by
    show x.isDigit = false
    rcases hx with h | h | h <;> subst h <;> decide
  have hxs : peek (x :: '*' :: rest) ≠ '*' := by
    show x ≠ '*'
    rcases hx with h | h | h <;> subst h <;> decide
  have hxn : ¬ (x = '\x00') := by
    rcases hx with h | h | h <;> subst h <;> decide
  constructor
  · rw [unpackIter_add data n 2 fmt _ _ st hreach]
    rcases hc with ⟨rfl, rfl, rfl⟩ | ⟨rfl, rfl, rfl⟩
    · have hcn : ¬ ('h' = '\x00') := by decide
      have hlt : ¬ st.len < 2 := by omega
      have hmin := ntohs_ne_min data st.head
      simp only [unpackIter, hcn, hxn, if_false, directive_h data _ st hxd hxs, hlt]
      rcases hx with h | h | h <;> subst h
      · rw [directive_h_star _ _ _ hmin]
        simp [hk, loopNtohs]
      · rw [directive_i_star _ _ _ hmin]
        simp [hk, loopNtohl]
      · rw [directive_b_star _ _ _ hmin]
        simp [hk, lstring]
    · have hcn : ¬ ('i' = '\x00') := by decide
      have hlt : ¬ st.len < 4 := by omega
      have hmin := ntohl_ne_min data st.head
      simp only [unpackIter, hcn, hxn, if_false, directive_i data _ st hxd hxs, hlt]
      rcases hx with h | h | h <;> subst h
      · rw [directive_h_star _ _ _ hmin]
        simp [hk, loopNtohs]
      · rw [directive_i_star _ _ _ hmin]
        simp [hk, loopNtohl]
      · rw [directive_b_star _ _ _ hmin]
        simp [hk, lstring]
  · intro out1 more
    have hv : ntohl (be32 (-1) ++ more) 0 = -1 := ntohl_be32 (-1) more (by norm_num) (by norm_num)
    have hlen : (be32 (-1) ++ more).length = more.length + 4 := by simp [be32]
    have hi := directive_i (be32 (-1) ++ more) ['b', '*'] (initState out1 (be32 (-1) ++ more))
      (by decide) (by decide)
    have e0 : (initState out1 (be32 (-1) ++ more)).head = 0 := rfl
    have e1 : (initState out1 (be32 (-1) ++ more)).len = more.length + 4 := hlen
    have c1 : ¬ (more.length + 4 < 4) := by omega
    simp only [e0, e1, hv, c1, if_false] at hi
    have hnul1 : ¬ ('i' = '\x00') := by decide
    have hnul2 : ¬ ('b' = '\x00') := by decide
    have hpre : (-1 : Int) ≠ INTMAX_MIN := by unfold INTMAX_MIN; omega
    simp only [unpack_lua, List.length_cons, List.length_nil, unpackLoop, hnul1, hnul2, if_false, hi]
    rw [directive_b_star _ _ _ (by simpa using hpre)]
    simp [lstring]
    rfl

/-- C5, at format "ib*" and data `be32(-1)` followed by two bytes: after the
two directives the offset is 4 and the table holds -1 and the empty string. -/
theorem unpack_star_negative_witness :
    ntohl [255, 255, 255, 255, 1, 2] 0 = -1 ∧
    unpackIter [255, 255, 255, 255, 1, 2] 2 ['i', 'b', '*']
        (initState emptyTable [255, 255, 255, 255, 1, 2])
      = some ([],
          { head := 4, len := 2, msglen := -1, pre_iv := INTMAX_MIN, idx := 3,
            out := Function.update (Function.update emptyTable 1 (some (.integer (-1)))) 2
              (some (.string [])) }) :=
  ⟨by decide,
    (unpack_star_negative emptyTable ['i', 'b', '*'] [255, 255, 255, 255, 1, 2] 0 'i' 'b' []
      (initState emptyTable [255, 255, 255, 255, 1, 2]) 4 (-1) rfl
      (Or.inr ⟨rfl, rfl, by decide⟩) (Or.inr (Or.inr rfl)) (by decide) (by decide)).1⟩

/-- C6, as stated, fails: on format "Lh*" and data `be32(8)` followed by 16
bytes the call raises the invalid-format error. -/
theorem unpack_Lh_star_refused :
    (unpack_lua emptyTable ['L', 'h', '*']
        [0, 0, 0, 8, 0, 1, 0, 2, 0, 3, 0, 4, 0, 5, 0, 6, 0, 7, 0, 8]).map (·.outcome)
      = some (.argError
        "invalid format string: type specifiers with the length modifier '*' must be preceded by the integer type specifier 'i', 'h' or 'L' without the length modifier.") := by
  rfl

/-- C6 (amended): when decoding reaches the first `L` directive, directly
followed by a starred directive `x*`, and `L` decodes (its value `m` is at
least 4 and the data holds `m` bytes from its offset on): for `x` = `h` or `i`
the call raises the invalid-format error; for `x` = `b` the count is `m - 4`.
The value reused by `*` is otherwise that of the directly preceding unmodified
`h` or `i` directive: when that value `v` is not negative and the budget
suffices, the starred directive decodes `v` values (or `v` bytes for `b*`). -/
theorem unpack_star_count (out : LuaTable) (fmt : List Char) (data : List Byte) (n : Nat)
    (x : Char) (rest : List Char) (st : UnpackState)
    (hreach : unpackIter data n fmt (initState out data) = some ('L' :: x :: '*' :: rest, st))
    (hfirst : st.msglen = -1)
    (hm : 4 ≤ ntohl data st.head)
    (hlen : ntohl data st.head ≤ (data.length : Int) - st.head) :
    (x = 'h' ∨ x = 'i' →
      (unpack_lua out fmt data).map (·.outcome) = some (.argError
        "invalid format string: type specifiers with the length modifier '*' must be preceded by the integer type specifier 'i', 'h' or 'L' without the length modifier.")) ∧
    (x = 'b' →
      unpackIter data (n + 2) fmt (initState out data)
        = some (rest,
            { head := st.head + (ntohl data st.head).toNat
              len := 0
              msglen := ntohl data st.head
              pre_iv := INTMAX_MIN
              idx := st.idx + 2
              out := Function.update
                (Function.update st.out st.idx (some (.integer (ntohl data st.head)))) (st.idx + 1)
                (some (.string (lstring data (st.head + 4) ((ntohl data st.head).toNat - 4)))) })) ∧
    (∀ (out1 : LuaTable) (fmt1 : List Char) (data1 : List Byte) (n1 : Nat) (c y : Char)
      (rest1 : List Char) (st1 : UnpackState) (sz u : Nat) (v : Int),
      unpackIter data1 n1 fmt1 (initState out1 data1) = some (c :: y :: '*' :: rest1, st1) →
      ((c = 'h' ∧ sz = 2 ∧ v = ntohs data1 st1.head) ∨
        (c = 'i' ∧ sz = 4 ∧ v = ntohl data1 st1.head)) →
      ((y = 'h' ∧ u = 2) ∨ (y = 'i' ∧ u = 4) ∨ (y = 'b' ∧ u = 1)) →
      0 ≤ v → sz + u * v.toNat ≤ st1.len →
      ∃ st2, unpackIter data1 (n1 + 2) fmt1 (initState out1 data1) = some (rest1, st2) ∧
        st2.head = st1.head + sz + u * v.toNat ∧
        (y = 'h' → st2.idx = st1.idx + 1 + v.toNat ∧ ∀ j, j < v.toNat →
          st2.out (st1.idx + 1 + j) = some (.integer (ntohs data1 (st1.head + sz + 2 * j)))) ∧
        (y = 'i' → st2.idx = st1.idx + 1 + v.toNat ∧ ∀ j, j < v.toNat →
          st2.out (st1.idx + 1 + j) = some (.integer (ntohl data1 (st1.head + sz + 4 * j)))) ∧
        (y = 'b' → st2.idx = st1.idx + 2 ∧
          st2.out (st1.idx + 1) = some (.string (lstring data1 (st1.head + sz) v.toNat)))) := by
  have hb := unpackIter_budget data n fmt _ _ _ hreach (initState_budget out data)
  have hb2 := hb.2 hfirst
  have c1 : ¬ st.len < 4 := by omega
  have c2 : ¬ ntohl data st.head < 4 := by omega
  have c3 : ¬ (st.len : Int) < ntohl data st.head := by omega
  have hnul : ¬ ('L' = '\x00') := by decide
  refine ⟨?_, ?_, ?_⟩
  · intro hx
    have hxd : (peek (x :: '*' :: rest)).isDigit = false := by
      show x.isDigit = false
      rcases hx with h | h <;> subst h <;> decide
    have hxs : peek (x :: '*' :: rest) ≠ '*' := by
      show x ≠ '*'
      rcases hx with h | h <;> subst h <;> decide
    have hxn : ¬ (x = '\x00') := by
      rcases hx with h | h <;> subst h <;> decide
    have hxb : ¬ (peek (x :: '*' :: rest) = 'b') := by
      show ¬ (x = 'b')
      rcases hx with h | h <;> subst h <;> decide
    rw [unpack_lua_of_unpackIter out fmt data n _ st hreach]
    simp only [unpackLoop, List.length_cons, hnul, hxn, if_false,
      directive_L data _ st hfirst hxd hxs, c1, c2, c3, hxb]
    rw [directive_star_unset data x rest _ hx rfl]
    rfl
  · intro hx
    subst hx
    have hpre : ntohl data st.head - 4 ≠ INTMAX_MIN := by unfold INTMAX_MIN; omega
    have hk : (ntohl data st.head - 4).toNat = (ntohl data st.head).toNat - 4 := by omega
    have c5 : ¬ ((ntohl data st.head).toNat - 4 < (ntohl data st.head).toNat - 4) := by omega
    have e5 : st.head + 4 + ((ntohl data st.head).toNat - 4) = st.head + (ntohl data st.head).toNat := by
      omega
    have hnb : ¬ ('b' = '\x00') := by decide
    have hpk : peek ('b' :: '*' :: rest) = 'b' := rfl
    have hbd : (peek ('b' :: '*' :: rest)).isDigit = false := by
      show Char.isDigit 'b' = false
      decide
    have hbs : peek ('b' :: '*' :: rest) ≠ '*' := by
      show 'b' ≠ '*'
      decide
    rw [unpackIter_add data n 2 fmt _ _ st hreach]
    simp only [unpackIter, hnul, hnb, if_false,
      directive_L data ('b' :: '*' :: rest) st hfirst hbd hbs, c1, c2, c3, hpk, if_true]
    rw [directive_b_star _ _ _ (by simpa using hpre)]
    simp only [hk, c5, if_false, e5, Nat.sub_self]
  · intro out1 fmt1 data1 n1 c y rest1 st1 sz u v hr hc hy _ hbytes
    rw [unpackIter_add data1 n1 2 fmt1 _ _ st1 hr]
    exact star_reuse data1 c y rest1 st1 sz u v hc hy hbytes

/-- C6 (amended), at format "hLb*" and data whose `L` field, at offset 2,
holds 8 and is followed by 5 bytes: `b*` takes 4 of them. -/
theorem unpack_star_count_witness :
    unpackIter [0, 1, 0, 0, 0, 8, 1, 2, 3, 4, 9] 1 ['h', 'L', 'b', '*']
        (initState emptyTable [0, 1, 0, 0, 0, 8, 1, 2, 3, 4, 9])
      = some (['L', 'b', '*'],
          { head := 2, len := 9, msglen := -1, pre_iv := 1, idx := 2,
            out := Function.update emptyTable 1 (some (.integer 1)) }) ∧
    unpackIter [0, 1, 0, 0, 0, 8, 1, 2, 3, 4, 9] 3 ['h', 'L', 'b', '*']
        (initState emptyTable [0, 1, 0, 0, 0, 8, 1, 2, 3, 4, 9])
      = some ([],
          { head := 10, len := 0, msglen := 8, pre_iv := INTMAX_MIN, idx := 4,
            out := Function.update
              (Function.update (Function.update emptyTable 1 (some (.integer 1))) 2
                (some (.integer 8))) 3 (some (.string [1, 2, 3, 4])) }) :=
  ⟨rfl,
    (unpack_star_count emptyTable ['h', 'L', 'b', '*'] [0, 1, 0, 0, 0, 8, 1, 2, 3, 4, 9] 1 'b' []
      { head := 2, len := 9, msglen := -1, pre_iv := 1, idx := 2,
        out := Function.update emptyTable 1 (some (.integer 1)) }
      rfl rfl (by decide) (by decide)).2.1 rfl⟩

/-- C7 fails on the code: a starred directive directly after a directive
whose modifier gave the count 1 is accepted.  Format "h1h*" on the data
`00 01 00 05` returns 4 consumed bytes with `out = [1, 5]`, and format "hh*h*"
on `00 01 00 01 00 07` returns 6 with `out = [1, 1, 7]`; no error is raised. -/
theorem unpack_star_after_modifier_accepted :
    (unpack_lua emptyTable ['h', '1', 'h', '*'] [0, 1, 0, 5]).map
        (fun r => (r.outcome, r.out 1, r.out 2))
      = some (.consumed 4, some (.integer 1), some (.integer 5)) ∧
    (unpack_lua emptyTable ['h', 'h', '*', 'h', '*'] [0, 1, 0, 1, 0, 7]).map
        (fun r => (r.outcome, r.out 1, r.out 2, r.out 3))
      = some (.consumed 6, some (.integer 1), some (.integer 1), some (.integer 7)) := by
  constructor <;> rfl

/-! ## Claims on the output table -/

/-- C8, as stated, fails: format "ii" on the 4 bytes `00 00 00 08` returns
`nil, nil, true` and leaves `out[1] = 8`. -/
theorem unpack_ii_keeps_first :
    (unpack_lua emptyTable ['i', 'i'] [0, 0, 0, 8]).map (fun r => (r.outcome, r.out 1))
      = some (.notEnough, some (.integer 8)) := by
  rfl

/-- C8 (amended): when `unpack` returns `nil, nil, true`, the output table is
not reset: whatever the directives completed before the underflow have stored
is still in it (the table of any loop state reached agrees with the returned
table below that state's `idx`).  For example format "ii" on 4 to 7 bytes of
data returns `nil, nil, true` and leaves `out[1]` set to the first integer. -/
theorem unpack_notEnough_keeps (out : LuaTable) (fmt : List Char) (data : List Byte) (n : Nat)
    (rest : List Char) (st : UnpackState) (r : UnpackResult)
    (hreach : unpackIter data n fmt (initState out data) = some (rest, st))
    (hres : unpack_lua out fmt data = some r) (_hne : r.outcome = .notEnough) :
    (∀ j, j < st.idx → r.out j = st.out j) ∧
    (∀ (out1 : LuaTable) (data1 : List Byte), 4 ≤ data1.length → data1.length < 8 →
      unpack_lua out1 ['i', 'i'] data1
        = some ⟨.notEnough, Function.update out1 1 (some (.integer (ntohl data1 0)))⟩) := by
  constructor
  · intro j hj
    rw [unpack_lua_of_unpackIter out fmt data n rest st hreach] at hres
    exact unpackLoop_frame data _ rest st r hres j hj
  · intro out1 data1 h4 h8
    have hi := directive_i data1 ['i'] (initState out1 data1) (by decide) (by decide)
    have e1 : (initState out1 data1).len = data1.length := rfl
    have c1 : ¬ (data1.length < 4) := by omega
    simp only [e1, c1, if_false] at hi
    have hi2 := directive_i data1 []
      { head := (initState out1 data1).head + 4, len := data1.length - 4,
        msglen := (initState out1 data1).msglen,
        pre_iv := ntohl data1 (initState out1 data1).head,
        idx := (initState out1 data1).idx + 1,
        out := Function.update (initState out1 data1).out (initState out1 data1).idx
          (some (.integer (ntohl data1 (initState out1 data1).head))) } (by decide) (by decide)
    have c2 : data1.length - 4 < 4 := by omega
    simp only [c2, if_true] at hi2
    have hnul : ¬ ('i' = '\x00') := by decide
    simp only [unpack_lua, List.length_cons, List.length_nil, unpackLoop, hnul, if_false, hi, hi2]
    rfl

/-- C8 (amended), at format "ii" and the 4 bytes `00 00 00 08`: the state
after the first directive has stored 8 at index 1, and the returned table
still holds it. -/
theorem unpack_notEnough_keeps_witness :
    unpackIter [0, 0, 0, 8] 1 ['i', 'i'] (initState emptyTable [0, 0, 0, 8])
      = some (['i'],
          { head := 4, len := 0, msglen := -1, pre_iv := 8, idx := 2,
            out := Function.update emptyTable 1 (some (.integer 8)) }) ∧
    unpack_lua emptyTable ['i', 'i'] [0, 0, 0, 8]
      = some ⟨.notEnough, Function.update emptyTable 1 (some (.integer 8))⟩ ∧
    Function.update emptyTable 1 (some (.integer 8)) 1 = some (.integer 8) :=
  ⟨rfl, rfl,
    (unpack_notEnough_keeps emptyTable ['i', 'i'] [0, 0, 0, 8] 1 ['i']
      { head := 4, len := 0, msglen := -1, pre_iv := 8, idx := 2,
        out := Function.update emptyTable 1 (some (.integer 8)) }
      ⟨.notEnough, Function.update emptyTable 1 (some (.integer 8))⟩ rfl rfl rfl).1 1 (by decide)⟩

/-! ## Properties of `strxor_lua` -/

theorem take_set_succ (buf : List Byte) (n : Nat) (z : Byte) (h : n < buf.length) :
    (buf.set n z).take (n + 1) = buf.take n ++ [z] := by
  induction buf generalizing n with
  | nil => simp at h
  | cons x xs ih =>
    cases n with
    | zero => simp
    | succ m =>
      have hm : m < xs.length := by simpa using h
      simp [ih m hm]

/-- The loop keeps the scratch buffer within bounds, and the bytes flushed so
far followed by the pending ones are the xor of the strings read so far. -/
theorem strxorLoop_spec (B : Nat) (s1 : List Byte) :
    ∀ (s2 : List Byte) (st : XorState), st.len < B → st.buf.length = B →
      (strxorLoop B s1 s2 st).len < B ∧ (strxorLoop B s1 s2 st).buf.length = B ∧
      (strxorLoop B s1 s2 st).b ++ (strxorLoop B s1 s2 st).buf.take (strxorLoop B s1 s2 st).len
        = st.b ++ st.buf.take st.len ++ List.zipWith (· ^^^ ·) s1 s2 := by
  induction s1 with
  | nil => intro s2 st h1 h2; simp [strxorLoop, h1, h2]
  | cons x xs ih =>
    intro s2 st h1 h2
    cases s2 with
    | nil => simp [strxorLoop, h1, h2]
    | cons y ys =>
      have hlen : st.len < st.buf.length := by omega
      simp only [strxorLoop]
      split
      · next heq =>
        have := ih ys { buf := st.buf.set st.len (x ^^^ y), len := 0,
                        b := st.b ++ (st.buf.set st.len (x ^^^ y)).take (st.len + 1) }
          (by simp; omega) (by simp [h2])
        obtain ⟨a1, a2, a3⟩ := this
        refine ⟨a1, a2, ?_⟩
        rw [a3]
        simp [take_set_succ _ _ _ hlen]
      · next hne =>
        have := ih ys { buf := st.buf.set st.len (x ^^^ y), len := st.len + 1, b := st.b }
          (by simp; omega) (by simp [h2])
        obtain ⟨a1, a2, a3⟩ := this
        refine ⟨a1, a2, ?_⟩
        rw [a3]
        simp [take_set_succ _ _ _ hlen]

/-- The string `strxor_lua` returns on strings of equal length. -/
theorem strxor_lua_eq (B : Nat) (hB : 0 < B) (s1 s2 : List Byte) (h : s1.length = s2.length) :
    strxor_lua B s1 s2 = .ok (List.zipWith (· ^^^ ·) s1 s2) := by
  have hs := strxorLoop_spec B s1 s2 { buf := List.replicate B 0, len := 0, b := [] }
    (by simpa using hB) (by simp)
  obtain ⟨_, _, a3⟩ := hs
  simp only [strxor_lua, h, ne_eq, not_true_eq_false, if_false]
  split
  · next hne => rw [a3]; simp
  · next heq =>
    have heq' : (strxorLoop B s1 s2 { buf := List.replicate B 0, len := 0, b := [] }).len = 0 := by
      simpa using heq
    rw [heq'] at a3
    simp at a3
    rw [a3]

theorem byte_xor_xor (x y : Byte) : (x ^^^ y) ^^^ y = x := by
  cases x with | mk x => cases y with | mk y =>
  show UInt8.xor (UInt8.xor ⟨x⟩ ⟨y⟩) ⟨y⟩ = ⟨x⟩
  simp only [UInt8.xor]
  congr 1
  rw [BitVec.xor_assoc, BitVec.xor_self, BitVec.xor_zero]

theorem zipWith_xor_xor (a : List Byte) :
    ∀ b : List Byte, a.length = b.length →
      List.zipWith (· ^^^ ·) (List.zipWith (· ^^^ ·) a b) b = a := by
  induction a with
  | nil => intro b _; simp
  | cons x xs ih =>
    intro b hb
    cases b with
    | nil => simp at hb
    | cons y ys =>
      have hl : xs.length = ys.length := by simpa using hb
      simp [byte_xor_xor, ih ys hl]

/-- C9: `strxor(a, b)` raises its error, whose message ends in "both strings
must be the same length", exactly when the lengths differ; otherwise it returns
a string `r` of the length of `a` with `r[i] = a[i] XOR b[i]` at every index,
whatever the length is relative to the scratch buffer of `BUFSIZ` bytes. -/
theorem strxor_lua_spec (BUFSIZ : Nat) (hB : 0 < BUFSIZ) (a b : List Byte) :
    (strxor_lua BUFSIZ a b
        = .error ("invalid arguments: " ++ "both strings must be the same length")
      ↔ a.length ≠ b.length) ∧
    (a.length = b.length →
      ∃ r, strxor_lua BUFSIZ a b = .ok r ∧ r.length = a.length ∧
        ∀ (i : Nat) (x y : Byte), a[i]? = some x → b[i]? = some y → r[i]? = some (x ^^^ y)) := by
  constructor
  · constructor
    · intro h hlen
      rw [strxor_lua_eq BUFSIZ hB a b hlen] at h
      cases h
    · intro h
      simp only [strxor_lua, h, ne_eq, not_false_eq_true, if_true]
      rfl
  · intro hlen
    refine ⟨List.zipWith (· ^^^ ·) a b, strxor_lua_eq BUFSIZ hB a b hlen, ?_, ?_⟩
    · simp [hlen]
    · intro i x y hx hy
      simp [List.getElem?_zipWith, hx, hy]

/-- C9, at a scratch buffer of 2 bytes and strings of 5 bytes. -/
theorem strxor_lua_spec_witness :
    0 < 2 ∧
    ((strxor_lua 2 [1, 2, 3, 4, 5] [7, 7, 7, 7, 7]
        = .error ("invalid arguments: " ++ "both strings must be the same length")
      ↔ [1, 2, 3, 4, 5].length ≠ [7, 7, 7, 7, 7].length) ∧
    ([1, 2, 3, 4, 5].length = [7, 7, 7, 7, 7].length →
      ∃ r, strxor_lua 2 [1, 2, 3, 4, 5] [7, 7, 7, 7, 7] = .ok r ∧ r.length = [1, 2, 3, 4, 5].length ∧
        ∀ (i : Nat) (x y : Byte), ([1, 2, 3, 4, 5] : List Byte)[i]? = some x →
          ([7, 7, 7, 7, 7] : List Byte)[i]? = some y → r[i]? = some (x ^^^ y))) :=
  ⟨by decide, strxor_lua_spec 2 (by decide) [1, 2, 3, 4, 5] [7, 7, 7, 7, 7]⟩

/-- C10: for byte strings `a` and `b` of equal length,
`strxor(strxor(a, b), b) = a`. -/
theorem strxor_lua_involution (BUFSIZ : Nat) (hB : 0 < BUFSIZ) (a b : List Byte)
    (h : a.length = b.length) :
    ∃ r, strxor_lua BUFSIZ a b = .ok r ∧ strxor_lua BUFSIZ r b = .ok a := by
  refine ⟨List.zipWith (· ^^^ ·) a b, strxor_lua_eq BUFSIZ hB a b h, ?_⟩
  rw [strxor_lua_eq BUFSIZ hB _ b (by simp [h]), zipWith_xor_xor a b h]

/-- C10, at a scratch buffer of 2 bytes and strings of 5 bytes. -/
theorem strxor_lua_involution_witness :
    [1, 2, 3, 4, 5].length = [7, 7, 7, 7, 7].length ∧
    ∃ r, strxor_lua 2 [1, 2, 3, 4, 5] [7, 7, 7, 7, 7] = .ok r
      ∧ strxor_lua 2 r [7, 7, 7, 7, 7] = .ok [1, 2, 3, 4, 5] :=
  ⟨by decide, strxor_lua_involution 2 (by decide) [1, 2, 3, 4, 5] [7, 7, 7, 7, 7] (by decide)⟩

/-! ## Claims on `htons_lua` and `ntohl_lua` -/

theorem toInt16_emod (n : Int) (h1 : -2 ^ 15 ≤ n) (h2 : n < 2 ^ 15) :
    toInt16 (n % 2 ^ 16).toNat = n := by
  unfold toInt16
  split <;> omega

/-- Decoding the two bytes of `htons_lua n` gives `n` back. -/
theorem ntohs_htons_lua (n : Int) (h1 : -2 ^ 15 ≤ n) (h2 : n < 2 ^ 15) :
    ntohs (htons_lua n) 0 = n := by
  have hu : (n % 2 ^ 16).toNat < 2 ^ 16 := by omega
  have e : byteAt (htons_lua n) 0 * 2 ^ 8 + byteAt (htons_lua n) (0 + 1) = (n % 2 ^ 16).toNat := by
    simp only [htons_lua, byteAt, List.getD_cons_zero, List.getD_cons_succ, toNat_ofNat_byte]
    omega
  unfold ntohs
  rw [e]
  exact toInt16_emod n h1 h2

/-- C11: for every signed 16-bit `v16`, `htons(v16)` is a string of 2 bytes on
which `unpack` with the directive `h` stores `v16` and returns 2 consumed
bytes; and for every signed 32-bit `v32`, `ntohl` on the 4-byte big-endian
two's-complement encoding of `v32` returns `v32`. -/
theorem byte_order_round_trip (out : LuaTable) (v16 v32 : Int)
    (h16 : -2 ^ 15 ≤ v16 ∧ v16 < 2 ^ 15) (h32 : -2 ^ 31 ≤ v32 ∧ v32 < 2 ^ 31) :
    (htons_lua v16).length = 2 ∧
    unpack_lua out ['h'] (htons_lua v16)
      = some ⟨.consumed 2, Function.update out 1 (some (.integer v16))⟩ ∧
    ntohl_lua (be32 v32) = .ok v32 := by
  refine ⟨rfl, ?_, ?_⟩
  · have hv := ntohs_htons_lua v16 h16.1 h16.2
    have hd := directive_h (htons_lua v16) [] (initState out (htons_lua v16)) (by decide) (by decide)
    have e0 : (initState out (htons_lua v16)).head = 0 := rfl
    have e1 : (initState out (htons_lua v16)).len = 2 := rfl
    have c1 : ¬ (2 < 2) := by omega
    simp only [e0, e1, c1, if_false, hv] at hd
    have hnul : ¬ ('h' = '\x00') := by decide
    simp only [unpack_lua, List.length_cons, List.length_nil, unpackLoop, hnul, if_false, hd]
    rfl
  · have hv := ntohl_be32 v32 [] h32.1 h32.2
    rw [List.append_nil] at hv
    have hl : ¬ ((be32 v32).length < 4) := by simp [be32]
    simp only [ntohl_lua, hl, if_false, hv]

/-- C11, at `v16 = -2` and `v32 = -3`. -/
theorem byte_order_round_trip_witness :
    htons_lua (-2) = [255, 254] ∧
    unpack_lua emptyTable ['h'] (htons_lua (-2))
      = some ⟨.consumed 2, Function.update emptyTable 1 (some (.integer (-2)))⟩ ∧
    ntohl_lua (be32 (-3)) = .ok (-3) :=
  ⟨by decide,
    (byte_order_round_trip emptyTable (-2) (-3) (by decide) (by decide)).2⟩

/-- C12, as stated, fails: on the 5-byte string `00 00 00 01 02` the call
returns 1 and raises nothing. -/
theorem ntohl_lua_accepts_longer : ntohl_lua [0, 0, 0, 1, 2] = .ok 1 := by
  rfl

/-- C12 (amended): `ntohl` raises "invalid length" exactly on the strings
shorter than 4 bytes; on every string of 4 bytes or more it returns the signed
32-bit integer that the first 4 bytes encode in network order, whatever
follows them. -/
theorem ntohl_lua_length (s : List Byte) :
    (ntohl_lua s = .error "invalid length" ↔ s.length < 4) ∧
    (4 ≤ s.length → ntohl_lua s = .ok (ntohl s 0) ∧ ntohl_lua s = ntohl_lua (s.take 4)) := by
  constructor
  · constructor
    · intro h
      by_cases hl : s.length < 4
      · exact hl
      · simp only [ntohl_lua, hl, if_false] at h
        cases h
    · intro hl
      simp only [ntohl_lua, hl, if_true]
  · intro hl
    have h1 : ¬ s.length < 4 := by omega
    have h2 : ¬ (s.take 4).length < 4 := by simp; omega
    have e := ntohl_append (s.take 4) (s.drop 4) 0 (by simp; omega)
    rw [List.take_append_drop] at e
    simp only [ntohl_lua, h1, h2, if_false, e, and_self]

/-! ## Claims on the parameters of the commands -/

theorem param2string_spec (idx : Nat) (v : LVal) :
    pgconn.param2string idx (some v) =
      match spec_coerce v with
      | some p => .ok p
      | none => .error (.argerror idx ("<" ++ luaL_typename (some v) ++ "> param is not supported")) := by
  cases v <;> try rfl
  case boolean b => cases b <;> rfl

theorem argAt_append (front : List LVal) (p : LVal) (rest : List LVal) :
    argAt (front ++ p :: rest) (front.length + 2) = some p := by
  have h : ¬ (front.length + 2 < 2) := by omega
  simp only [argAt, h, if_false, Nat.add_sub_cancel]
  rw [List.get?_eq_getElem?, List.getElem?_append_right (Nat.le_refl _)]
  simp

theorem paramsLoop_ok (params : List LVal) : ∀ (front : List LVal) (ps : List (Option String)),
    params.map spec_coerce = ps.map some →
    pgconn.paramsLoop (front ++ params) params.length (front.length + 2) = .ok ps := by
  induction params with
  | nil =>
    intro front ps h
    cases ps with
    | nil => rfl
    | cons x xs => simp at h
  | cons p rest ih =>
    intro front ps h
    cases ps with
    | nil => simp at h
    | cons x xs =>
      simp only [List.map_cons, List.cons.injEq] at h
      have ih1 := ih (front ++ [p]) xs h.2
      simp only [List.append_assoc, List.singleton_append, List.length_append,
        List.length_singleton] at ih1
      simp only [List.length_cons, pgconn.paramsLoop, argAt_append, param2string_spec, h.1]
      rw [show front.length + 2 + 1 = front.length + 1 + 2 by omega, ih1]

theorem paramsLoop_unsupported (pre : List LVal) :
    ∀ (front : List LVal) (v : LVal) (post : List LVal) (n : Nat),
    n = pre.length + post.length + 1 →
    (∀ p ∈ pre, spec_coerce p ≠ none) → spec_coerce v = none →
    pgconn.paramsLoop (front ++ (pre ++ v :: post)) n (front.length + 2)
      = .error (.argerror (front.length + 2 + pre.length)
          ("<" ++ luaL_typename (some v) ++ "> param is not supported")) := by
  induction pre with
  | nil =>
    intro front v post n hn _ hv
    subst hn
    simp only [List.nil_append, pgconn.paramsLoop, argAt_append, param2string_spec, hv,
      List.length_nil, Nat.add_zero]
  | cons p rest ih =>
    intro front v post n hn hpre hv
    subst hn
    have hp : spec_coerce p ≠ none := hpre p (List.mem_cons_self _ _)
    obtain ⟨x, hx⟩ := Option.ne_none_iff_exists'.mp hp
    have ih1 := ih (front ++ [p]) v post (rest.length + 1 + post.length) (by omega)
      (fun q hq => hpre q (List.mem_cons_of_mem _ hq)) hv
    simp only [List.append_assoc, List.singleton_append, List.length_append,
      List.length_singleton] at ih1
    simp only [List.cons_append, List.length_cons, pgconn.paramsLoop, argAt_append,
      param2string_spec, hx]
    rw [show front.length + 2 + 1 = front.length + 1 + 2 by omega, ih1]
    have e : front.length + 1 + 2 + rest.length = front.length + 2 + (rest.length + 1) := by omega
    rw [e]

theorem gettop_sub_two (cmd : LVal) (params : List LVal) :
    pgconn.lua_gettop (cmd :: params) - 2 = (params.length : Int) := by
  simp only [pgconn.lua_gettop, List.length_cons]
  omega

theorem buildParams_ok (cmd : LVal) (params : List LVal) (ps : List (Option String))
    (h : params.map spec_coerce = ps.map some) :
    pgconn.buildParams (cmd :: params) (params.length : Int) = .ok (paramsArg ps) := by
  have hl : ps.length = params.length := by
    have := congrArg List.length h
    simpa using this.symm
  have hp := paramsLoop_ok params [cmd] ps h
  simp only [List.singleton_append, List.length_singleton] at hp
  by_cases h0 : params.length = 0
  · have h1 : ¬ ((params.length : Int) ≠ 0) := by omega
    have h2 : ps.length = 0 := by omega
    simp only [pgconn.buildParams, h1, if_false, paramsArg, h2, if_true]
  · have h1 : (params.length : Int) ≠ 0 := by omega
    have h2 : ¬ (ps.length = 0) := by omega
    simp only [pgconn.buildParams, h1, if_true, paramsArg, h2, if_false, Int.toNat_ofNat, ne_eq,
      not_false_eq_true, hp]

theorem buildParams_unsupported (cmd : LVal) (pre : List LVal) (v : LVal) (post : List LVal)
    (hpre : ∀ p ∈ pre, spec_coerce p ≠ none) (hv : spec_coerce v = none) :
    pgconn.buildParams (cmd :: (pre ++ v :: post)) ((pre ++ v :: post).length : Int)
      = .error (.argerror (pre.length + 3)
          ("<" ++ luaL_typename (some v) ++ "> param is not supported")) := by
  have hp := paramsLoop_unsupported pre [cmd] v post (pre ++ v :: post).length (by simp; omega)
    hpre hv
  simp only [List.singleton_append, List.length_singleton] at hp
  have h1 : (((pre ++ v :: post).length : Nat) : Int) ≠ 0 := by simp; omega
  have e : 1 + 2 + pre.length = pre.length + 3 := by omega
  simp only [pgconn.buildParams, h1, if_true, Int.toNat_ofNat, ne_eq, not_false_eq_true, hp, e]

theorem pgconn_check_live (c : pgconn_t) (conn : Ptr) (hc : c.conn = some conn) :
    pgconn_check c = .ok conn := by
  simp only [pgconn_check, hc]

theorem pgconn_check_finished (c : pgconn_t) (hc : c.conn = none) :
    pgconn_check c = .error (.error "attempt to use a freed object") := by
  simp only [pgconn_check, hc]

theorem orCanceled_log (env : Env) (w : World) : (w.orCanceled env).log = w.log := by
  unfold World.orCanceled
  split <;> rfl

theorem resultOrFail_log (op : String) (c : pgconn_t) (conn : Ptr) (env : Env) (rep : Reply)
    (w : World) :
    (pgconn.resultOrFail op c conn env rep w).world.log = w.log ∨
    (pgconn.resultOrFail op c conn env rep w).world.log
      = w.log ++ [.native "PQerrorMessage" [.ptr conn]] := by
  unfold pgconn.resultOrFail
  split
  · left; rfl
  · right
    simp only [pgconn.fail, World.native, orCanceled_log]

theorem fail_log (env : Env) (w : World) (conn : Ptr) (first : LVal) (op : String) :
    (pgconn.fail env w conn first op).2.log = w.log ++ [.native "PQerrorMessage" [.ptr conn]] := by
  simp only [pgconn.fail, World.native, orCanceled_log]

/-- C13: on a live connection, `exec_params`, `exec_prepare` and
`send_query_params` called with a command string and the further arguments
`params` behave as the coercion table says.  If every argument is nil, a
boolean, a number or a string, the one command sent to libpq has the
parameter count `params.length` and the text parameters `ps`, whose i-th entry
is what the table gives for the i-th argument (null for nil, "TRUE", "FALSE",
the decimal string of an integer, a string unchanged).  If the first argument
of another type is `v`, after the supported arguments `pre`, each of the three
raises "<type> param is not supported" for that argument and sends nothing:
the connection and the world are unchanged. -/
theorem params_coercion (c : pgconn_t) (conn : Ptr) (cmd : String) (params : List LVal)
    (env : Env) (w : World) (hc : c.conn = some conn) :
    (∀ ps : List (Option String), params.map spec_coerce = ps.map some →
      ps.length = params.length ∧
      SendsOne w conn
        (.native "PQexecParams"
          [.ptr conn, .str cmd, .int params.length, .null, paramsArg ps, .null, .null, .int 0])
        (pgconn.exec_params_lua c (.string cmd :: params) env w) ∧
      SendsOne w conn
        (.native "PQexecPrepared"
          [.ptr conn, .str cmd, .int params.length, paramsArg ps, .null, .null, .int 0])
        (pgconn.exec_prepare_lua c (.string cmd :: params) env w) ∧
      SendsOne w conn
        (.native "PQsendQueryParams"
          [.ptr conn, .str cmd, .int params.length, .null, paramsArg ps, .null, .null, .int 0])
        (pgconn.send_query_params_lua c (.string cmd :: params) env w)) ∧
    (∀ (pre : List LVal) (v : LVal) (post : List LVal), params = pre ++ v :: post →
      (∀ p ∈ pre, spec_coerce p ≠ none) → spec_coerce v = none →
      pgconn.exec_params_lua c (.string cmd :: params) env w
        = ⟨.argerror (pre.length + 3) ("<" ++ luaL_typename (some v) ++ "> param is not supported"),
            c, w⟩ ∧
      pgconn.exec_prepare_lua c (.string cmd :: params) env w
        = ⟨.argerror (pre.length + 3) ("<" ++ luaL_typename (some v) ++ "> param is not supported"),
            c, w⟩ ∧
      pgconn.send_query_params_lua c (.string cmd :: params) env w
        = ⟨.argerror (pre.length + 3) ("<" ++ luaL_typename (some v) ++ "> param is not supported"),
            c, w⟩) := by
  have h1 := pgconn_check_live c conn hc
  have h2 : lauxh_checkstring 2 (argAt (.string cmd :: params) 2) = .ok cmd := rfl
  have hn := gettop_sub_two (.string cmd) params
  constructor
  · intro ps h
    have h3 := buildParams_ok (.string cmd) params ps h
    have hl : ps.length = params.length := by
      have := congrArg List.length h
      simpa using this.symm
    refine ⟨hl, ?_, ?_, ?_⟩
    · simp only [pgconn.exec_params_lua, h1, h2, hn, h3, World.native, World.clearErrno]
      rcases resultOrFail_log "PQexecParams" c conn env _ _ with e | e
      · exact Or.inl e
      · right
        rw [e]
        simp
    · simp only [pgconn.exec_prepare_lua, h1, h2, hn, h3, World.native, World.clearErrno]
      rcases resultOrFail_log "PQexecPrepared" c conn env _ _ with e | e
      · exact Or.inl e
      · right
        rw [e]
        simp
    · simp only [pgconn.send_query_params_lua, h1, h2, hn, h3, World.native, World.clearErrno]
      unfold SendsOne
      split
      · left; rfl
      · right
        simp only [fail_log]
        simp
  · intro pre v post hp hpre hv
    subst hp
    have h3 := buildParams_unsupported (.string cmd) pre v post hpre hv
    refine ⟨?_, ?_, ?_⟩
    · simp only [pgconn.exec_params_lua, h1, h2, hn, h3]
    · simp only [pgconn.exec_prepare_lua, h1, h2, hn, h3]
    · simp only [pgconn.send_query_params_lua, h1, h2, hn, h3]

/-- C13, on a connection with the handle 7: `exec_params("q", nil, true, false,
42, "x")` sends one `PQexecParams` with 5 parameters, null, "TRUE", "FALSE",
"42" and "x"; `exec_params("q", nil, {})` raises for argument 4 and sends
nothing. -/
theorem params_coercion_witness :
    liveConn.conn = some 7 ∧
    SendsOne emptyWorld 7
      (.native "PQexecParams"
        [.ptr 7, .str "q", .int 5, .null,
         .strs [none, some "TRUE", some "FALSE", some "42", some "x"], .null, .null, .int 0])
      (pgconn.exec_params_lua liveConn
        [.string "q", .nil, .boolean true, .boolean false, .integer 42, .string "x"]
        nullEnv emptyWorld) ∧
    pgconn.exec_params_lua liveConn [.string "q", .nil, .table 1] nullEnv emptyWorld
      = ⟨.argerror 4 "<table> param is not supported", liveConn, emptyWorld⟩ :=
  ⟨rfl,
    ((params_coercion liveConn 7 "q"
        [.nil, .boolean true, .boolean false, .integer 42, .string "x"] nullEnv emptyWorld rfl).1
      [none, some "TRUE", some "FALSE", some "42", some "x"] rfl).2.1,
    ((params_coercion liveConn 7 "q" [.nil, .table 1] nullEnv emptyWorld rfl).2
      [.nil] (.table 1) [] rfl (by simp [spec_coerce]) rfl).1⟩

/-! ## Claim on `prepare` -/

/-- C14 fails in the code: on a live connection, `prepare(name, sql, oid_1,
..., oid_n)` with `n ≥ 1` raises an argument error for argument 3, the SQL
string, which the loop over the parameter types reads as the first OID
(`nparams = lua_gettop(L) - 3`, but `j = 3`); `PQprepare` is not called and
nothing changes. -/
theorem prepare_oid_raises (c : pgconn_t) (conn : Ptr) (name query : String) (oids : List LVal)
    (env : Env) (w : World) (hc : c.conn = some conn) (hn : oids ≠ []) :
    pgconn.prepare_lua c (.string name :: .string query :: oids) env w = ⟨.badarg 3, c, w⟩ := by
  have h1 := pgconn_check_live c conn hc
  cases oids with
  | nil => exact absurd rfl hn
  | cons o rest =>
    have h2 : lauxh_checkstring 2 (argAt (.string name :: .string query :: o :: rest) 2)
        = .ok name := rfl
    have h3 : lauxh_checkstring 3 (argAt (.string name :: .string query :: o :: rest) 3)
        = .ok query := rfl
    have h4 : pgconn.lua_gettop (.string name :: .string query :: o :: rest) - 3
        = ((rest.length + 1 : Nat) : Int) := by
      simp only [pgconn.lua_gettop, List.length_cons]
      omega
    have h5 : (((rest.length + 1 : Nat) : Int)) ≠ 0 := by omega
    have h6 : lauxh_checkuinteger 3 (argAt (.string name :: .string query :: o :: rest) 3)
        = .error (.badarg 3) := rfl
    simp only [pgconn.prepare_lua, h1, h2, h3, h4, h5, ne_eq, not_false_eq_true, if_true,
      Int.toNat_ofNat, pgconn.paramTypesLoop, h6]

/-- C14, at `prepare("p1", "SELECT $1::text", 25)` on a live connection: the
call raises an argument error for argument 3 and sends nothing. -/
theorem prepare_oid_raises_witness :
    liveConn.conn = some 7 ∧ [LVal.integer 25] ≠ [] ∧
    pgconn.prepare_lua liveConn [.string "p1", .string "SELECT $1::text", .integer 25]
      nullEnv emptyWorld = ⟨.badarg 3, liveConn, emptyWorld⟩ :=
  ⟨rfl, by simp,
    prepare_oid_raises liveConn 7 "p1" "SELECT $1::text" [.integer 25] nullEnv emptyWorld rfl
      (by simp)⟩

/-! ## Claims on finished connections -/

/-- C16: on a finished connection (`c->conn` is null) every method of the
table `method[]` other than `finish` raises "attempt to use a freed object";
the userdata and the world are as before the call, so that no libpq function
was called and no state changed. -/
theorem finished_method_raises (fuel : Nat) (m : pgconn.Method) (c : pgconn_t) (args : List LVal)
    (env : Env) (w : World) (hm : m ≠ .finish) (hc : c.conn = none) :
    pgconn.method fuel m c args env w
      = some ⟨.error "attempt to use a freed object", c, w⟩ := by
  obtain ⟨proc_ref, recv_ref, trace_ref, default_proc, default_recv, conn⟩ := c
  simp only at hc
  subst hc
  cases m <;> first | exact absurd rfl hm | rfl

/-- C16, at `exec("SELECT 1")` on a finished connection. -/
theorem finished_method_raises_witness :
    pgconn.Method.exec ≠ .finish ∧ finishedConn.conn = none ∧
    pgconn.method 0 .exec finishedConn [.string "SELECT 1"] nullEnv emptyWorld
      = some ⟨.error "attempt to use a freed object", finishedConn, emptyWorld⟩ :=
  ⟨by simp, rfl,
    finished_method_raises 0 .exec finishedConn [.string "SELECT 1"] nullEnv emptyWorld
      (by simp) rfl⟩

theorem enumString_string (names : List String) (unknown : String) (v : Int) :
    ∃ s, pgconn.enumString names unknown v = .string s := by
  unfold pgconn.enumString
  split
  · split
    · exact ⟨_, rfl⟩
    · exact ⟨_, rfl⟩
  · exact ⟨_, rfl⟩

/-- C17, as stated, fails: after `finish()` on a live connection, `status()`
raises "attempt to use a freed object". -/
theorem status_after_finish_raises :
    (pgconn.finish_lua liveConn [] nullEnv emptyWorld).self.conn = none ∧
    (pgconn.status_lua (pgconn.finish_lua liveConn [] nullEnv emptyWorld).self []
      nullEnv (pgconn.finish_lua liveConn [] nullEnv emptyWorld).world).ret
      = .error "attempt to use a freed object" :=
  ⟨rfl, rfl⟩

/-- C17 (amended): `status()` returns one string, and does not raise, exactly
on a live connection; on a finished connection it raises "attempt to use a
freed object" like every other read, calls no libpq function and changes
nothing. -/
theorem status_live_only (c : pgconn_t) (args : List LVal) (env : Env) (w : World) :
    (c.conn ≠ none ↔ ∃ s, (pgconn.status_lua c args env w).ret = .values [.string s]) ∧
    (c.conn = none →
      pgconn.status_lua c args env w = ⟨.error "attempt to use a freed object", c, w⟩) := by
  cases hc : c.conn with
  | none =>
    have h1 := pgconn_check_finished c hc
    have e : pgconn.status_lua c args env w = ⟨.error "attempt to use a freed object", c, w⟩ := by
      simp only [pgconn.status_lua, pgconn.getEnum, h1]
    refine ⟨⟨fun h => absurd rfl h, ?_⟩, fun _ => e⟩
    rintro ⟨s, hs⟩
    rw [e] at hs
    cases hs
  | some conn =>
    have h1 := pgconn_check_live c conn hc
    refine ⟨⟨fun _ => ?_, fun _ => by simp⟩, fun h => by cases h⟩
    obtain ⟨s, hs⟩ := enumString_string pgconn.connStatusNames "unknown ConnStatusType: "
      (env.reply w.log.length "PQstatus" [.ptr conn]).int
    refine ⟨s, ?_⟩
    simp only [pgconn.status_lua, pgconn.getEnum, h1, World.native, hs]

/-! ## Claims on cleared results and on releases -/

theorem clear_self (r : pgresult_t) (args : List LVal) (env : Env) (w : World) :
    (pgresult.clear r args env w).self
      = ⟨LUA_NOREF, r.is_allocated, if r.is_allocated ≠ 0 then none else r.result⟩ := by
  unfold pgresult.clear
  cases hres : r.result with
  | none => simp
  | some res =>
    by_cases ha : r.is_allocated ≠ 0
    · simp only [World.native]
      rw [if_pos ha, if_pos ha]
    · simp only []
      rw [if_neg ha, if_neg ha]

/-- C18: after `clear()` on an owned Result (one with the flag
`LPGRESULT_IS_ALLOCATED`), each of the 23 accessors, which are the methods of
the table other than `clear` and `connection`, raises "attempt to use a freed
object" whatever its arguments, and changes nothing; and a further `clear()`
returns nothing and leaves the userdata and the world as they were. -/
theorem cleared_result_raises (r : pgresult_t) (args : List LVal) (env : Env) (w : World)
    (m : pgresult.Method) (args2 : List LVal) (env2 : Env) (w2 : World)
    (hr : r.is_allocated = LPGRESULT_IS_ALLOCATED) (hm : m ≠ .clear ∧ m ≠ .connection) :
    (pgresult.clear_lua r args env w).self.result = none ∧
    pgresult.method m (pgresult.clear_lua r args env w).self args2 env2 w2
      = ⟨.error "attempt to use a freed object", (pgresult.clear_lua r args env w).self, w2⟩ ∧
    pgresult.clear_lua (pgresult.clear_lua r args env w).self args2 env2 w2
      = ⟨.values [], (pgresult.clear_lua r args env w).self, w2⟩ := by
  have ha : r.is_allocated ≠ 0 := by rw [hr]; decide
  have e : (pgresult.clear_lua r args env w).self = ⟨LUA_NOREF, r.is_allocated, none⟩ := by
    rw [pgresult.clear_lua, clear_self, if_pos ha]
  rw [e]
  refine ⟨rfl, ?_, rfl⟩
  cases m <;> first | exact absurd rfl hm.1 | exact absurd rfl hm.2 | rfl

/-- C18, at `get_value(1, 1)` after `clear()` on an owned Result with the
handle 9. -/
theorem cleared_result_raises_witness :
    (⟨5, LPGRESULT_IS_ALLOCATED, some 9⟩ : pgresult_t).is_allocated = LPGRESULT_IS_ALLOCATED ∧
    (pgresult.Method.get_value ≠ .clear ∧ pgresult.Method.get_value ≠ .connection) ∧
    pgresult.method .get_value
        (pgresult.clear_lua ⟨5, LPGRESULT_IS_ALLOCATED, some 9⟩ [] nullEnv emptyWorld).self
        [.integer 1, .integer 1] nullEnv emptyWorld
      = ⟨.error "attempt to use a freed object", ⟨LUA_NOREF, LPGRESULT_IS_ALLOCATED, none⟩,
          emptyWorld⟩ :=
  ⟨rfl, by simp,
    (cleared_result_raises ⟨5, LPGRESULT_IS_ALLOCATED, some 9⟩ [] nullEnv emptyWorld .get_value
      [.integer 1, .integer 1] nullEnv emptyWorld rfl (by simp)).2.1⟩

theorem countNative_append (fn : String) (l1 l2 : List Event) :
    countNative fn (l1 ++ l2) = countNative fn l1 + countNative fn l2 := by
  induction l1 with
  | nil => simp [countNative]
  | cons e rest ih =>
    cases e with
    | native f a =>
      show (if f = fn then 1 else 0) + countNative fn (rest ++ l2)
        = (if f = fn then 1 else 0) + countNative fn rest + countNative fn l2
      rw [ih]
      omega
    | lua_call f a => exact ih

theorem lauxh_unref_log (w : World) (ref : Int) : (w.lauxh_unref ref).log = w.log := by
  unfold World.lauxh_unref
  split <;> rfl

theorem finish_live (c : pgconn_t) (conn : Ptr) (args : List LVal) (env : Env) (w : World)
    (hc : c.conn = some conn) :
    (pgconn.finish c args env w).self.conn = none ∧
    (pgconn.finish c args env w).world.log = w.log ++ [.native "PQfinish" [.ptr conn]] := by
  simp only [pgconn.finish, hc, World.native, lauxh_unref_log, and_self]

theorem finish_finished (c : pgconn_t) (args : List LVal) (env : Env) (w : World)
    (hc : c.conn = none) :
    pgconn.finish c args env w = ⟨.values [], c, w⟩ := by
  simp only [pgconn.finish, hc]

theorem conn_release_eq (env : Env) (cw : pgconn_t × World) (x : pgconn.Release) :
    pgconn.release env cw x
      = ((pgconn.finish cw.1 [] env cw.2).self, (pgconn.finish cw.1 [] env cw.2).world) := by
  cases x <;> rfl

theorem conn_releases_finished (env : Env) (l : List pgconn.Release) :
    ∀ (cw : pgconn_t × World), cw.1.conn = none → pgconn.releases env cw l = cw := by
  induction l with
  | nil => intro cw _; rfl
  | cons x rest ih =>
    intro cw hc
    have e : pgconn.release env cw x = cw := by
      rw [conn_release_eq, finish_finished cw.1 [] env cw.2 hc]
    simp only [pgconn.releases, List.foldl_cons, e]
    exact ih cw hc

theorem clear_log (r : pgresult_t) (args : List LVal) (env : Env) (w : World) :
    (pgresult.clear r args env w).world.log
      = w.log ++ (match r.result with
        | some res => if r.is_allocated ≠ 0 then [.native "PQclear" [.ptr res]] else []
        | none => []) := by
  unfold pgresult.clear
  cases hres : r.result with
  | none => simp [lauxh_unref_log]
  | some res =>
    by_cases ha : r.is_allocated ≠ 0
    · simp only [World.native]
      rw [if_pos ha, if_pos ha]
      simp only [lauxh_unref_log]
    · simp only []
      rw [if_neg ha, if_neg ha]
      simp [lauxh_unref_log]

theorem result_release_eq (env : Env) (rw : pgresult_t × World) (x : pgresult.Release) :
    pgresult.release env rw x
      = ((pgresult.clear rw.1 [] env rw.2).self, (pgresult.clear rw.1 [] env rw.2).world) := by
  cases x <;> rfl

theorem result_releases_quiet (env : Env) (l : List pgresult.Release) :
    ∀ (rw : pgresult_t × World), (rw.1.is_allocated = 0 ∨ rw.1.result = none) →
      (pgresult.releases env rw l).2.log = rw.2.log := by
  induction l with
  | nil => intro rw _; rfl
  | cons x rest ih =>
    intro rw h
    have e1 := clear_self rw.1 [] env rw.2
    have e2 := clear_log rw.1 [] env rw.2
    have h2 : (pgresult.release env rw x).1.is_allocated = 0
        ∨ (pgresult.release env rw x).1.result = none := by
      rw [result_release_eq]
      simp only [e1]
      rcases h with h | h
      · exact Or.inl h
      · right
        split
        · rfl
        · exact h
    have h3 : (pgresult.release env rw x).2.log = rw.2.log := by
      rw [result_release_eq]
      simp only [e2]
      rcases h with h | h
      · have ha : ¬ (rw.1.is_allocated ≠ 0) := by simp [h]
        cases hres : rw.1.result with
        | none => simp
        | some res => simp only [if_neg ha, List.append_nil]
      · simp [h]
    simp only [pgresult.releases, List.foldl_cons]
    have := ih (pgresult.release env rw x) h2
    simp only [pgresult.releases] at this
    rw [this, h3]

/-- C19: over every sequence `lc` of `finish()` and finalizer calls on a live
connection, `PQfinish` is called `min lc.length 1` times: at most once, and
exactly once when the sequence is not empty.  Over every sequence `lr` of
`clear()` and finalizer calls on a Result with a handle, `PQclear` is called
exactly once (for a sequence that is not empty) when the Result is owned, and
never when it is borrowed, as the one built in `notice_recv` is. -/
theorem release_at_most_once (env : Env) (w : World) (c : pgconn_t) (conn : Ptr)
    (r : pgresult_t) (res : Ptr) (lc : List pgconn.Release) (lr : List pgresult.Release)
    (hc : c.conn = some conn) (hr : r.result = some res) :
    countNative "PQfinish" (pgconn.releases env (c, w) lc).2.log
      = countNative "PQfinish" w.log + min lc.length 1 ∧
    (r.is_allocated = LPGRESULT_IS_ALLOCATED →
      countNative "PQclear" (pgresult.releases env (r, w) lr).2.log
        = countNative "PQclear" w.log + min lr.length 1) ∧
    (r.is_allocated = LPGRESULT_IS_NOT_ALLOCATED →
      countNative "PQclear" (pgresult.releases env (r, w) lr).2.log
        = countNative "PQclear" w.log) := by
  refine ⟨?_, ?_, ?_⟩
  · cases lc with
    | nil => rfl
    | cons x rest =>
      have hf := finish_live c conn [] env w hc
      have e := conn_releases_finished env rest (pgconn.release env (c, w) x)
        (by rw [conn_release_eq]; exact hf.1)
      simp only [pgconn.releases, List.foldl_cons] at e ⊢
      rw [e, conn_release_eq]
      simp only [hf.2, countNative_append, countNative, List.length_cons]
      simp
  · intro ha
    cases lr with
    | nil => rfl
    | cons x rest =>
      have hne : r.is_allocated ≠ 0 := by rw [ha]; decide
      have e1 := clear_self r [] env w
      have e2 := clear_log r [] env w
      rw [if_pos hne] at e1
      simp only [hr, if_pos hne] at e2
      have e := result_releases_quiet env rest (pgresult.release env (r, w) x)
        (by rw [result_release_eq]; right; simp only [e1])
      simp only [pgresult.releases, List.foldl_cons] at e ⊢
      rw [e, result_release_eq]
      simp only [e2, countNative_append, countNative, List.length_cons]
      simp
  · intro ha
    have e := result_releases_quiet env lr (r, w) (Or.inl ha)
    rw [e]

/-- C19, at the sequences finish, finalizer, finish and clear, clear, finalizer
on the connection with the handle 7 and on an owned Result with the handle
9. -/
theorem release_at_most_once_witness :
    liveConn.conn = some 7 ∧
    (⟨5, LPGRESULT_IS_ALLOCATED, some 9⟩ : pgresult_t).result = some 9 ∧
    countNative "PQfinish"
      (pgconn.releases nullEnv (liveConn, emptyWorld) [.finish, .gc, .finish]).2.log = 1 ∧
    countNative "PQclear"
      (pgresult.releases nullEnv (⟨5, LPGRESULT_IS_ALLOCATED, some 9⟩, emptyWorld)
        [.clear, .clear, .gc]).2.log = 1 :=
  ⟨rfl, rfl,
    (release_at_most_once nullEnv emptyWorld liveConn 7 ⟨5, LPGRESULT_IS_ALLOCATED, some 9⟩ 9
      [.finish, .gc, .finish] [.clear, .clear, .gc] rfl rfl).1,
    (release_at_most_once nullEnv emptyWorld liveConn 7 ⟨5, LPGRESULT_IS_ALLOCATED, some 9⟩ 9
      [.finish, .gc, .finish] [.clear, .clear, .gc] rfl rfl).2.1 rfl⟩

/-! ## Claim on `get_result` -/

/-- C20, as stated, fails: on a live connection whose `PQgetResult` yields
null (nothing further to deliver) while `PQerrorMessage` still holds the text
of an earlier error, `get_result()` returns `nil` and an error, not zero
values. -/
theorem get_result_null_with_message :
    (staleErrorEnv.reply 0 "PQgetResult" [.ptr 7]).ptr = none ∧
    (pgconn.get_result_lua liveConn [] staleErrorEnv emptyWorld).ret
      = .values [.nil, .errno 125 "PQgetResult" (some "ERROR:  division by zero\n")] :=
  ⟨rfl, rfl⟩

/-- C20 (amended): on a live connection `get_result()` returns a Result, which
owns the handle, when `PQgetResult` yields one; when it yields null, the call
returns zero values if `PQerrorMessage` is null or empty, and `nil` with an
error that carries the message if `PQerrorMessage` is not empty. -/
theorem get_result_cases (c : pgconn_t) (conn : Ptr) (args : List LVal) (env : Env) (w : World)
    (hc : c.conn = some conn) :
    (∀ res, (env.reply w.log.length "PQgetResult" [.ptr conn]).ptr = some res →
      (pgconn.get_result_lua c args env w).ret
        = .values [.pgresult ⟨env.newref w.refs, LPGRESULT_IS_ALLOCATED, some res⟩]) ∧
    ((env.reply w.log.length "PQgetResult" [.ptr conn]).ptr = none →
      ((env.reply (w.log.length + 1) "PQerrorMessage" [.ptr conn]).str = none ∨
       (env.reply (w.log.length + 1) "PQerrorMessage" [.ptr conn]).str = some "") →
      (pgconn.get_result_lua c args env w).ret = .values []) ∧
    ((env.reply w.log.length "PQgetResult" [.ptr conn]).ptr = none →
      ∀ msg, (env.reply (w.log.length + 1) "PQerrorMessage" [.ptr conn]).str = some msg →
      msg ≠ "" →
      ∃ e, (pgconn.get_result_lua c args env w).ret
        = .values [.nil, .errno e "PQgetResult" (some msg)]) := by
  have h1 := pgconn_check_live c conn hc
  refine ⟨?_, ?_, ?_⟩
  · intro res hres
    simp only [pgconn.get_result_lua, h1, World.native, World.clearErrno, hres, pgconn.newResult,
      World.luaL_ref]
  · intro hnull hmsg
    rcases hmsg with hm | hm
    · simp only [pgconn.get_result_lua, h1, World.native, World.clearErrno, hnull,
        List.length_append, List.length_singleton, hm]
    · simp only [pgconn.get_result_lua, h1, World.native, World.clearErrno, hnull,
        List.length_append, List.length_singleton, hm, ne_eq, not_true_eq_false, if_false]
  · intro hnull msg hm hne
    simp only [pgconn.get_result_lua, h1, World.native, World.clearErrno, hnull,
      List.length_append, List.length_singleton, hm, ne_eq, hne, not_false_eq_true, if_true]
    exact ⟨_, rfl⟩

/-- C20 (amended), on the connection with the handle 7 when libpq answers null
to both calls: `get_result()` returns zero values. -/
theorem get_result_cases_witness :
    liveConn.conn = some 7 ∧
    (pgconn.get_result_lua liveConn [] nullEnv emptyWorld).ret = .values [] :=
  ⟨rfl, (get_result_cases liveConn 7 [] nullEnv emptyWorld rfl).2.1 rfl (Or.inl rfl)⟩

/-! ## Claim on the notice callbacks -/

theorem lua_insert_concat (s : List LVal) (x : LVal) (idx : Nat) :
    pgconn.lua_insert (s ++ [x]) idx = s.take (idx - 1) ++ x :: s.drop (idx - 1) := by
  simp [pgconn.lua_insert]

theorem upvalue_extra (a fnv : LVal) (es : List LVal) (j : Nat) (x : LVal)
    (h : es.get? j = some x) :
    pgconn.upvalue (a :: fnv :: es) (2 + (j + 1)) = x := by
  have e : 2 + (j + 1) - 1 = j + 2 := by omega
  have h0 : ¬ (2 + (j + 1) = 0) := by omega
  simp only [pgconn.upvalue, h0, if_false, e, List.get?_cons_succ, h, Option.getD_some]

theorem closureLoop_spec (a fnv : LVal) (es args : List LVal) :
    ∀ (n j : Nat), n + j = es.length →
      pgconn.closureLoop (a :: fnv :: es) args.length n (j + 1) (fnv :: es.take j ++ args)
        = fnv :: es ++ args := by
  intro n
  induction n with
  | zero =>
    intro j hj
    have e : es.take j = es := List.take_of_length_le (by omega)
    simp only [pgconn.closureLoop, e]
  | succ n ih =>
    intro j hj
    have hlt : j < es.length := by omega
    have hx : es.get? j = some (es.get ⟨j, hlt⟩) := List.get?_eq_get hlt
    have hu := upvalue_extra a fnv es j _ hx
    have ht : es.take (j + 1) = es.take j ++ [es.get ⟨j, hlt⟩] := by
      rw [List.take_succ, List.getElem?_eq_getElem hlt]
      rfl
    have hlen : (es.take j).length = j := by
      rw [List.length_take]
      omega
    have hstep : (if args.length ≠ 0 then
          pgconn.lua_insert ((fnv :: es.take j ++ args) ++ [es.get ⟨j, hlt⟩]) (1 + (j + 1))
        else (fnv :: es.take j ++ args) ++ [es.get ⟨j, hlt⟩])
        = fnv :: es.take (j + 1) ++ args := by
      by_cases hn : args.length ≠ 0
      · rw [if_pos hn, lua_insert_concat]
        have e1 : 1 + (j + 1) - 1 = j + 1 := by omega
        rw [e1, ht]
        have e2 : (fnv :: es.take j ++ args).take (j + 1) = fnv :: es.take j := by
          rw [List.cons_append, List.take_succ_cons, List.take_append_of_le_length (by omega),
            List.take_of_length_le (by omega)]
        have e3 : (fnv :: es.take j ++ args).drop (j + 1) = args := by
          rw [List.cons_append, List.drop_succ_cons, List.drop_append_of_le_length (by omega),
            List.drop_of_length_le (by omega), List.nil_append]
        rw [e2, e3]
        simp only [List.cons_append, List.append_assoc, List.singleton_append, List.nil_append]
      · rw [if_neg hn]
        have e0 : args = [] := by
          cases args with
          | nil => rfl
          | cons x xs => simp at hn
        subst e0
        rw [ht]
        simp
    have := ih (j + 1) (by omega)
    rw [pgconn.closureLoop]
    simp only [hu]
    rw [hstep]
    exact this

theorem notice_closure_spec (f : LVal) (es args : List LVal) (w : World) :
    pgconn.notice_closure (.integer es.length :: f :: es) args w
      = { w with log := w.log ++ [.lua_call f (es ++ args)] } := by
  have h1 : pgconn.lua_tointeger (pgconn.upvalue (.integer es.length :: f :: es) 1)
      = (es.length : Int) := rfl
  have h2 : pgconn.upvalue (.integer es.length :: f :: es) 2 = f := rfl
  have h3 : (if args.length ≠ 0 then pgconn.lua_insert (args ++ [f]) 1 else args ++ [f])
      = f :: es.take 0 ++ args := by
    by_cases hn : args.length ≠ 0
    · rw [if_pos hn, lua_insert_concat]
      simp
    · rw [if_neg hn]
      have e0 : args = [] := by
        cases args with
        | nil => rfl
        | cons x xs => simp at hn
      subst e0
      simp
  have h4 := closureLoop_spec (.integer es.length) f es args es.length 0 (by omega)
  simp only [Nat.zero_add] at h4
  simp only [pgconn.notice_closure, h1, h2, Int.toNat_ofNat]
  rw [h3, h4]
  simp only [pgconn.callStack, List.length_cons, List.length_append]
  have e1 : es.length + 1 + args.length - (es.length + args.length) - 1 = 0 := by omega
  have e2 : es.length + 1 + args.length - (es.length + args.length) = 1 := by omega
  rw [e1, e2]
  simp

theorem checkself_live (c : pgconn_t) (conn : Ptr) (hc : c.conn = some conn) :
    pgconn.checkself c = .ok (c, conn) := by
  simp only [pgconn.checkself, hc]

theorem push_notice_closure_function (id : Nat) (es : List LVal) :
    pgconn.push_notice_closure (.function id :: es)
      = .ok (.closure (.integer es.length :: .function id :: es)) := by
  have h1 : ¬ (lua_type (argAt (.function id :: es) 2) ≠ .LUA_TFUNCTION) := by
    simp [argAt, lua_type]
  have h2 : pgconn.lua_gettop (.function id :: es) - 2 = (es.length : Int) :=
    gettop_sub_two _ _
  simp only [pgconn.push_notice_closure, h1, if_false, h2]

theorem lua_call_closure (f : LVal) (es args : List LVal) (w : World) :
    (pgconn.lua_call w (.closure (.integer es.length :: f :: es)) args).log
      = w.log ++ [.lua_call f (es ++ args)] := by
  simp only [pgconn.lua_call, notice_closure_spec]

/-- C15, as stated, fails for `k = 1`: after `set_notice_processor(fn, "ctx")`
both the trampoline `notice_proc` with the message "msg" and
`call_notice_processor("msg")` call `fn("ctx", "msg")`, the further argument
first. -/
theorem notice_extra_args_first :
    (pgconn.notice_proc
        (pgconn.set_notice_processor_lua liveConn [.function 1, .string "ctx"]
          nullEnv emptyWorld).self
        (some "msg")
        (pgconn.set_notice_processor_lua liveConn [.function 1, .string "ctx"]
          nullEnv emptyWorld).world).log
      = [.native "PQsetNoticeProcessor" [.ptr 7, .fn "notice_proc", .self],
         .lua_call (.function 1) [.string "ctx", .string "msg"]] ∧
    (pgconn.call_notice_processor_lua
        (pgconn.set_notice_processor_lua liveConn [.function 1, .string "ctx"]
          nullEnv emptyWorld).self
        [.string "msg"] nullEnv
        (pgconn.set_notice_processor_lua liveConn [.function 1, .string "ctx"]
          nullEnv emptyWorld).world).world.log
      = [.native "PQsetNoticeProcessor" [.ptr 7, .fn "notice_proc", .self],
         .lua_call (.function 1) [.string "ctx", .string "msg"]] :=
  ⟨rfl, rfl⟩

theorem isnoneornil_function (id : Nat) (es : List LVal) :
    pgconn.lua_isnoneornil (argAt (.function id :: es) 2) = false := by
  simp [pgconn.lua_isnoneornil, argAt, lua_type]

theorem set_notice_processor_installed (c : pgconn_t) (conn : Ptr) (id : Nat) (es : List LVal)
    (env : Env) (w : World) (hc : c.conn = some conn)
    (href : ∀ n, env.newref n ≠ LUA_NOREF) :
    Installed (pgconn.set_notice_processor_lua c (.function id :: es) env w).self.notice_proc_ref
      (.function id) es (pgconn.set_notice_processor_lua c (.function id :: es) env w).world := by
  simp only [pgconn.set_notice_processor_lua, checkself_live c conn hc, isnoneornil_function,
    push_notice_closure_function, Bool.false_eq_true, not_false_eq_true, if_true]
  generalize (if c.notice_proc_ref ≠ LUA_NOREF then
      (({ c with notice_proc_ref := LUA_NOREF } : pgconn_t), w.lauxh_unref c.notice_proc_ref)
    else (c, w)) = p
  split <;> simp [Installed, World.native, World.luaL_ref, href]

theorem set_notice_receiver_installed (c : pgconn_t) (conn : Ptr) (id : Nat) (es : List LVal)
    (env : Env) (w : World) (hc : c.conn = some conn)
    (href : ∀ n, env.newref n ≠ LUA_NOREF) :
    Installed (pgconn.set_notice_receiver_lua c (.function id :: es) env w).self.notice_recv_ref
      (.function id) es (pgconn.set_notice_receiver_lua c (.function id :: es) env w).world := by
  simp only [pgconn.set_notice_receiver_lua, checkself_live c conn hc, isnoneornil_function,
    push_notice_closure_function, Bool.false_eq_true, not_false_eq_true, if_true]
  generalize (if c.notice_recv_ref ≠ LUA_NOREF then
      (({ c with notice_recv_ref := LUA_NOREF } : pgconn_t), w.lauxh_unref c.notice_recv_ref)
    else (c, w)) = p
  split <;> simp [Installed, World.native, World.luaL_ref, href]

/-- C15 (amended): after `set_notice_processor(fn, e_1, ..., e_k)` or
`set_notice_receiver(fn, e_1, ..., e_k)` on a live connection, for every
`k ≥ 0`, the closure for `fn` and `e_1, ..., e_k` is installed under the new
reference; and while it is, every dispatch, by the trampoline `notice_proc` or
`notice_recv` that libpq calls or by `call_notice_processor` or
`call_notice_receiver`, calls `fn(e_1, ..., e_k, message_or_result)`: the
further arguments come first, in installation order, and the message or the
Result is the last argument.  The Result that `notice_recv` passes is
borrowed. -/
theorem notice_callback_args (c : pgconn_t) (conn : Ptr) (id : Nat) (es : List LVal)
    (env : Env) (w : World) (hc : c.conn = some conn) (href : ∀ n, env.newref n ≠ LUA_NOREF) :
    Installed (pgconn.set_notice_processor_lua c (.function id :: es) env w).self.notice_proc_ref
      (.function id) es (pgconn.set_notice_processor_lua c (.function id :: es) env w).world ∧
    Installed (pgconn.set_notice_receiver_lua c (.function id :: es) env w).self.notice_recv_ref
      (.function id) es (pgconn.set_notice_receiver_lua c (.function id :: es) env w).world ∧
    (∀ (c1 : pgconn_t) (env2 : Env) (w2 : World) (msg : String),
      c1.conn ≠ none → Installed c1.notice_proc_ref (.function id) es w2 →
      (pgconn.notice_proc c1 (some msg) w2).log
        = w2.log ++ [.lua_call (.function id) (es ++ [.string msg])] ∧
      (pgconn.call_notice_processor_lua c1 [.string msg] env2 w2).world.log
        = w2.log ++ [.lua_call (.function id) (es ++ [.string msg])]) ∧
    (∀ (c1 : pgconn_t) (env2 : Env) (w2 : World) (res : Ptr) (bottom : LVal) (r : pgresult_t),
      c1.conn ≠ none → Installed c1.notice_recv_ref (.function id) es w2 →
      (pgconn.notice_recv c1 res bottom env2 w2).log
        = w2.log ++ [.lua_call (.function id)
            (es ++ [.pgresult ⟨env2.newref w2.refs, LPGRESULT_IS_NOT_ALLOCATED, some res⟩])] ∧
      (pgconn.call_notice_receiver_lua c1 [.pgresult r] env2 w2).world.log
        = w2.log ++ [.lua_call (.function id) (es ++ [.pgresult r])]) := by
  refine ⟨set_notice_processor_installed c conn id es env w hc href,
    set_notice_receiver_installed c conn id es env w hc href, ?_, ?_⟩
  · intro c1 env2 w2 msg hlive hin
    obtain ⟨conn1, hc1⟩ := Option.ne_none_iff_exists'.mp hlive
    have hreg : w2.lauxh_pushref c1.notice_proc_ref
        = .closure (.integer es.length :: .function id :: es) := by
      simp only [World.lauxh_pushref, hin.2, Option.getD_some]
    have harg : argAt [LVal.string msg] 2 = some (.string msg) := rfl
    constructor
    · simp only [pgconn.notice_proc, hreg, lua_call_closure, lua_pushstring]
    · simp only [pgconn.call_notice_processor_lua, checkself_live c1 conn1 hc1, harg, hin.1,
        if_false, hreg, lua_call_closure]
  · intro c1 env2 w2 res bottom r hlive hin
    obtain ⟨conn1, hc1⟩ := Option.ne_none_iff_exists'.mp hlive
    have hreg : w2.lauxh_pushref c1.notice_recv_ref
        = .closure (.integer es.length :: .function id :: es) := by
      simp only [World.lauxh_pushref, hin.2, Option.getD_some]
    have harg : argAt [LVal.pgresult r] 2 = some (.pgresult r) := rfl
    constructor
    · simp only [pgconn.notice_recv, hreg, lua_call_closure, World.luaL_ref]
    · simp only [pgconn.call_notice_receiver_lua, checkself_live c1 conn1 hc1, harg, hin.1,
        if_false, hreg, lua_call_closure]

/-- C15 (amended), at `set_notice_receiver(fn, "a", "b")` on the connection
with the handle 7: a notice with the result handle 9 calls `fn("a", "b",
result)` with a borrowed Result. -/
theorem notice_callback_args_witness :
    liveConn.conn = some 7 ∧ (∀ n, nullEnv.newref n ≠ LUA_NOREF) ∧
    (pgconn.notice_recv
        (pgconn.set_notice_receiver_lua liveConn [.function 1, .string "a", .string "b"]
          nullEnv emptyWorld).self
        9 .pgconn nullEnv
        (pgconn.set_notice_receiver_lua liveConn [.function 1, .string "a", .string "b"]
          nullEnv emptyWorld).world).log
      = (pgconn.set_notice_receiver_lua liveConn [.function 1, .string "a", .string "b"]
          nullEnv emptyWorld).world.log
        ++ [.lua_call (.function 1)
            ([.string "a", .string "b"]
              ++ [.pgresult ⟨1, LPGRESULT_IS_NOT_ALLOCATED, some 9⟩])] :=
  ⟨rfl, fun n => by simp [nullEnv, LUA_NOREF],
    ((notice_callback_args liveConn 7 1 [.string "a", .string "b"] nullEnv emptyWorld rfl
        (fun n => by simp [nullEnv, LUA_NOREF])).2.2.2
      (pgconn.set_notice_receiver_lua liveConn [.function 1, .string "a", .string "b"]
        nullEnv emptyWorld).self nullEnv
      (pgconn.set_notice_receiver_lua liveConn [.function 1, .string "a", .string "b"]
        nullEnv emptyWorld).world 9 .pgconn ⟨0, 0, none⟩ 
        (by show (some (7 : Ptr)) ≠ none; simp)
      (notice_callback_args liveConn 7 1 [.string "a", .string "b"] nullEnv emptyWorld rfl
        (fun n => by simp [nullEnv, LUA_NOREF])).2.1).1⟩

/-! ## Claims on `is_busy` -/

theorem consumeReply_shift (env : Env) (conn : Ptr) (w w2 : World) (i : Nat)
    (h : w2.log.length = w.log.length + 2) :
    consumeReply env conn w2 i = consumeReply env conn w (i + 1) ∧
    busyReply env conn w2 i = busyReply env conn w (i + 1) ∧
    consumeErrno env conn w2 i = consumeErrno env conn w (i + 1) := by
  have e1 : w2.log.length + 2 * i = w.log.length + 2 * (i + 1) := by omega
  have e2 : w2.log.length + 2 * i + 1 = w.log.length + 2 * (i + 1) + 1 := by omega
  simp only [consumeReply, busyReply, consumeErrno, e1, e2, and_self]

theorem retries_shift (env : Env) (conn : Ptr) (w w2 : World) (i : Nat)
    (h : w2.log.length = w.log.length + 2) :
    Retries env conn w2 i ↔ Retries env conn w (i + 1) := by
  obtain ⟨a, b, c⟩ := consumeReply_shift env conn w w2 i h
  simp only [Retries, a, b, c]

theorem afterPass_log (env : Env) (conn : Ptr) (w : World) :
    (afterPass env conn w).log = w.log ++ [.native "PQconsumeInput" [.ptr conn],
      .native "PQisBusy" [.ptr conn]] := by
  simp [afterPass, World.native, World.clearErrno]

/-- One pass of `is_busy_lua`, in terms of the replies of pass 0. -/
theorem is_busy_retry_succ (env : Env) (c : pgconn_t) (conn : Ptr) (fuel : Nat) (w : World) :
    pgconn.is_busy_retry env c conn (fuel + 1) w =
      if (consumeReply env conn w 0).int ≠ 0 then
        if (busyReply env conn w 0).int = 0 then
          some ⟨.values [.boolean false], c, afterPass env conn w⟩
        else if Again env (consumeErrno env conn w 0) then
          some ⟨.values [.boolean true], c, afterPass env conn w⟩
        else pgconn.is_busy_retry env c conn fuel (afterPass env conn w)
      else
        some ⟨(pgconn.fail env (w.clearErrno.native env "PQconsumeInput" [.ptr conn]).2 conn
            (.boolean false) "PQconsumeInput").1, c,
          (pgconn.fail env (w.clearErrno.native env "PQconsumeInput" [.ptr conn]).2 conn
            (.boolean false) "PQconsumeInput").2⟩ := by
  simp only [pgconn.is_busy_retry, World.native, World.clearErrno, consumeReply, busyReply,
    consumeErrno, Again, Nat.mul_zero, Nat.add_zero, List.length_append, List.length_singleton,
    decide_eq_true_eq, Bool.decide_or, Bool.or_eq_true, afterPass]

/-- What a call of `is_busy` that returns has done: after `n` passes that
jumped back to `RETRY`, pass `n` ended the call in one of three ways. -/
theorem is_busy_retry_trace (env : Env) (c : pgconn_t) (conn : Ptr) (fuel : Nat) :
    ∀ (w : World) (r : CallResult pgconn_t), pgconn.is_busy_retry env c conn fuel w = some r →
      ∃ n, n < fuel ∧ (∀ i, i < n → Retries env conn w i) ∧
        countNative "PQconsumeInput" r.world.log
          = countNative "PQconsumeInput" w.log + (n + 1) ∧
        (((consumeReply env conn w n).int ≠ 0 ∧ (busyReply env conn w n).int = 0 ∧
            r.ret = .values [.boolean false]) ∨
         ((consumeReply env conn w n).int ≠ 0 ∧ (busyReply env conn w n).int ≠ 0 ∧
            Again env (consumeErrno env conn w n) ∧ r.ret = .values [.boolean true]) ∨
         ((consumeReply env conn w n).int = 0 ∧
            ∃ e msg, r.ret = .values [.boolean false, .errno e "PQconsumeInput" msg])) := by
  induction fuel with
  | zero => intro w r h; simp [pgconn.is_busy_retry] at h
  | succ fuel ih =>
    intro w r h
    have hlog := afterPass_log env conn w
    rw [is_busy_retry_succ] at h
    generalize afterPass env conn w = w2 at h hlog
    have hcount : countNative "PQconsumeInput" w2.log
        = countNative "PQconsumeInput" w.log + 1 := by
      rw [hlog, countNative_append]
      rfl
    by_cases h1 : (consumeReply env conn w 0).int ≠ 0
    · rw [if_pos h1] at h
      by_cases h2 : (busyReply env conn w 0).int = 0
      · rw [if_pos h2] at h
        simp only [Option.some.injEq] at h
        subst h
        exact ⟨0, by omega, fun i hi => absurd hi (by omega), hcount, Or.inl ⟨h1, h2, rfl⟩⟩
      · rw [if_neg h2] at h
        by_cases h3 : Again env (consumeErrno env conn w 0)
        · rw [if_pos h3] at h
          simp only [Option.some.injEq] at h
          subst h
          exact ⟨0, by omega, fun i hi => absurd hi (by omega), hcount,
            Or.inr (Or.inl ⟨h1, h2, h3, rfl⟩)⟩
        · rw [if_neg h3] at h
          have hlen : w2.log.length = w.log.length + 2 := by rw [hlog]; simp
          obtain ⟨n, hn, hall, hc, hlast⟩ := ih w2 r h
          refine ⟨n + 1, by omega, ?_, by rw [hc, hcount]; omega, ?_⟩
          · intro i hi
            cases i with
            | zero => exact ⟨h1, h2, h3⟩
            | succ j => exact (retries_shift env conn w w2 j hlen).mp (hall j (by omega))
          · obtain ⟨a, b, d⟩ := consumeReply_shift env conn w w2 n hlen
            rw [a, b, d] at hlast
            exact hlast
    · rw [if_neg h1] at h
      simp only [Option.some.injEq] at h
      subst h
      refine ⟨0, by omega, fun i hi => absurd hi (by omega), ?_, Or.inr (Or.inr ⟨?_, ?_⟩)⟩
      · simp only [fail_log, World.native, World.clearErrno, countNative_append]
        rfl
      · simpa using h1
      · exact ⟨_, _, rfl⟩

/-- A first pass that does not jump back ends the call, whatever the fuel. -/
theorem is_busy_retry_first (env : Env) (c : pgconn_t) (conn : Ptr) (w : World)
    (h0 : ¬ Retries env conn w 0) :
    ∃ r : CallResult pgconn_t,
      (∀ fuel, 1 ≤ fuel → pgconn.is_busy_retry env c conn fuel w = some r) ∧
      countNative "PQconsumeInput" r.world.log = countNative "PQconsumeInput" w.log + 1 := by
  have hstep : ∀ f, pgconn.is_busy_retry env c conn (f + 1) w
      = pgconn.is_busy_retry env c conn 1 w := by
    intro f
    rw [is_busy_retry_succ, is_busy_retry_succ]
    by_cases h1 : (consumeReply env conn w 0).int ≠ 0
    · rw [if_pos h1, if_pos h1]
      by_cases h2 : (busyReply env conn w 0).int = 0
      · rw [if_pos h2, if_pos h2]
      · rw [if_neg h2, if_neg h2]
        by_cases h3 : Again env (consumeErrno env conn w 0)
        · rw [if_pos h3, if_pos h3]
        · exact absurd ⟨h1, h2, h3⟩ h0
    · rw [if_neg h1, if_neg h1]
  obtain ⟨r, hr⟩ : ∃ r, pgconn.is_busy_retry env c conn 1 w = some r := by
    rw [is_busy_retry_succ]
    by_cases h1 : (consumeReply env conn w 0).int ≠ 0
    · rw [if_pos h1]
      by_cases h2 : (busyReply env conn w 0).int = 0
      · rw [if_pos h2]; exact ⟨_, rfl⟩
      · rw [if_neg h2]
        by_cases h3 : Again env (consumeErrno env conn w 0)
        · rw [if_pos h3]; exact ⟨_, rfl⟩
        · exact absurd ⟨h1, h2, h3⟩ h0
    · rw [if_neg h1]; exact ⟨_, rfl⟩
  refine ⟨r, ?_, ?_⟩
  · intro fuel hf
    obtain ⟨f, rfl⟩ : ∃ f, fuel = f + 1 := ⟨fuel - 1, by omega⟩
    rw [hstep, hr]
  · obtain ⟨k, hk, _, hc, _⟩ := is_busy_retry_trace env c conn 1 w r hr
    have : k = 0 := by omega
    subst this
    exact hc

/-- A call of `is_busy` whose pass `n` does not jump back returns within
`n + 1` passes, whatever fuel beyond that it is given. -/
theorem is_busy_retry_returns (env : Env) (c : pgconn_t) (conn : Ptr) (n : Nat) :
    ∀ w : World, ¬ Retries env conn w n →
      ∃ (r : CallResult pgconn_t) (m : Nat), m ≤ n ∧
        (∀ fuel, m + 1 ≤ fuel → pgconn.is_busy_retry env c conn fuel w = some r) ∧
        countNative "PQconsumeInput" r.world.log
          = countNative "PQconsumeInput" w.log + (m + 1) := by
  induction n with
  | zero =>
    intro w hn
    obtain ⟨r, hret, hc⟩ := is_busy_retry_first env c conn w hn
    exact ⟨r, 0, le_refl _, hret, hc⟩
  | succ n ih =>
    intro w hn
    by_cases h0 : Retries env conn w 0
    · have hlen : (afterPass env conn w).log.length = w.log.length + 2 := by
        rw [afterPass_log]; simp
      have hn2 : ¬ Retries env conn (afterPass env conn w) n :=
        fun h => hn ((retries_shift env conn w _ n hlen).mp h)
      obtain ⟨r, m, hm, hret, hc⟩ := ih (afterPass env conn w) hn2
      refine ⟨r, m + 1, by omega, ?_, ?_⟩
      · intro fuel hf
        obtain ⟨f, rfl⟩ : ∃ f, fuel = f + 1 := ⟨fuel - 1, by omega⟩
        obtain ⟨h1, h2, h3⟩ := h0
        rw [is_busy_retry_succ, if_pos h1, if_neg h2, if_neg h3]
        exact hret f (by omega)
      · rw [hc, afterPass_log, countNative_append]
        have : countNative "PQconsumeInput"
            [Event.native "PQconsumeInput" [Arg.ptr conn], Event.native "PQisBusy" [Arg.ptr conn]]
            = 1 := rfl
        rw [this]
        omega
    · obtain ⟨r, hret, hc⟩ := is_busy_retry_first env c conn w h0
      exact ⟨r, 0, by omega, hret, hc⟩

/-- C21: a call of `is_busy` on a live connection that returns has made
`n + 1` consume passes for some `n`.  Each of the passes before the last
succeeded with an `errno` other than `EAGAIN` and `EWOULDBLOCK` and left the
session busy, and the code consumed again after it instead of returning; the
last pass is not of that kind.  If the call returns the single value `true`,
the last pass succeeded with `errno` `EAGAIN` or `EWOULDBLOCK` and the session
was busy after it; if it returns the single value `false`, the last pass
succeeded and the session was not busy after it. -/
theorem is_busy_edge_triggered (fuel : Nat) (c : pgconn_t) (conn : Ptr) (args : List LVal)
    (env : Env) (w : World) (r : CallResult pgconn_t) (hc : c.conn = some conn)
    (h : pgconn.is_busy_lua fuel c args env w = some r) :
    ∃ n, (∀ i, i < n → Retries env conn w i) ∧ ¬ Retries env conn w n ∧
      countNative "PQconsumeInput" r.world.log
        = countNative "PQconsumeInput" w.log + (n + 1) ∧
      (r.ret = .values [.boolean true] →
        (consumeReply env conn w n).int ≠ 0 ∧ Again env (consumeErrno env conn w n) ∧
        (busyReply env conn w n).int ≠ 0) ∧
      (r.ret = .values [.boolean false] →
        (consumeReply env conn w n).int ≠ 0 ∧ (busyReply env conn w n).int = 0) := by
  simp only [pgconn.is_busy_lua, pgconn_check_live c conn hc] at h
  obtain ⟨n, _, hall, hcount, hlast⟩ := is_busy_retry_trace env c conn fuel w r h
  refine ⟨n, hall, ?_, hcount, ?_, ?_⟩
  · rintro ⟨a, b, d⟩
    rcases hlast with ⟨_, h2, _⟩ | ⟨_, _, h3, _⟩ | ⟨h1, _⟩
    · exact b h2
    · exact d h3
    · exact a h1
  · intro hret
    rcases hlast with ⟨_, _, h3⟩ | ⟨h1, h2, h3, _⟩ | ⟨_, e, msg, h3⟩
    · rw [hret] at h3; simp at h3
    · exact ⟨h1, h3, h2⟩
    · rw [hret] at h3; simp at h3
  · intro hret
    rcases hlast with ⟨h1, h2, _⟩ | ⟨_, _, _, h3⟩ | ⟨_, e, msg, h3⟩
    · exact ⟨h1, h2⟩
    · rw [hret] at h3; simp at h3
    · rw [hret] at h3; simp at h3

/-- C21, on a socket with data for two passes and `EAGAIN` in the third: the
call returns `true` after three consume passes. -/
theorem is_busy_edge_triggered_witness :
    liveConn.conn = some 7 ∧
    pgconn.is_busy_lua 3 liveConn [] drainEnv emptyWorld
      = some ⟨.values [.boolean true], liveConn,
          ⟨11, [.native "PQconsumeInput" [.ptr 7], .native "PQisBusy" [.ptr 7],
                .native "PQconsumeInput" [.ptr 7], .native "PQisBusy" [.ptr 7],
                .native "PQconsumeInput" [.ptr 7], .native "PQisBusy" [.ptr 7]],
            emptyWorld.registry, 0⟩⟩ ∧
    (∃ n, (∀ i, i < n → Retries drainEnv 7 emptyWorld i) ∧ ¬ Retries drainEnv 7 emptyWorld n ∧
      countNative "PQconsumeInput"
          [.native "PQconsumeInput" [.ptr 7], .native "PQisBusy" [.ptr 7],
           .native "PQconsumeInput" [.ptr 7], .native "PQisBusy" [.ptr 7],
           .native "PQconsumeInput" [.ptr 7], .native "PQisBusy" [.ptr 7]]
        = countNative "PQconsumeInput" emptyWorld.log + (n + 1) ∧
      (LuaRet.values [.boolean true] = .values [.boolean true] →
        (consumeReply drainEnv 7 emptyWorld n).int ≠ 0 ∧
        Again drainEnv (consumeErrno drainEnv 7 emptyWorld n) ∧
        (busyReply drainEnv 7 emptyWorld n).int ≠ 0) ∧
      (LuaRet.values [.boolean true] = .values [.boolean false] →
        (consumeReply drainEnv 7 emptyWorld n).int ≠ 0 ∧
        (busyReply drainEnv 7 emptyWorld n).int = 0)) :=
  ⟨rfl, rfl, is_busy_edge_triggered 3 liveConn 7 [] drainEnv emptyWorld _ rfl rfl⟩

/-- C26: on a live connection, if some pass `n` of the trace is not one that
succeeds with an `errno` other than `EAGAIN` and `EWOULDBLOCK` while the
session stays busy (it reports `EAGAIN` or `EWOULDBLOCK`, or fails, or the busy
flag is clear), then `is_busy` returns after at most `n + 1` consume passes:
every fuel of `m + 1` or more, for some `m ≤ n`, gives the same result, and
`PQconsumeInput` was called `m + 1` times.  If every pass of the trace is of
that kind the call never returns, whatever the fuel. -/
theorem is_busy_terminates (c : pgconn_t) (conn : Ptr) (args : List LVal) (env : Env) (w : World)
    (hc : c.conn = some conn) :
    (∀ n, ¬ Retries env conn w n →
      ∃ (r : CallResult pgconn_t) (m : Nat), m ≤ n ∧
        (∀ fuel, m + 1 ≤ fuel → pgconn.is_busy_lua fuel c args env w = some r) ∧
        countNative "PQconsumeInput" r.world.log
          = countNative "PQconsumeInput" w.log + (m + 1)) ∧
    ((∀ i, Retries env conn w i) → ∀ fuel, pgconn.is_busy_lua fuel c args env w = none) := by
  have e : ∀ fuel, pgconn.is_busy_lua fuel c args env w
      = pgconn.is_busy_retry env c conn fuel w := by
    intro fuel
    simp only [pgconn.is_busy_lua, pgconn_check_live c conn hc]
  constructor
  · intro n hn
    obtain ⟨r, m, hm, hret, hcount⟩ := is_busy_retry_returns env c conn n w hn
    exact ⟨r, m, hm, fun fuel hf => by rw [e]; exact hret fuel hf, hcount⟩
  · intro hall fuel
    rw [e]
    cases hr : pgconn.is_busy_retry env c conn fuel w with
    | none => rfl
    | some r =>
      obtain ⟨n, _, _, _, hlast⟩ := is_busy_retry_trace env c conn fuel w r hr
      obtain ⟨a, b, d⟩ := hall n
      rcases hlast with ⟨_, h2, _⟩ | ⟨_, _, h3, _⟩ | ⟨h1, _⟩
      · exact absurd h2 b
      · exact absurd h3 d
      · exact absurd h1 a

/-- C26, on a socket with data for two passes and `EAGAIN` in the third: pass 2
does not jump back, and the call returns with every fuel of 3 or more. -/
theorem is_busy_terminates_witness :
    liveConn.conn = some 7 ∧ ¬ Retries drainEnv 7 emptyWorld 2 ∧
    (∃ (r : CallResult pgconn_t) (m : Nat), m ≤ 2 ∧
      (∀ fuel, m + 1 ≤ fuel → pgconn.is_busy_lua fuel liveConn [] drainEnv emptyWorld = some r) ∧
      countNative "PQconsumeInput" r.world.log
        = countNative "PQconsumeInput" emptyWorld.log + (m + 1)) :=
  ⟨rfl, by decide,
    (is_busy_terminates liveConn 7 [] drainEnv emptyWorld rfl).1 2 (by decide)⟩

/-! ## Claims on the error records and on the enumerations -/

/-- C22 fails in the code for `connect` and `conninfo`: when libpq returns
null and leaves `errno` alone, the error record of `connect` and of `conninfo`
carries the `errno` the world had before the call, stale or 0, where `exec` and
the other operations reset `errno` before the call and report `ECANCELED`. -/
theorem connect_conninfo_errno (c : pgconn_t) (conn : Ptr) (s : String) (env : Env) (w : World)
    (hc : c.conn = some conn)
    (h1 : (env.reply w.log.length "PQconnectdb" [.str s]).ptr = none ∧
      (env.reply w.log.length "PQconnectdb" [.str s]).errno = none)
    (h2 : (env.reply w.log.length "PQconninfo" [.ptr conn]).ptr = none ∧
      (env.reply w.log.length "PQconninfo" [.ptr conn]).errno = none)
    (h3 : (env.reply w.log.length "PQexec" [.ptr conn, .str s]).ptr = none ∧
      (env.reply w.log.length "PQexec" [.ptr conn, .str s]).errno = none) :
    (pgconn.connect_lua [.string s] env w).ret = .values [.nil, .errno w.errno "connect" none] ∧
    (pgconn.conninfo_lua c [] env w).ret = .values [.nil, .errno w.errno "conninfo" none] ∧
    (pgconn.exec_lua c [.string s] env w).ret
      = .values [.nil, .errno env.ECANCELED "PQexec"
          (env.reply (w.log.length + 1) "PQerrorMessage" [.ptr conn]).str] := by
  have hcheck := pgconn_check_live c conn hc
  refine ⟨?_, ?_, ?_⟩
  · have a1 : lauxh_optstring 1 ([LVal.string s].get? 0) = .ok (some s) := rfl
    have a2 : lauxh_optboolean 2 false ([LVal.string s].get? 1) = .ok false := rfl
    simp only [pgconn.connect_lua, a1, a2, World.native, Option.getD_some, h1.1, h1.2,
      Option.getD_none, Bool.false_eq_true, if_false]
  · simp only [pgconn.conninfo_lua, hcheck, World.native, h2.1, h2.2, Option.getD_none]
  · have a1 : lauxh_checkstring 2 (argAt [LVal.string s] 2) = .ok s := rfl
    simp only [pgconn.exec_lua, hcheck, a1, World.native, World.clearErrno, pgconn.resultOrFail,
      h3.1, h3.2, Option.getD_none, pgconn.fail, World.orCanceled, if_true, List.length_append,
      List.length_singleton]

/-- C22, with a libpq that answers null and never sets `errno`: in a world with
`errno` 0 the error of `connect` carries errno 0, and in a world with the stale
`errno` 2 the error of `conninfo` carries 2. -/
theorem connect_conninfo_errno_witness :
    liveConn.conn = some 7 ∧
    (pgconn.connect_lua [.string "host=db"] nullEnv emptyWorld).ret
      = .values [.nil, .errno 0 "connect" none] ∧
    (pgconn.conninfo_lua liveConn [] nullEnv { emptyWorld with errno := 2 }).ret
      = .values [.nil, .errno 2 "conninfo" none] ∧
    (pgconn.exec_lua liveConn [.string "host=db"] nullEnv { emptyWorld with errno := 2 }).ret
      = .values [.nil, .errno 125 "PQexec" none] :=
  ⟨rfl,
    (connect_conninfo_errno liveConn 7 "host=db" nullEnv emptyWorld rfl
      ⟨rfl, rfl⟩ ⟨rfl, rfl⟩ ⟨rfl, rfl⟩).1,
    (connect_conninfo_errno liveConn 7 "host=db" nullEnv { emptyWorld with errno := 2 } rfl
      ⟨rfl, rfl⟩ ⟨rfl, rfl⟩ ⟨rfl, rfl⟩).2.1,
    (connect_conninfo_errno liveConn 7 "host=db" nullEnv { emptyWorld with errno := 2 } rfl
      ⟨rfl, rfl⟩ ⟨rfl, rfl⟩ ⟨rfl, rfl⟩).2.2⟩

/-- C23 fails in the code for the name "errors": each of the three names is
accepted, and the string produced for its value is the name again for "never"
and "always" but is "error" for "errors"; that string is refused as an
argument, so that the earlier value `set_error_context_visibility` returns is
not always accepted back. -/
theorem context_visibility_round_trip (s : String) (idx : Nat) (defval : String)
    (hs : s = "never" ∨ s = "errors" ∨ s = "always") :
    ∃ v, lpg_check_pg_context_visibility idx (some (.string s)) defval = .ok v ∧
      (lpg_pg_context_visibility_string v = s ↔ s ≠ "errors") ∧
      (s = "errors" →
        lpg_pg_context_visibility_string v = "error" ∧
        lpg_check_pg_context_visibility idx
          (some (.string (lpg_pg_context_visibility_string v))) defval = .error (.badarg idx)) := by
  rcases hs with h | h | h <;> subst h
  · exact ⟨PQSHOW_CONTEXT_NEVER, rfl, by decide, fun h => absurd h (by decide)⟩
  · exact ⟨PQSHOW_CONTEXT_ERRORS, rfl, by decide, fun _ => ⟨rfl, rfl⟩⟩
  · exact ⟨PQSHOW_CONTEXT_ALWAYS, rfl, by decide, fun h => absurd h (by decide)⟩

/-- C23, on a connection whose earlier visibility is `PQSHOW_CONTEXT_ERRORS`:
`set_error_context_visibility("always")` returns "error", and both
`set_error_context_visibility("error")` and `verbose_error_message("default",
"error")` raise an argument error. -/
theorem context_visibility_round_trip_witness :
    ("errors" = "never" ∨ "errors" = "errors" ∨ "errors" = "always") ∧
    (∃ v, lpg_check_pg_context_visibility 2 (some (.string "errors")) "errors" = .ok v ∧
      (lpg_pg_context_visibility_string v = "errors" ↔ "errors" ≠ "errors") ∧
      ("errors" = "errors" →
        lpg_pg_context_visibility_string v = "error" ∧
        lpg_check_pg_context_visibility 2
          (some (.string (lpg_pg_context_visibility_string v))) "errors" = .error (.badarg 2))) ∧
    (pgconn.set_error_context_visibility_lua liveConn [.string "always"] oneEnv emptyWorld).ret
      = .values [.string "error"] ∧
    (pgconn.set_error_context_visibility_lua liveConn [.string "error"] oneEnv emptyWorld).ret
      = .badarg 2 ∧
    (pgresult.verbose_error_message_lua ⟨5, LPGRESULT_IS_ALLOCATED, some 9⟩
      [.string "default", .string "error"] oneEnv emptyWorld).ret = .badarg 3 :=
  ⟨Or.inr (Or.inl rfl), context_visibility_round_trip "errors" 2 "errors" (Or.inr (Or.inl rfl)),
    rfl, rfl, rfl⟩

/-! ## Claim on the installation of notice callbacks -/

theorem push_notice_closure_other (v : LVal) (rest : List LVal)
    (hv : lua_type (some v) ≠ .LUA_TFUNCTION) :
    pgconn.push_notice_closure (v :: rest) = .error (.badarg 2) := by
  have h1 : lua_type (argAt (v :: rest) 2) ≠ .LUA_TFUNCTION := hv
  simp only [pgconn.push_notice_closure]
  rw [if_pos h1]

theorem isnoneornil_other (v : LVal) (rest : List LVal) (hv : lua_type (some v) ≠ .LUA_TNIL) :
    pgconn.lua_isnoneornil (argAt (v :: rest) 2) = false := by
  have h1 : argAt (v :: rest) 2 = some v := rfl
  have h2 : lua_type (some v) ≠ .LUA_TNONE := by cases v <;> simp [lua_type]
  simp [pgconn.lua_isnoneornil, h1, hv, h2]

/-- On the returning path the invariant "the saved default is not null exactly
when a reference is installed" is kept: if it holds before
`set_notice_processor`, a fresh reference is never `LUA_NOREF` and the
register function returns a handler that is not null, it holds after a call
that returns. -/
theorem set_notice_processor_keeps_invariant (c : pgconn_t) (conn : Ptr) (args : List LVal)
    (env : Env) (w : World) (hc : c.conn = some conn)
    (hinv : c.default_proc ≠ none ↔ c.notice_proc_ref ≠ LUA_NOREF)
    (href : ∀ n, env.newref n ≠ LUA_NOREF)
    (hreg : ∀ n a, (env.reply n "PQsetNoticeProcessor" a).ptr ≠ none)
    (hret : (pgconn.set_notice_processor_lua c args env w).ret = .values []) :
    (pgconn.set_notice_processor_lua c args env w).self.default_proc ≠ none ↔
      (pgconn.set_notice_processor_lua c args env w).self.notice_proc_ref ≠ LUA_NOREF := by
  have h1 := checkself_live c conn hc
  simp only [pgconn.set_notice_processor_lua, h1] at hret ⊢
  by_cases hr : c.notice_proc_ref ≠ LUA_NOREF
  · rw [if_pos hr] at hret ⊢
    have hd : c.default_proc ≠ none := hinv.mpr hr
    simp only at hret ⊢
    cases hnil : pgconn.lua_isnoneornil (argAt args 2) with
    | true =>
      obtain ⟨p, hp⟩ := Option.ne_none_iff_exists'.mp hd
      simp [hp]
    | false =>
      simp only [hnil, Bool.false_eq_true, not_false_eq_true, if_true] at hret ⊢
      cases hpush : pgconn.push_notice_closure args with
      | error e =>
        simp only [hpush] at hret
        cases args with
        | nil => simp [pgconn.push_notice_closure, argAt, lua_type] at hpush; subst hpush; simp at hret
        | cons v rest =>
          simp only [pgconn.push_notice_closure] at hpush
          split at hpush
          · simp only [Except.error.injEq] at hpush; subst hpush; simp at hret
          · cases hpush
      | ok closure =>
        simp only [hd, if_false, World.luaL_ref]
        simp [hd, href]
  · rw [if_neg hr] at hret ⊢
    have hd : c.default_proc = none := by
      by_contra h
      exact hr (hinv.mp h)
    have hr2 : c.notice_proc_ref = LUA_NOREF := by
      by_contra h
      exact hr h
    simp only at hret ⊢
    cases hnil : pgconn.lua_isnoneornil (argAt args 2) with
    | true => simp [hd, hr2]
    | false =>
      simp only [hnil, Bool.false_eq_true, not_false_eq_true, if_true] at hret ⊢
      cases hpush : pgconn.push_notice_closure args with
      | error e =>
        simp only [hpush] at hret
        cases args with
        | nil => simp [pgconn.push_notice_closure, argAt, lua_type] at hpush; subst hpush; simp at hret
        | cons v rest =>
          simp only [pgconn.push_notice_closure] at hpush
          split at hpush
          · simp only [Except.error.injEq] at hpush; subst hpush; simp at hret
          · cases hpush
      | ok closure =>
        simp only [hd, if_true, World.luaL_ref, World.native]
        simp [href, hreg]

/-- C27 fails in the code on the raising path: on a live connection, a call of
`set_notice_processor` or `set_notice_receiver` whose argument 2 is neither nil
nor a function raises an argument error after the old reference was released:
it leaves the reference at `LUA_NOREF` and the saved default as it was, which
is not null when a callback was installed. -/
theorem notice_invariant_broken_on_raise (c : pgconn_t) (conn : Ptr) (v : LVal)
    (rest : List LVal) (env : Env) (w : World) (hc : c.conn = some conn)
    (hv : lua_type (some v) ≠ .LUA_TNIL ∧ lua_type (some v) ≠ .LUA_TFUNCTION) :
    (pgconn.set_notice_processor_lua c (v :: rest) env w).ret = .badarg 2 ∧
    (pgconn.set_notice_processor_lua c (v :: rest) env w).self.notice_proc_ref = LUA_NOREF ∧
    (pgconn.set_notice_processor_lua c (v :: rest) env w).self.default_proc = c.default_proc ∧
    (pgconn.set_notice_receiver_lua c (v :: rest) env w).ret = .badarg 2 ∧
    (pgconn.set_notice_receiver_lua c (v :: rest) env w).self.notice_recv_ref = LUA_NOREF ∧
    (pgconn.set_notice_receiver_lua c (v :: rest) env w).self.default_recv = c.default_recv := by
  have h1 := checkself_live c conn hc
  have h2 := isnoneornil_other v rest hv.1
  have h3 := push_notice_closure_other v rest hv.2
  refine ⟨?_, ?_, ?_, ?_, ?_, ?_⟩
  · simp only [pgconn.set_notice_processor_lua, h1, h2, h3, Bool.false_eq_true,
      not_false_eq_true, if_true]
  · simp only [pgconn.set_notice_processor_lua, h1, h2, h3, Bool.false_eq_true,
      not_false_eq_true, if_true]
    split <;> simp_all
  · simp only [pgconn.set_notice_processor_lua, h1, h2, h3, Bool.false_eq_true,
      not_false_eq_true, if_true]
    split <;> rfl
  · simp only [pgconn.set_notice_receiver_lua, h1, h2, h3, Bool.false_eq_true,
      not_false_eq_true, if_true]
  · simp only [pgconn.set_notice_receiver_lua, h1, h2, h3, Bool.false_eq_true,
      not_false_eq_true, if_true]
    split <;> simp_all
  · simp only [pgconn.set_notice_receiver_lua, h1, h2, h3, Bool.false_eq_true,
      not_false_eq_true, if_true]
    split <;> rfl

/-- C27, at `set_notice_processor(fn)` followed by `set_notice_processor(42)`
on the connection with the handle 7: the first call installs the reference 0
and saves the default handler 1; the second raises and leaves no reference but
the saved default. -/
theorem notice_invariant_broken_on_raise_witness :
    (pgconn.set_notice_processor_lua liveConn [.function 1] oneEnv emptyWorld).self.conn
      = some 7 ∧
    (lua_type (some (.integer 42)) ≠ .LUA_TNIL ∧ lua_type (some (.integer 42)) ≠ .LUA_TFUNCTION) ∧
    (pgconn.set_notice_processor_lua liveConn [.function 1] oneEnv emptyWorld).self.notice_proc_ref
      = 0 ∧
    (pgconn.set_notice_processor_lua liveConn [.function 1] oneEnv emptyWorld).self.default_proc
      = some 1 ∧
    (pgconn.set_notice_processor_lua
        (pgconn.set_notice_processor_lua liveConn [.function 1] oneEnv emptyWorld).self
        [.integer 42] oneEnv
        (pgconn.set_notice_processor_lua liveConn [.function 1] oneEnv emptyWorld).world).ret
      = .badarg 2 ∧
    (pgconn.set_notice_processor_lua
        (pgconn.set_notice_processor_lua liveConn [.function 1] oneEnv emptyWorld).self
        [.integer 42] oneEnv
        (pgconn.set_notice_processor_lua liveConn [.function 1] oneEnv emptyWorld).world).self.notice_proc_ref
      = LUA_NOREF ∧
    (pgconn.set_notice_processor_lua
        (pgconn.set_notice_processor_lua liveConn [.function 1] oneEnv emptyWorld).self
        [.integer 42] oneEnv
        (pgconn.set_notice_processor_lua liveConn [.function 1] oneEnv emptyWorld).world).self.default_proc
      = some 1 :=
  ⟨rfl, by decide, rfl, rfl,
    (notice_invariant_broken_on_raise
      (pgconn.set_notice_processor_lua liveConn [.function 1] oneEnv emptyWorld).self 7
      (.integer 42) [] oneEnv
      (pgconn.set_notice_processor_lua liveConn [.function 1] oneEnv emptyWorld).world
      rfl (by decide)).1,
    (notice_invariant_broken_on_raise
      (pgconn.set_notice_processor_lua liveConn [.function 1] oneEnv emptyWorld).self 7
      (.integer 42) [] oneEnv
      (pgconn.set_notice_processor_lua liveConn [.function 1] oneEnv emptyWorld).world
      rfl (by decide)).2.1,
    (notice_invariant_broken_on_raise
      (pgconn.set_notice_processor_lua liveConn [.function 1] oneEnv emptyWorld).self 7
      (.integer 42) [] oneEnv
      (pgconn.set_notice_processor_lua liveConn [.function 1] oneEnv emptyWorld).world
      rfl (by decide)).2.2.1⟩

/-! ## Claim on the consumption bound -/

/-- What one iteration does to the offset and the budget: any directive other
than `L` keeps their sum and the message length; `L` is decoded only when no
message length was set, and leaves the budget of the frame. -/
theorem directive_sum (data : List Byte) (t : Char) (fmt : List Char) (st : UnpackState)
    (rest : List Char) (st1 : UnpackState) (h : directive data t fmt st = .next rest st1) :
    (t ≠ 'L' → st1.head + st1.len = st.head + st.len ∧ st1.msglen = st.msglen) ∧
    (t = 'L' → st.msglen = -1 ∧ st1.msglen = ntohl data st.head ∧ 4 ≤ ntohl data st.head ∧
      st1.head = st.head + 4 ∧ (st1.len : Int) = ntohl data st.head - 4 ∧ rest = fmt) := by
  unfold directive at h
  split at h
  · cases h
  · next unit label hty =>
    split at h
    · cases h
    · next k fmt1 hm =>
      simp only at h
      split at h
      · cases h
      · next hlen =>
        simp only [not_lt] at hlen
        split at h
        · cases h
        · next st2 hl =>
          simp only [Step.next.injEq] at h
          obtain ⟨rfl, rfl⟩ := h
          unfold typeSpecifier at hty
          unfold unpackLabel at hl
          split at hty
          · -- h
            next hth =>
            subst hth
            simp only [Except.ok.injEq, Prod.mk.injEq] at hty
            obtain ⟨rfl, rfl⟩ := hty
            obtain ⟨a, b, c, d, e⟩ := loopNtohs_fields data k { st with pre_iv := INTMAX_MIN }
            simp only [Except.ok.injEq] at hl
            subst hl
            refine ⟨fun _ => ?_, fun hL => absurd hL (by decide)⟩
            split <;> simp only [a, b, c] <;> constructor <;> first | omega | rfl | trivial
          · split at hty
            · -- L
              next htL =>
              subst htL
              split at hty
              · cases hty
              · next hms =>
                simp only [ne_eq, Decidable.not_not] at hms
                simp only [Except.ok.injEq, Prod.mk.injEq] at hty
                obtain ⟨rfl, rfl⟩ := hty
                obtain ⟨rfl, rfl⟩ := lengthModifier_L _ _ _ _ hm
                obtain ⟨a, b, c, d, e⟩ := loopNtohl_fields data 1 { st with pre_iv := INTMAX_MIN }
                simp only [if_true] at hl
                split at hl
                · cases hl
                · split at hl
                  · cases hl
                  · next h4 hlt =>
                    simp only [Except.ok.injEq] at hl
                    subst hl
                    simp only [b, not_lt] at hlt h4
                    refine ⟨fun hL => absurd rfl hL, fun _ => ⟨hms, ?_, h4, ?_, ?_, rfl⟩⟩
                    · split <;> rfl
                    · split <;> simp only [a]
                    · split <;> simp only <;> omega
            · split at hty
              · -- i
                next hnL hti =>
                simp only [Except.ok.injEq, Prod.mk.injEq] at hty
                obtain ⟨rfl, rfl⟩ := hty
                obtain ⟨a, b, c, d, e⟩ := loopNtohl_fields data k { st with pre_iv := INTMAX_MIN }
                simp only [hnL, if_false, Except.ok.injEq] at hl
                subst hl
                refine ⟨fun _ => ?_, fun hL => absurd hL hnL⟩
                split <;> simp only [a, b, c] <;> constructor <;> first | omega | rfl | trivial
              · split at hty
                · -- s
                  next hnL _ _ =>
                  simp only [Except.ok.injEq, Prod.mk.injEq] at hty
                  obtain ⟨rfl, rfl⟩ := hty
                  obtain ⟨a, b, c, d, e⟩ := loopString_fields data k _ _ hl
                  simp only at a b c d e
                  exact ⟨fun _ => ⟨a, c⟩, fun hL => absurd hL hnL⟩
                · split at hty
                  · -- b
                    next hnL _ _ _ =>
                    simp only [Except.ok.injEq, Prod.mk.injEq] at hty
                    obtain ⟨rfl, rfl⟩ := hty
                    simp only [Except.ok.injEq] at hl
                    subst hl
                    refine ⟨fun _ => ⟨?_, rfl⟩, fun hL => absurd hL hnL⟩
                    simp only
                    omega
                  · cases hty

/-- Once a message length is set, the loop never consumes beyond a bound on
offset plus budget. -/
theorem unpackLoop_framed (data : List Byte) (B : Int) (fuel : Nat) :
    ∀ (fmt : List Char) (st : UnpackState) (c : Nat) (T : LuaTable), st.msglen ≠ -1 →
      ((st.head + st.len : Nat) : Int) ≤ B →
      unpackLoop data fuel fmt st = some ⟨.consumed c, T⟩ → (c : Int) ≤ B := by
  induction fuel with
  | zero =>
    intro fmt st c T _ hb h
    cases fmt with
    | nil =>
      simp only [unpackLoop, Option.some.injEq, UnpackResult.mk.injEq, Outcome.consumed.injEq] at h
      omega
    | cons t cs => simp [unpackLoop] at h
  | succ n ih =>
    intro fmt st c T hm hb h
    cases fmt with
    | nil =>
      simp only [unpackLoop, Option.some.injEq, UnpackResult.mk.injEq, Outcome.consumed.injEq] at h
      omega
    | cons t cs =>
      simp only [unpackLoop] at h
      split at h
      · simp only [Option.some.injEq, UnpackResult.mk.injEq, Outcome.consumed.injEq] at h
        omega
      · split at h
        · next r hd =>
          simp only [Option.some.injEq] at h
          subst h
          exact absurd rfl (directive_done_outcome _ _ _ _ _ hd c)
        · next rest st1 hd =>
          obtain ⟨h1, h2⟩ := directive_sum _ _ _ _ _ _ hd
          have htL : t ≠ 'L' := fun e => hm (h2 e).1
          obtain ⟨a, b⟩ := h1 htL
          exact ih rest st1 c T (by rw [b]; exact hm) (by rw [a]; exact hb) h

/-- C24: when `unpack(F, D)` succeeds with the consumed count `c`, then
`c ≤ |D|` (and `0 ≤ c`, a count of bytes), and if the decoding reaches an `L`
directive at the offset `p`, which then decodes the value `m` there, then
`c ≤ p + m`, however much data follows the frame. -/
theorem unpack_consumed_bound (out : LuaTable) (fmt : List Char) (data : List Byte) (c : Nat)
    (T : LuaTable) (h : unpack_lua out fmt data = some ⟨.consumed c, T⟩) :
    c ≤ data.length ∧
    ∀ (n : Nat) (rest : List Char) (st : UnpackState),
      unpackIter data n fmt (initState out data) = some ('L' :: rest, st) →
      (c : Int) ≤ st.head + ntohl data st.head := by
  constructor
  · exact unpackLoop_consumed_le data fmt.length fmt _ c T (initState_budget out data) h
  · intro n rest st hit
    have e := unpack_lua_of_unpackIter out fmt data n _ st hit
    rw [h] at e
    simp only [List.length_cons, unpackLoop] at e
    have hL : ¬ ('L' = '\x00') := by decide
    simp only [hL, if_false] at e
    split at e
    · next r hd =>
      simp only [Option.some.injEq] at e
      subst e
      exact absurd rfl (directive_done_outcome _ _ _ _ _ hd c)
    · next rest1 st1 hd =>
      obtain ⟨_, h2⟩ := directive_sum _ _ _ _ _ _ hd
      obtain ⟨_, hm, h4, hhead, hlen, _⟩ := h2 rfl
      refine unpackLoop_framed data _ _ rest1 st1 c T ?_ ?_ e.symm
      · rw [hm]; omega
      · push_cast
        rw [hhead, hlen]
        push_cast
        omega

/-- C24, at the format "Lh" on a frame of 6 bytes followed by 3 more bytes:
the call consumes 6 bytes, which is at most 9 and at most 0 + 6. -/
theorem unpack_consumed_bound_witness :
    unpack_lua emptyTable ['L', 'h'] [0, 0, 0, 6, 0, 5, 9, 9, 9]
      = some ⟨.consumed 6,
          Function.update (Function.update emptyTable 1 (some (.integer 6))) 2
            (some (.integer 5))⟩ ∧
    6 ≤ ([0, 0, 0, 6, 0, 5, 9, 9, 9] : List Byte).length ∧
    ((6 : Nat) : Int) ≤ ((initState emptyTable [0, 0, 0, 6, 0, 5, 9, 9, 9]).head : Int)
      + ntohl [0, 0, 0, 6, 0, 5, 9, 9, 9] (initState emptyTable [0, 0, 0, 6, 0, 5, 9, 9, 9]).head :=
  ⟨rfl,
    (unpack_consumed_bound emptyTable ['L', 'h'] [0, 0, 0, 6, 0, 5, 9, 9, 9] 6 _ rfl).1,
    (unpack_consumed_bound emptyTable ['L', 'h'] [0, 0, 0, 6, 0, 5, 9, 9, 9] 6 _ rfl).2
      0 ['h'] _ rfl⟩

/-! ## Claim on the string directive -/

theorem memchr_takeWhile (l : List Byte) (h : 0 < l.count 0) :
    memchr 0 l = some (l.takeWhile (fun b => b != 0)).length := by
  induction l with
  | nil => simp at h
  | cons x xs ih =>
    by_cases hx : x = 0
    · subst hx
      simp [memchr]
    · have hc : 0 < xs.count 0 := by
        rw [List.count_cons] at h
        have : (x == 0) = false := by simpa using hx
        simp only [this] at h
        simpa using h
      have hb : (x != 0) = true := by simpa using hx
      simp only [memchr, hx, if_false, ih hc, Option.map_some', List.takeWhile_cons, hb, if_true,
        List.length_cons]

theorem take_takeWhile_length (l : List Byte) (p : Byte → Bool) :
    l.take (l.takeWhile p).length = l.takeWhile p := by
  induction l with
  | nil => rfl
  | cons x xs ih =>
    by_cases hx : p x = true
    · simp [List.takeWhile_cons, hx, ih]
    · simp [List.takeWhile_cons, hx]

theorem drop_takeWhile_length (l : List Byte) (p : Byte → Bool) :
    l.drop (l.takeWhile p).length = l.dropWhile p := by
  induction l with
  | nil => rfl
  | cons x xs ih =>
    by_cases hx : p x = true
    · simp [List.takeWhile_cons, List.dropWhile_cons, hx, ih]
    · simp [List.takeWhile_cons, List.dropWhile_cons, hx]

theorem count_after_nul (l : List Byte) (h : 0 < l.count 0) :
    ((l.dropWhile (fun b => b != 0)).drop 1).count 0 + 1 = l.count 0 := by
  induction l with
  | nil => simp at h
  | cons x xs ih =>
    by_cases hx : x = 0
    · subst hx
      simp [List.dropWhile_cons]
    · have hc : 0 < xs.count 0 := by
        rw [List.count_cons] at h
        have : (x == 0) = false := by simpa using hx
        simp only [this] at h
        simpa using h
      have hb : (x != 0) = true := by simpa using hx
      have hbeq : (x == 0) = false := by simpa using hx
      rw [List.dropWhile_cons, if_pos hb, ih hc, List.count_cons]
      simp [hbeq]

theorem takeWhile_length_lt (l : List Byte) (h : 0 < l.count 0) :
    (l.takeWhile (fun b => b != 0)).length < l.length := by
  have := memchr_lt 0 l _ (memchr_takeWhile l h)
  exact this

/-- The loop under `UNPACK_STRING` on a budget that reaches the end of the data
and holds at least `k` NUL bytes: it stores the first `k` strings and moves
past the `k`-th NUL. -/
theorem loopString_cstrings (data : List Byte) (k : Nat) :
    ∀ st : UnpackState, st.head + st.len = data.length → k ≤ (data.drop st.head).count 0 →
      loopString data k st = .ok
        { st with
          out := storeList st.out st.idx ((cstrings k (data.drop st.head)).map LuaValue.string)
          idx := st.idx + k
          head := st.head + (((cstrings k (data.drop st.head)).map List.length).sum + k)
          len := st.len - (((cstrings k (data.drop st.head)).map List.length).sum + k) } := by
  induction k with
  | zero =>
    intro st _ _
    simp [loopString, cstrings, storeList]
  | succ k ih =>
    intro st hb hk
    have hpos : 0 < (data.drop st.head).count 0 := by omega
    have hl : lstring data st.head st.len = data.drop st.head := by
      unfold lstring
      apply List.take_of_length_le
      simp only [List.length_drop]
      omega
    have hm := memchr_takeWhile (data.drop st.head) hpos
    have hlt := takeWhile_length_lt (data.drop st.head) hpos
    simp only [List.length_drop] at hlt
    have hs : lstring data st.head ((data.drop st.head).takeWhile (fun b => b != 0)).length
        = (data.drop st.head).takeWhile (fun b => b != 0) := take_takeWhile_length _ _
    have hd : data.drop (st.head + (((data.drop st.head).takeWhile (fun b => b != 0)).length + 1))
        = ((data.drop st.head).dropWhile (fun b => b != 0)).drop 1 := by
      rw [← drop_takeWhile_length, List.drop_drop, List.drop_drop]
    have hc := count_after_nul (data.drop st.head) hpos
    have ih1 := ih
      { st with
        out := Function.update st.out st.idx
          (some (.string ((data.drop st.head).takeWhile (fun b => b != 0))))
        idx := st.idx + 1
        head := st.head + (((data.drop st.head).takeWhile (fun b => b != 0)).length + 1)
        len := st.len - (((data.drop st.head).takeWhile (fun b => b != 0)).length + 1) }
      (by simp only; omega) (by simp only; rw [hd]; omega)
    simp only [hd] at ih1
    simp only [loopString, hl, hm, hs, ih1, cstrings, List.map_cons, List.sum_cons, storeList,
      Except.ok.injEq, UnpackState.mk.injEq, true_and, and_true]
    refine ⟨?_, ?_, ?_⟩ <;> omega

theorem foldl_digits_ge (ds : List Char) :
    ∀ acc : Nat, acc ≤ ds.foldl (fun a c => a * 10 + (c.toNat - '0'.toNat)) acc := by
  induction ds with
  | nil => intro acc; exact le_refl _
  | cons c cs ih =>
    intro acc
    simp only [List.foldl_cons]
    have := ih (acc * 10 + (c.toNat - '0'.toNat))
    omega

theorem digits_all (ds : List Char) :
    ∀ acc : Nat, ds ≠ [] → (∀ c ∈ ds, c.isDigit = true) →
      ds.foldl (fun a c => a * 10 + (c.toNat - '0'.toNat)) acc ≤ INT32_MAX →
      digits ds acc = .ok (ds.foldl (fun a c => a * 10 + (c.toNat - '0'.toNat)) acc, []) := by
  induction ds with
  | nil => intro acc h; exact absurd rfl h
  | cons c cs ih =>
    intro acc _ hd hmax
    simp only [List.foldl_cons] at hmax ⊢
    have hge := foldl_digits_ge cs (acc * 10 + (c.toNat - '0'.toNat))
    have h1 : ¬ (acc * 10 + (c.toNat - '0'.toNat) > INT32_MAX) := by omega
    simp only [digits, h1, if_false]
    cases cs with
    | nil => simp [peek]
    | cons d r =>
      have hdd : (peek (d :: r)).isDigit = true :=
        hd d (List.mem_cons_of_mem _ (List.mem_cons_self _ _))
      simp only [hdd, if_true]
      exact ih _ (by simp) (fun x hx => hd x (List.mem_cons_of_mem _ hx)) hmax

/-- The count of an `s` directive followed by the digits `ds` and the end of
the format. -/
theorem lengthModifier_s (ds : List Char) (pre_iv : Int) (hds : ∀ c ∈ ds, c.isDigit = true)
    (hk1 : 1 ≤ directiveCount ds) (hk2 : directiveCount ds ≤ INT32_MAX) :
    lengthModifier 's' ds pre_iv = .ok (directiveCount ds, []) := by
  cases ds with
  | nil =>
    have e : directiveCount [] = 1 := rfl
    rw [e]
    exact lengthModifier_none 's' [] pre_iv (by decide) (by decide) (by decide)
  | cons d r =>
    have e : directiveCount (d :: r) = decimalValue (d :: r) := by
      simp [directiveCount]
    rw [e] at hk1 hk2 ⊢
    have hdd : (peek (d :: r)).isDigit = true := hds d (List.mem_cons_self _ _)
    have hdig := digits_all (d :: r) 0 (by simp) hds hk2
    have hsL : ¬ ('s' = 'L') := by decide
    have h0 : ¬ (decimalValue (d :: r) = 0) := by omega
    unfold lengthModifier
    simp only [hdd, if_true, hsL, if_false]
    rw [hdig]
    simp only [decimalValue] at h0 ⊢
    simp only [h0, if_false]

theorem storeList_other (vals : List LuaValue) :
    ∀ (out : LuaTable) (idx j : Nat), (j < idx ∨ idx + vals.length ≤ j) →
      storeList out idx vals j = out j := by
  induction vals with
  | nil => intro out idx j _; rfl
  | cons v vs ih =>
    intro out idx j h
    simp only [storeList]
    rw [ih _ _ _ (by simp only [List.length_cons] at h; omega)]
    have : j ≠ idx := by simp only [List.length_cons] at h; omega
    simp [Function.update, this]

theorem storeList_get (vals : List LuaValue) :
    ∀ (out : LuaTable) (idx i : Nat), i < vals.length →
      storeList out idx vals (idx + i) = vals.get? i := by
  induction vals with
  | nil => intro out idx i h; simp at h
  | cons v vs ih =>
    intro out idx i h
    simp only [storeList]
    cases i with
    | zero =>
      rw [Nat.add_zero, storeList_other vs _ _ _ (Or.inl (by omega))]
      simp
    | succ j =>
      have := ih (Function.update out idx (some v)) (idx + 1) j
        (by simp only [List.length_cons] at h; omega)
      rw [show idx + (j + 1) = idx + 1 + j by omega, this]
      simp

theorem cstrings_length (k : Nat) : ∀ data : List Byte, (cstrings k data).length = k := by
  induction k with
  | zero => intro data; rfl
  | succ k ih => intro data; simp [cstrings, ih]

theorem takeWhile_append_nul (l : List Byte) (h : 0 < l.count 0) :
    l = l.takeWhile (fun b => b != 0) ++ 0 :: (l.dropWhile (fun b => b != 0)).drop 1 := by
  induction l with
  | nil => simp at h
  | cons x xs ih =>
    by_cases hx : x = 0
    · subst hx
      simp [List.takeWhile_cons, List.dropWhile_cons]
    · have hc : 0 < xs.count 0 := by
        rw [List.count_cons] at h
        have : (x == 0) = false := by simpa using hx
        simp only [this] at h
        simpa using h
      have hb : (x != 0) = true := by simpa using hx
      rw [List.takeWhile_cons, List.dropWhile_cons, if_pos hb, if_pos hb, List.cons_append, ← ih hc]

/-- The strings of `cstrings`, each followed by its NUL, are the data up to
the offset past the `k`-th NUL; none of them holds a NUL. -/
theorem cstrings_spec (k : Nat) : ∀ data : List Byte, k ≤ data.count 0 →
    ((cstrings k data).map (fun s => s ++ [0])).flatten
      = data.take (((cstrings k data).map List.length).sum + k) ∧
    ∀ s ∈ cstrings k data, (0 : Byte) ∉ s := by
  induction k with
  | zero => intro data _; simp [cstrings]
  | succ k ih =>
    intro data hk
    have hpos : 0 < data.count 0 := by omega
    have hc := count_after_nul data hpos
    obtain ⟨a, b⟩ := ih ((data.dropWhile (fun b => b != 0)).drop 1) (by omega)
    have hsplit := takeWhile_append_nul data hpos
    constructor
    · simp only [cstrings, List.map_cons, List.flatten_cons, List.sum_cons, a]
      generalize hr : (data.dropWhile (fun b => b != 0)).drop 1 = r at hsplit ⊢
      generalize ht : data.takeWhile (fun b => b != 0) = tw at hsplit ⊢
      rw [hsplit]
      have e : tw.length + ((cstrings k r).map List.length).sum + (k + 1)
          = tw.length + ((((cstrings k r).map List.length).sum + k) + 1) := by omega
      rw [e, List.take_append, List.take_succ_cons]
      simp
    · intro s hs
      simp only [cstrings, List.mem_cons] at hs
      rcases hs with rfl | hs
      · intro hmem
        have := List.mem_takeWhile_imp hmem
        simp at this
      · exact b s hs

/-- C25: for the format `s` followed by the digits `ds` (none for the count 1)
whose count `k` is at least 1 and at most `INT32_MAX`, on data that holds at
least `k` NUL bytes, `unpack` returns as consumed count the offset just past the
`k`-th NUL and stores at the indices 1 to `k`, in order, the `k` byte strings
that the first `k` NUL bytes end: each string followed by its NUL, one after
the other, makes up the consumed bytes, and no string holds a NUL.  The other
entries of the table are unchanged. -/
theorem unpack_strings (out : LuaTable) (ds : List Char) (data : List Byte)
    (hds : ∀ c ∈ ds, c.isDigit = true) (hk1 : 1 ≤ directiveCount ds)
    (hk2 : directiveCount ds ≤ INT32_MAX) (hnul : directiveCount ds ≤ data.count 0) :
    unpack_lua out ('s' :: ds) data
      = some ⟨.consumed (((cstrings (directiveCount ds) data).map List.length).sum
                + directiveCount ds),
          storeList out 1 ((cstrings (directiveCount ds) data).map .string)⟩ ∧
    (∀ i, i < directiveCount ds →
      storeList out 1 ((cstrings (directiveCount ds) data).map .string) (1 + i)
        = ((cstrings (directiveCount ds) data).get? i).map .string) ∧
    (∀ j, (j < 1 ∨ 1 + directiveCount ds ≤ j) →
      storeList out 1 ((cstrings (directiveCount ds) data).map .string) j = out j) ∧
    ((cstrings (directiveCount ds) data).map (fun s => s ++ [0])).flatten
      = data.take (((cstrings (directiveCount ds) data).map List.length).sum
          + directiveCount ds) ∧
    (∀ s ∈ cstrings (directiveCount ds) data, (0 : Byte) ∉ s) := by
  have hspec := cstrings_spec (directiveCount ds) data hnul
  have hlen := cstrings_length (directiveCount ds) data
  refine ⟨?_, ?_, ?_, hspec.1, hspec.2⟩
  · have hty : typeSpecifier 's' (initState out data).msglen = .ok (1, .UNPACK_STRING) := rfl
    have hmod := lengthModifier_s ds (initState out data).pre_iv hds hk1 hk2
    have hcount : data.count 0 ≤ data.length := List.count_le_length _ _
    have hpre : ¬ ((initState out data).len < 1 * directiveCount ds) := by
      simp only [initState]
      omega
    have hloop := loopString_cstrings data (directiveCount ds)
      { initState out data with pre_iv := INTMAX_MIN } (by simp [initState])
      (by simpa [initState] using hnul)
    have hs0 : ¬ ('s' = '\x00') := by decide
    simp only [unpack_lua, List.length_cons, unpackLoop, hs0, if_false, directive, hty, hmod,
      hpre, unpackLabel, hloop]
    cases ds.length <;> simp [unpackLoop, initState]
  · intro i hi
    have := storeList_get ((cstrings (directiveCount ds) data).map LuaValue.string) out 1 i
      (by simp [hlen, hi])
    rw [this]
    simp
  · intro j hj
    exact storeList_other _ out 1 j (by simpa [hlen] using hj)

/-- C25, at the format "s2" on the bytes `a b 00 00 c 00`: the call consumes 4
bytes and stores the strings `a b` and the empty string. -/
theorem unpack_strings_witness :
    (∀ c ∈ ['2'], c.isDigit = true) ∧ 1 ≤ directiveCount ['2'] ∧
    directiveCount ['2'] ≤ INT32_MAX ∧
    directiveCount ['2'] ≤ ([97, 98, 0, 0, 99, 0] : List Byte).count 0 ∧
    unpack_lua emptyTable ['s', '2'] [97, 98, 0, 0, 99, 0]
      = some ⟨.consumed (((cstrings (directiveCount ['2']) [97, 98, 0, 0, 99, 0]).map
                List.length).sum + directiveCount ['2']),
          storeList emptyTable 1
            ((cstrings (directiveCount ['2']) [97, 98, 0, 0, 99, 0]).map .string)⟩ ∧
    cstrings (directiveCount ['2']) [97, 98, 0, 0, 99, 0] = [[97, 98], []] ∧
    ((cstrings (directiveCount ['2']) [97, 98, 0, 0, 99, 0]).map List.length).sum
      + directiveCount ['2'] = 4 :=
  ⟨by decide, by decide, by decide, by decide,
    (unpack_strings emptyTable ['2'] [97, 98, 0, 0, 99, 0] (by decide) (by decide) (by decide)
      (by decide)).1,
    by decide, by decide⟩

/-! ## Claims on a string that lacks its NUL, and on an exhausted frame -/

theorem memchr_none (l : List Byte) (h : l.count 0 = 0) : memchr 0 l = none := by
  induction l with
  | nil => rfl
  | cons x xs ih =>
    have hx : x ≠ 0 := by
      intro e
      subst e
      simp at h
    have hc : xs.count 0 = 0 := by
      rw [List.count_cons] at h
      omega
    simp [memchr, hx, ih hc]

/-- The text of the error for a string without a NUL inside the frame. -/
theorem loopString_missing_nul (data : List Byte) (k : Nat) :
    ∀ st : UnpackState, (lstring data st.head st.len).count 0 < k →
      ∃ T, loopString data k st = .error
        ⟨(if st.msglen = -1 then .notEnough
          else .failure ("unable to unpack string data: message length specified as "
            ++ toString st.msglen ++ " is insufficient to unpack the string data")), T⟩ := by
  induction k with
  | zero => intro st h; omega
  | succ k ih =>
    intro st h
    by_cases hc : (lstring data st.head st.len).count 0 = 0
    · have hm := memchr_none _ hc
      simp only [loopString, hm]
      split
      · exact ⟨_, rfl⟩
      · exact ⟨_, rfl⟩
    · have hpos : 0 < (lstring data st.head st.len).count 0 := by omega
      have hm := memchr_takeWhile _ hpos
      have hcount := count_after_nul _ hpos
      have hl : lstring data
          (st.head + (((lstring data st.head st.len).takeWhile (fun b => b != 0)).length + 1))
          (st.len - (((lstring data st.head st.len).takeWhile (fun b => b != 0)).length + 1))
          = ((lstring data st.head st.len).dropWhile (fun b => b != 0)).drop 1 := by
        rw [← drop_takeWhile_length, List.drop_drop]
        unfold lstring
        rw [List.drop_take, List.drop_drop]
      simp only [loopString, hm]
      have := ih
        { st with
          out := Function.update st.out st.idx (some (.string (lstring data st.head
            ((lstring data st.head st.len).takeWhile (fun b => b != 0)).length)))
          idx := st.idx + 1
          head := st.head + (((lstring data st.head st.len).takeWhile (fun b => b != 0)).length + 1)
          len := st.len - (((lstring data st.head st.len).takeWhile (fun b => b != 0)).length + 1) }
        (by simp only; rw [hl]; omega)
      exact this

/-- The extension of a run: a result on `d` other than `nil, nil, true` is the
result on every extension of `d`. -/
theorem unpack_lua_extend (out : LuaTable) (fmt : List Char) (d ext : List Byte)
    (h : (unpack_lua out fmt d).map (·.outcome) ≠ some .notEnough) :
    unpack_lua out fmt (d ++ ext) = unpack_lua out fmt d := by
  have ht : Trunc d (initState out (d ++ ext)) d.length := by
    refine ⟨by simp [initState], by simp [initState], fun hmsg => ?_⟩
    exact absurd rfl hmsg
  rcases unpackLoop_trunc d ext fmt.length fmt _ _ ht with ⟨T1, h1⟩ | h1
  · have e : unpack_lua out fmt d = some ⟨.notEnough, T1⟩ := h1
    rw [e] at h
    exact absurd rfl h
  · exact h1.symm

/-- C28: when the decoding reaches an `s` directive of count `k` whose budget
holds at least `k` bytes but fewer than `k` NUL bytes, then, if an `L` was
decoded before (the budget is the rest of the frame), `unpack` returns `nil`
and the message on the insufficient message length, for the data and for every
extension of it; and if no `L` was decoded before, it returns `nil, nil,
true`. -/
theorem unpack_string_missing_nul (out : LuaTable) (fmt : List Char) (data : List Byte)
    (n : Nat) (rest : List Char) (st : UnpackState) (k : Nat) (rest1 : List Char)
    (hit : unpackIter data n fmt (initState out data) = some ('s' :: rest, st))
    (hmod : lengthModifier 's' rest st.pre_iv = .ok (k, rest1)) (hk : k ≤ st.len)
    (hnul : (lstring data st.head st.len).count 0 < k) :
    (st.msglen ≠ -1 → ∀ E : List Byte,
      (unpack_lua out fmt (data ++ E)).map (·.outcome)
        = some (.failure ("unable to unpack string data: message length specified as "
            ++ toString st.msglen ++ " is insufficient to unpack the string data"))) ∧
    (st.msglen = -1 → (unpack_lua out fmt data).map (·.outcome) = some .notEnough) := by
  have e := unpack_lua_of_unpackIter out fmt data n _ st hit
  have hs0 : ¬ ('s' = '\x00') := by decide
  have hty : typeSpecifier 's' st.msglen = .ok (1, .UNPACK_STRING) := by
    simp [typeSpecifier]
  have hpre : ¬ (st.len < 1 * k) := by omega
  obtain ⟨T, hloop⟩ := loopString_missing_nul data k { st with pre_iv := INTMAX_MIN } hnul
  simp only [List.length_cons, unpackLoop, hs0, if_false, directive, hty, hmod, hpre, unpackLabel,
    hloop] at e
  constructor
  · intro hm E
    simp only [hm, if_false] at e
    have hres : (unpack_lua out fmt data).map (·.outcome)
        = some (.failure ("unable to unpack string data: message length specified as "
            ++ toString st.msglen ++ " is insufficient to unpack the string data")) := by
      rw [e]; rfl
    rw [unpack_lua_extend out fmt data E (by rw [hres]; simp), hres]
  · intro hm
    simp only [hm, if_true] at e
    rw [e]
    rfl

/-- C28, at the format "Ls" on a frame of 6 bytes without a NUL, followed by a
NUL byte outside the frame: the call returns the message for the message
length 6; and at the format "s" on data without a NUL it returns `nil, nil,
true`. -/
theorem unpack_string_missing_nul_witness :
    unpackIter [0, 0, 0, 6, 97, 98] 1 ['L', 's'] (initState emptyTable [0, 0, 0, 6, 97, 98])
      = some (['s'], ⟨4, 2, 6, INTMAX_MIN, 2, Function.update emptyTable 1 (some (.integer 6))⟩) ∧
    (unpack_lua emptyTable ['L', 's'] ([0, 0, 0, 6, 97, 98] ++ [0])).map (·.outcome)
      = some (.failure ("unable to unpack string data: message length specified as 6 "
          ++ "is insufficient to unpack the string data")) ∧
    (unpack_lua emptyTable ['s'] [97, 98]).map (·.outcome) = some .notEnough :=
  ⟨rfl,
    (unpack_string_missing_nul emptyTable ['L', 's'] [0, 0, 0, 6, 97, 98] 1 []
      ⟨4, 2, 6, INTMAX_MIN, 2, Function.update emptyTable 1 (some (.integer 6))⟩ 1 []
      rfl rfl (by decide) (by decide)).1 (by decide) [0],
    (unpack_string_missing_nul emptyTable ['s'] [97, 98] 0 [] (initState emptyTable [97, 98]) 1 []
      rfl rfl (by decide) (by decide)).2 rfl⟩

/-- The iterations on truncated data are the iterations on the full data. -/
theorem unpackIter_trunc (d ext : List Byte) (n : Nat) :
    ∀ (fmt : List Char) (st : UnpackState) (l : Nat) (rest : List Char) (s1 : UnpackState),
      Trunc d st l → unpackIter d n fmt { st with len := l } = some (rest, s1) →
      ∃ st1 l1, s1 = { st1 with len := l1 } ∧
        unpackIter (d ++ ext) n fmt st = some (rest, st1) ∧ Trunc d st1 l1 := by
  induction n with
  | zero =>
    intro fmt st l rest s1 ht h
    simp only [unpackIter, Option.some.injEq, Prod.mk.injEq] at h
    obtain ⟨rfl, rfl⟩ := h
    exact ⟨st, l, rfl, rfl, ht⟩
  | succ n ih =>
    intro fmt st l rest s1 ht h
    cases fmt with
    | nil => simp [unpackIter] at h
    | cons t cs =>
      simp only [unpackIter] at h ⊢
      by_cases hnul : t = '\x00'
      · simp [hnul] at h
      · simp only [hnul, if_false] at h ⊢
        rcases directive_trunc d ext t cs st l ht with ⟨T, h1⟩ | ⟨r, h1, _⟩ | ⟨rest1, st1, l1, h1, h2, h3⟩
        · simp [h1] at h
        · simp [h1] at h
        · simp only [h1] at h
          simp only [h2]
          exact ih rest1 st1 l1 rest s1 h3 h

/-- C29: when the decoding reaches, after an `L` was decoded, a directive of
unit size `unit` and count `k` (an `h`, `i`, `b` or `s` directive; an `L` would
raise) that needs more bytes than the budget of the frame holds, `unpack`
returns `nil, nil, true`, and it returns the same for every extension of the
data. -/
theorem unpack_frame_exhausted (out : LuaTable) (fmt : List Char) (data : List Byte) (n : Nat)
    (t : Char) (rest : List Char) (st : UnpackState) (unit : Nat) (label : Label) (k : Nat)
    (rest1 : List Char)
    (hit : unpackIter data n fmt (initState out data) = some (t :: rest, st))
    (hL : st.msglen ≠ -1) (hty : typeSpecifier t st.msglen = .ok (unit, label))
    (hmod : lengthModifier t rest st.pre_iv = .ok (k, rest1)) (hlen : st.len < unit * k) :
    ∀ E : List Byte, (unpack_lua out fmt (data ++ E)).map (·.outcome) = some .notEnough := by
  intro E
  have ht : Trunc data (initState out (data ++ E)) data.length := by
    refine ⟨by simp [initState], by simp [initState], fun hmsg => ?_⟩
    exact absurd rfl hmsg
  obtain ⟨st1, l1, hs, hit1, ht1⟩ := unpackIter_trunc data E n fmt _ _ _ _ ht hit
  have hm1 : st1.msglen = st.msglen := by rw [hs]
  have hl1 : l1 = st1.len := ht1.2.2 (by rw [hm1]; exact hL)
  have hst : st = st1 := by rw [hs, hl1]
  subst hst
  have e := unpack_lua_of_unpackIter out fmt (data ++ E) n _ st hit1
  have hnul : ¬ (t = '\x00') := by
    intro h0
    subst h0
    simp [typeSpecifier] at hty
  simp only [List.length_cons, unpackLoop, hnul, if_false, directive, hty, hmod, hlen, if_true] at e
  rw [e]
  rfl

/-- C29, at the format "Li" on `be32(4)`: the `L` directive leaves a budget of
0 bytes, and for every byte string `E` the call on `be32(4) ++ E` returns
`nil, nil, true`. -/
theorem unpack_frame_exhausted_witness :
    unpackIter [0, 0, 0, 4] 1 ['L', 'i'] (initState emptyTable [0, 0, 0, 4])
      = some (['i'], ⟨4, 0, 4, INTMAX_MIN, 2, Function.update emptyTable 1 (some (.integer 4))⟩) ∧
    be32 4 = [0, 0, 0, 4] ∧
    (∀ E : List Byte,
      (unpack_lua emptyTable ['L', 'i'] ([0, 0, 0, 4] ++ E)).map (·.outcome) = some .notEnough) :=
  ⟨rfl, by decide,
    unpack_frame_exhausted emptyTable ['L', 'i'] [0, 0, 0, 4] 1 'i' []
      ⟨4, 0, 4, INTMAX_MIN, 2, Function.update emptyTable 1 (some (.integer 4))⟩ 4 .UNPACK_NTOHL 1 []
      rfl (by decide) rfl rfl (by decide)⟩

/-! ## Claim on the index of `param_type` -/

theorem c_int_id (n : Int) (h1 : -2 ^ 31 ≤ n) (h2 : n < 2 ^ 31) : c_int n = n := by
  unfold c_int
  exact toInt32_emod n h1 h2

theorem paramTypes_get (env : Env) (res : Ptr)
    (hpure : ∀ n m i, (env.reply n "PQparamtype" [.ptr res, .int i]).int
      = (env.reply m "PQparamtype" [.ptr res, .int i]).int) (n : Nat) :
    ∀ (i0 : Int) (w : World) (k : Nat), k < n →
      (util.paramTypes env res n i0 w).1.get? k
        = some (.integer (env.reply 0 "PQparamtype" [.ptr res, .int (i0 + k)]).int) := by
  induction n with
  | zero => intro i0 w k hk; omega
  | succ n ih =>
    intro i0 w k hk
    simp only [util.paramTypes, World.native]
    cases k with
    | zero =>
      simp only [List.get?_cons_zero, Nat.cast_zero, Int.add_zero, Option.some.injEq,
        LVal.integer.injEq]
      exact hpure _ _ _
    | succ k =>
      simp only [List.get?_cons_succ]
      rw [ih (i0 + 1) _ k (by omega)]
      have e : i0 + 1 + (k : Int) = i0 + ((k + 1 : Nat) : Int) := by push_cast; omega
      rw [e]

theorem append_three (f1 : List (String × LVal)) (a b c : String × LVal) :
    f1 ++ [a, b, c] = (f1 ++ [a, b]) ++ [c] := by
  simp

/-- The last field that the statements for a command set, when the result has
parameters. -/
theorem commandBlock_params (env : Env) (res : Ptr) (w : World) (p : Nat) (hp0 : p ≠ 0)
    (hp : ∀ n, (env.reply n "PQnparams" [.ptr res]).int = p) :
    ∃ (xs : List (String × LVal)) (w1 : World),
      (util.commandBlock env res w).1
        = xs ++ [("params", .array (util.paramTypes env res p 0 w1).1)] := by
  have h1 : (env.reply w.log.length "PQnparams" [.ptr res]).int ≠ 0 := by
    rw [hp]
    exact_mod_cast hp0
  simp only [util.commandBlock, World.native, hp, ne_eq, Nat.cast_eq_zero, hp0,
    not_false_eq_true, if_true, Int.toNat_ofNat]
  split
  · exact ⟨_, _, append_three _ _ _ _⟩
  · exact ⟨_, _, append_three _ _ _ _⟩

theorem fieldOf_last (ys : List (String × LVal)) (key : String) (v : LVal) :
    fieldOf (.record (ys ++ [(key, v)])) key = some v := by
  simp [fieldOf, List.lookup]

theorem pgresult_check_live (r : pgresult_t) (res : Ptr) (hr : r.result = some res) :
    pgresult_check r = .ok res := by
  simp only [pgresult_check, hr]

/-- The table of `get_result_stat_lua` for a result with parameters whose
status is one of those that reach the statements for a command: its last
field is `params`. -/
theorem get_result_stat_params (r : pgresult_t) (res : Ptr) (env : Env) (w : World) (p : Nat)
    (hr : r.result = some res) (hp0 : p ≠ 0)
    (hstatus : (env.reply w.log.length "PQresultStatus" [.ptr res]).int = PGRES_COMMAND_OK ∨
      (env.reply w.log.length "PQresultStatus" [.ptr res]).int = PGRES_TUPLES_OK ∨
      (env.reply w.log.length "PQresultStatus" [.ptr res]).int = PGRES_SINGLE_TUPLE)
    (hp : ∀ n, (env.reply n "PQnparams" [.ptr res]).int = p) :
    ∃ (ys : List (String × LVal)) (w1 : World),
      (util.get_result_stat_lua r [] env w).ret
        = .values [.record (ys ++ [("params", .array (util.paramTypes env res p 0 w1).1)])] := by
  have hc := pgresult_check_live r res hr
  simp only [util.get_result_stat_lua, hc, World.native]
  rcases hstatus with h | h | h
  · have n1 : ¬ ((env.reply w.log.length "PQresultStatus" [.ptr res]).int = PGRES_SINGLE_TUPLE ∨
        (env.reply w.log.length "PQresultStatus" [.ptr res]).int = PGRES_TUPLES_OK) := by
      rw [h]; decide
    rw [if_neg n1, if_pos h]
    obtain ⟨xs, w1, e⟩ := commandBlock_params env res
      { errno := (env.reply (w.log ++ [Event.native "PQresultStatus" [Arg.ptr res]]).length
            "PQcmdStatus" [Arg.ptr res]).errno.getD
          ((env.reply w.log.length "PQresultStatus" [Arg.ptr res]).errno.getD w.errno),
        log := w.log ++ [Event.native "PQresultStatus" [Arg.ptr res]]
          ++ [Event.native "PQcmdStatus" [Arg.ptr res]],
        registry := w.registry, refs := w.refs } p hp0 hp
    simp only [e]
    exact ⟨_, w1, by rw [← List.append_assoc]⟩
  · have n1 : ((env.reply w.log.length "PQresultStatus" [.ptr res]).int = PGRES_SINGLE_TUPLE ∨
        (env.reply w.log.length "PQresultStatus" [.ptr res]).int = PGRES_TUPLES_OK) := Or.inr h
    rw [if_pos n1]
    obtain ⟨xs, w1, e⟩ := commandBlock_params env res
      (util.tuplesBlock env res
        { errno := (env.reply (w.log ++ [Event.native "PQresultStatus" [Arg.ptr res]]).length
              "PQcmdStatus" [Arg.ptr res]).errno.getD
            ((env.reply w.log.length "PQresultStatus" [Arg.ptr res]).errno.getD w.errno),
          log := w.log ++ [Event.native "PQresultStatus" [Arg.ptr res]]
            ++ [Event.native "PQcmdStatus" [Arg.ptr res]],
          registry := w.registry, refs := w.refs }).2 p hp0 hp
    simp only [e]
    exact ⟨_, w1, by rw [← List.append_assoc]⟩
  · have n1 : ((env.reply w.log.length "PQresultStatus" [.ptr res]).int = PGRES_SINGLE_TUPLE ∨
        (env.reply w.log.length "PQresultStatus" [.ptr res]).int = PGRES_TUPLES_OK) := Or.inl h
    rw [if_pos n1]
    obtain ⟨xs, w1, e⟩ := commandBlock_params env res
      (util.tuplesBlock env res
        { errno := (env.reply (w.log ++ [Event.native "PQresultStatus" [Arg.ptr res]]).length
              "PQcmdStatus" [Arg.ptr res]).errno.getD
            ((env.reply w.log.length "PQresultStatus" [Arg.ptr res]).errno.getD w.errno),
          log := w.log ++ [Event.native "PQresultStatus" [Arg.ptr res]]
            ++ [Event.native "PQcmdStatus" [Arg.ptr res]],
          registry := w.registry, refs := w.refs }).2 p hp0 hp
    simp only [e]
    exact ⟨_, w1, by rw [← List.append_assoc]⟩

/-- C30: `param_type(i)` calls `PQparamtype` with the index `i` unchanged,
where the column accessor `ftype(c)` calls `PQftype` with `c - 1`; and for a
result with `p` parameters whose status reaches the statements for a command
in `get_result_stat` (`command_ok`, `tuples_ok` or `single_tuple`), with libpq
answering `PQparamtype` and `PQnparams` for that result the same at every
call, the entry `params[j]` of the table of `get_result_stat` is the type of
the native parameter `j - 1`, which is what `param_type(j - 1)` returns, for
every `1 ≤ j ≤ p` (the type being a valid one, not 0). -/
theorem param_type_index (r : pgresult_t) (res : Ptr) (env : Env) (w : World) (p j : Nat)
    (hr : r.result = some res)
    (hstatus : (env.reply w.log.length "PQresultStatus" [.ptr res]).int = PGRES_COMMAND_OK ∨
      (env.reply w.log.length "PQresultStatus" [.ptr res]).int = PGRES_TUPLES_OK ∨
      (env.reply w.log.length "PQresultStatus" [.ptr res]).int = PGRES_SINGLE_TUPLE)
    (hpure : ∀ n m i, (env.reply n "PQparamtype" [.ptr res, .int i]).int
      = (env.reply m "PQparamtype" [.ptr res, .int i]).int)
    (hp : ∀ n, (env.reply n "PQnparams" [.ptr res]).int = p)
    (hj : 1 ≤ j ∧ j ≤ p) (hmax : p < 2 ^ 31)
    (hoid : (env.reply 0 "PQparamtype" [.ptr res, .int ((j : Int) - 1)]).int ≠ 0) :
    (∀ (i : Int) (w2 : World), -2 ^ 31 ≤ i → i < 2 ^ 31 →
      (pgresult.param_type_lua r [.integer i] env w2).world.log
        = w2.log ++ [.native "PQparamtype" [.ptr res, .int i]]) ∧
    (∀ (c : Int) (w2 : World), 1 ≤ c → c < 2 ^ 31 →
      (pgresult.ftype_lua r [.integer c] env w2).world.log
        = w2.log ++ [.native "PQftype" [.ptr res, .int (c - 1)]]) ∧
    (∃ stat params, (util.get_result_stat_lua r [] env w).ret = .values [stat] ∧
      fieldOf stat "params" = some params ∧
      itemOf params j
        = some (.integer (env.reply 0 "PQparamtype" [.ptr res, .int ((j : Int) - 1)]).int) ∧
      ∀ w2 : World, (pgresult.param_type_lua r [.integer ((j : Int) - 1)] env w2).ret
        = .values [.integer (env.reply 0 "PQparamtype" [.ptr res, .int ((j : Int) - 1)]).int]) := by
  have hc := pgresult_check_live r res hr
  refine ⟨?_, ?_, ?_⟩
  · intro i w2 h1 h2
    have a1 : lauxh_checkinteger 2 (argAt [LVal.integer i] 2) = .ok i := rfl
    simp only [pgresult.param_type_lua, hc, a1, c_int_id i h1 h2, World.native]
    split <;> rfl
  · intro c w2 h1 h2
    have a1 : lauxh_checkpinteger 2 (argAt [LVal.integer c] 2) = .ok c := by
      have : (0 : Int) < c := by omega
      simp [lauxh_checkpinteger, argAt, this]
    simp only [pgresult.ftype_lua, pgresult.checkCol, hc, a1,
      c_int_id (c - 1) (by omega) (by omega), World.native]
    split <;> rfl
  · obtain ⟨ys, w1, e⟩ := get_result_stat_params r res env w p hr (by omega) hstatus hp
    refine ⟨_, _, e, fieldOf_last _ _ _, ?_, ?_⟩
    · have hj0 : ¬ (j = 0) := by omega
      have hg := paramTypes_get env res hpure p 0 w1 (j - 1) (by omega)
      have ecast : (0 : Int) + ((j - 1 : Nat) : Int) = (j : Int) - 1 := by omega
      rw [ecast] at hg
      simp only [itemOf, hj0, if_false, hg]
    · intro w2
      have a1 : lauxh_checkinteger 2 (argAt [LVal.integer ((j : Int) - 1)] 2)
          = .ok ((j : Int) - 1) := rfl
      have hne : (env.reply w2.log.length "PQparamtype" [.ptr res, .int ((j : Int) - 1)]).int ≠ 0 := by
        rw [hpure _ 0]
        exact hoid
      simp only [pgresult.param_type_lua, hc, a1, c_int_id ((j : Int) - 1) (by omega) (by omega),
        World.native]
      rw [if_pos hne, hpure w2.log.length 0]

/-- C30, on the description of a statement with the parameter types 23 and
25: `get_result_stat(res).params` is `{23, 25}`, its entry 2 is 25, and
`param_type(1)` returns 25. -/
theorem param_type_index_witness :
    (util.get_result_stat_lua ⟨5, LPGRESULT_IS_ALLOCATED, some 9⟩ [] describeEnv emptyWorld).ret
      = .values [.record [("status", .string "command_ok"), ("cmd_status", .nil),
          ("oid_value", .integer 0), ("nparams", .integer 2),
          ("params", .array [.integer 23, .integer 25])]] ∧
    (∃ stat params,
      (util.get_result_stat_lua ⟨5, LPGRESULT_IS_ALLOCATED, some 9⟩ [] describeEnv emptyWorld).ret
        = .values [stat] ∧
      fieldOf stat "params" = some params ∧
      itemOf params 2 = some (.integer 25) ∧
      ∀ w2 : World,
        (pgresult.param_type_lua ⟨5, LPGRESULT_IS_ALLOCATED, some 9⟩ [.integer (2 - 1)]
          describeEnv w2).ret = .values [.integer 25]) :=
  ⟨rfl,
    (param_type_index ⟨5, LPGRESULT_IS_ALLOCATED, some 9⟩ 9 describeEnv emptyWorld 2 2 rfl
      (Or.inl rfl) (fun _ _ _ => rfl) (fun _ => rfl) (by decide) (by decide) (by decide)).2.2⟩

end Postgres
